import Mathlib

/-!
# SPI driver (`drivers/spi.c`): slave command protocol and master transfers

A shallow embedding of the interrupt-driven slave side of the driver:
`spi_get_frame_size`, `spi_set_tmod`, `spi_slave_idle_mode`,
`spi_slave_command_mode`, `spi_slave_transfer_mode`, `spi_slave_cs_irq`,
`spi_slave_irq` and `spi_slave_config`, and of the polled master side:
`spi_clk_init`, `spi_init`, `spi_init_non_standard`, `spi_send_data_normal`,
`spi_receive_data_standard`, `spi_receive_data_multiple` and
`spi_send_data_multiple`; followed by the properties of the command header
decoding, of the command dispatch, of the transfer completion, of the
master configuration and transfer routines, and of the runs of the slave
state machine.

Conventions of the embedding.

* The file-scope record `g_instance`, the registers of `spi[2]` that the slave
  code writes, byte-addressed memory and the GPIO output levels are the fields
  of one record `SlaveState`, passed explicitly. Every assignment is one
  elementary update (`set_status`, `set_ctrlr0`, ...) and a handler is the
  composition of its assignments in program order.
* Machine integers are natural numbers; a store into a `uintN_t` object is
  followed by `% 2 ^ N` wherever the value can exceed the width, and `x - 1`
  on an unsigned type wraps (`size_dec`, `u32_dec`).
* Volatile reads are inputs: `rx i` is the value returned by the `i`-th
  upcoming read of the data register `dr[0]`; `rxflr`, `txflr` and
  `dmac_intstatus` are the values the corresponding registers return.
* Writes to `dr[0]`, calls into the GPIO, DMA, clock and interrupt drivers and
  calls of the registered callback are appended, in program order, to `log`.
  The collaborators are external: what the callback or the DMA engine do to
  memory afterwards is not part of the model.
* Memory is little-endian (the target is RISC-V); `p[i]` for a pointer to a
  `w`-byte type is the `w` bytes at address `p + w * i`.
* `spi.h` is not among the sources. The enumerator values it declares are the
  parameter `SpiHeader` of the handlers; the types it declares are modelled
  from the specification and marked as such.
-/

namespace Spi

/-! ## Types declared in `spi.h` -/

/-- Modelled from the spec: `spi_transfer_width_t` is declared in `spi.h`,
which is absent. The three frame widths Byte, HalfWord and Word. -/
inductive spi_transfer_width_t
  | SPI_TRANS_CHAR
  | SPI_TRANS_SHORT
  | SPI_TRANS_INT
deriving DecidableEq

/-- Modelled from the spec: the numeric value of a frame width is its number of
bytes per transfer unit (8/16/32-bit frames). -/
def spi_transfer_width_t.bytes : spi_transfer_width_t → Nat
  | .SPI_TRANS_CHAR => 1
  | .SPI_TRANS_SHORT => 2
  | .SPI_TRANS_INT => 4

/-- Modelled from the spec: the protocol status `IDLE`, `COMMAND`, `TRANSFER`
(the enumeration is declared in `spi.h`, which is absent). -/
inductive spi_slave_status_e
  | IDLE
  | COMMAND
  | TRANSFER
deriving DecidableEq

/-- Modelled from the spec: the command descriptor
`{opcode, address, length, error-code}` (`spi_slave_command_t`, declared in the
absent `spi.h`): a one-byte opcode and error code, a four-byte address and a
length wide enough to hold 65536. -/
structure spi_slave_command_t where
  cmd : Nat
  err : Nat
  addr : Nat
  len : Nat
deriving DecidableEq

/-- Modelled from the spec: the values of the enumerators of `spi.h` (absent)
that the code uses: the six opcodes of `spi_slave_command_e`, the transfer
modes `SPI_TMOD_TRANS` (transmit-only), `SPI_TMOD_RECV` (receive-only) and
`SPI_TMOD_EEROM` (read after write), the number of buses `SPI_DEVICE_MAX` and
the multi-line frame formats. They are a parameter of the model. -/
structure SpiHeader where
  WRITE_CONFIG : Nat
  READ_CONFIG : Nat
  WRITE_DATA_BYTE : Nat
  READ_DATA_BYTE : Nat
  WRITE_DATA_BLOCK : Nat
  READ_DATA_BLOCK : Nat
  SPI_TMOD_TRANS : Nat
  SPI_TMOD_RECV : Nat
  SPI_TMOD_EEROM : Nat
  SPI_DEVICE_MAX : Nat
  SPI_FF_DUAL : Nat
  SPI_FF_QUAD : Nat
  SPI_FF_OCTAL : Nat
deriving DecidableEq

/-- Modelled from the spec: what the spec says of the opcode values. The six
opcodes are distinct and the four non-block opcodes are numerically below the
two block opcodes. The spec does not fix the order of the two block opcodes
(its listing is illustrative), and neither does this predicate. -/
def SpiHeader.WF (c : SpiHeader) : Prop :=
  c.WRITE_CONFIG ≠ c.READ_CONFIG ∧ c.WRITE_CONFIG ≠ c.WRITE_DATA_BYTE ∧
  c.WRITE_CONFIG ≠ c.READ_DATA_BYTE ∧ c.READ_CONFIG ≠ c.WRITE_DATA_BYTE ∧
  c.READ_CONFIG ≠ c.READ_DATA_BYTE ∧ c.WRITE_DATA_BYTE ≠ c.READ_DATA_BYTE ∧
  c.WRITE_CONFIG < c.WRITE_DATA_BLOCK ∧ c.READ_CONFIG < c.WRITE_DATA_BLOCK ∧
  c.WRITE_DATA_BYTE < c.WRITE_DATA_BLOCK ∧ c.READ_DATA_BYTE < c.WRITE_DATA_BLOCK ∧
  c.WRITE_CONFIG < c.READ_DATA_BLOCK ∧ c.READ_CONFIG < c.READ_DATA_BLOCK ∧
  c.WRITE_DATA_BYTE < c.READ_DATA_BLOCK ∧ c.READ_DATA_BYTE < c.READ_DATA_BLOCK ∧
  c.WRITE_DATA_BLOCK ≠ c.READ_DATA_BLOCK

instance (c : SpiHeader) : Decidable c.WF := by
  unfold SpiHeader.WF
  exact inferInstance

/-- The opcodes numbered 0..5 in the order in which the spec lists them
(`READ_CONFIG` first, `READ_DATA_BLOCK` below `WRITE_DATA_BLOCK`), the other
enumerators as in `spi_h`; used to evaluate the handlers under the other order
of the two block opcodes. -/
def spi_h_listed : SpiHeader :=
  { READ_CONFIG := 0, WRITE_CONFIG := 1, READ_DATA_BYTE := 2, WRITE_DATA_BYTE := 3,
    READ_DATA_BLOCK := 4, WRITE_DATA_BLOCK := 5, SPI_TMOD_TRANS := 1, SPI_TMOD_RECV := 2,
    SPI_TMOD_EEROM := 3, SPI_DEVICE_MAX := 4, SPI_FF_DUAL := 1, SPI_FF_QUAD := 2,
    SPI_FF_OCTAL := 3 }

/-- The opcodes numbered 0..5 in the order in which the `if` chain of
`spi_slave_command_mode` tests them, transfer modes 1, 2 and 3 for
transmit-only, receive-only and read after write, four buses (the array `spi`
has four entries) and frame formats 1, 2 and 3 for dual, quad and octal; used
for concrete evaluations. -/
def spi_h : SpiHeader :=
  { WRITE_CONFIG := 0, READ_CONFIG := 1, WRITE_DATA_BYTE := 2, READ_DATA_BYTE := 3,
    WRITE_DATA_BLOCK := 4, READ_DATA_BLOCK := 5, SPI_TMOD_TRANS := 1, SPI_TMOD_RECV := 2,
    SPI_TMOD_EEROM := 3, SPI_DEVICE_MAX := 4, SPI_FF_DUAL := 1, SPI_FF_QUAD := 2,
    SPI_FF_OCTAL := 3 }

/-! ## Collaborator interfaces (GPIO, DMA) -/

/-- Level argument of `gpiohs_set_pin`. -/
inductive gpio_pin_value_t
  | GPIO_PV_LOW
  | GPIO_PV_HIGH
deriving DecidableEq

/-- Mode argument of `gpiohs_set_drive_mode`, as far as the code uses it. -/
inductive gpio_drive_mode_t
  | GPIO_DM_OUTPUT
  | GPIO_DM_INPUT_PULL_UP
deriving DecidableEq

/-- Address-update mode argument of `dmac_set_single_mode`. -/
inductive dmac_address_increment_t
  | DMAC_ADDR_INCREMENT
  | DMAC_ADDR_NOCHANGE
deriving DecidableEq

/-- Burst-size argument of `dmac_set_single_mode`; the code only uses
`DMAC_MSIZE_4`. -/
inductive dmac_burst_trans_length_t
  | DMAC_MSIZE_4
deriving DecidableEq

/-- Transfer-width argument of `dmac_set_single_mode`; the code only uses
`DMAC_TRANS_WIDTH_32`. -/
inductive dmac_transfer_width_t
  | DMAC_TRANS_WIDTH_32
deriving DecidableEq

/-- A source or destination pointer handed to `dmac_set_single_mode`: the FIFO
data register `&spi[2]->dr[0]` or a memory address. -/
inductive DmaPtr
  | spi2_dr
  | memory (addr : Nat)
deriving DecidableEq

/-- Request line argument of `sysctl_dma_select`, kept symbolic:
`SYSCTL_DMA_SELECT_SSI0_RX_REQ + k` or `SYSCTL_DMA_SELECT_SSI0_TX_REQ + k`. -/
inductive DmaRequest
  | SSI0_RX_REQ_plus (k : Nat)
  | SSI0_TX_REQ_plus (k : Nat)
deriving DecidableEq

/-- Externally visible actions of the slave code, in program order. -/
inductive Event
  | dr_write (value : Nat)
  | gpiohs_set_pin (pin : Nat) (value : gpio_pin_value_t)
  | sysctl_dma_select (channel : Nat) (request : DmaRequest)
  | dmac_set_single_mode (channel : Nat) (src dest : DmaPtr)
      (src_inc dest_inc : dmac_address_increment_t)
      (burst : dmac_burst_trans_length_t) (width : dmac_transfer_width_t) (block_size : Nat)
  | callback (command : spi_slave_command_t)
  | sysctl_reset_spi2
  | sysctl_clock_enable_spi2
  | sysctl_clock_set_threshold_spi2 (threshold : Nat)
  | gpiohs_set_drive_mode (pin : Nat) (mode : gpio_drive_mode_t)
  | gpiohs_set_pin_edge_rising (pin : Nat)
  | gpiohs_set_irq (pin priority : Nat)
  | plic_set_priority_spi_slave (priority : Nat)
  | plic_irq_register_spi_slave
  | plic_irq_enable_spi_slave
deriving DecidableEq

/-! ## State -/

/-- The slave instance `g_instance`, the registers of `spi[2]`, the volatile
inputs, memory, GPIO levels and the action log. -/
structure SlaveState where
  /- g_instance -/
  int_pin : Nat
  ready_pin : Nat
  dmac_channel : Nat
  dfs : Nat
  slv_oe : Nat
  work_mode : Nat
  data_bit_length : Nat
  status : spi_slave_status_e
  command : spi_slave_command_t
  config_ptr : Nat
  config_len : Nat
  /-- Whether `g_instance.callback != NULL`. -/
  callback : Bool
  /- registers of spi[2] written by the slave code -/
  ssienr : Nat
  ctrlr0 : Nat
  rxftlr : Nat
  txftlr : Nat
  dmacr : Nat
  imr : Nat
  dmatdlr : Nat
  dmardlr : Nat
  /- volatile inputs -/
  rx : Nat → Nat
  rxflr : Nat
  txflr : Nat
  dmac_intstatus : Nat → Nat
  /- memory, pins, log -/
  mem : Nat → Nat
  pin_level : Nat → gpio_pin_value_t
  log : List Event

/-! ### Elementary state updates

Each assignment to a field of `g_instance` or to a register of `spi[2]`, and
each collaborator call, is one of the following updates. -/

/-- The assignment `g_instance.status = st`. -/
@[simps] def set_status (st : spi_slave_status_e) (s : SlaveState) : SlaveState :=
  { s with status := st }

/-- The assignments to `g_instance.command.cmd`, `.addr` and `.len`. -/
@[simps] def set_command (cmd addr len : Nat) (s : SlaveState) : SlaveState :=
  { s with command := { s.command with cmd := cmd, addr := addr, len := len } }

/-- The assignment `g_instance.command.err = err`. -/
@[simps] def set_err (err : Nat) (s : SlaveState) : SlaveState :=
  { s with command := { s.command with err := err } }

/-- The register write `spi_handle->ssienr = v`. -/
@[simps] def set_ssienr (v : Nat) (s : SlaveState) : SlaveState := { s with ssienr := v }

/-- The register write `spi_handle->ctrlr0 = v`. -/
@[simps] def set_ctrlr0 (v : Nat) (s : SlaveState) : SlaveState := { s with ctrlr0 := v }

/-- The register write `spi_handle->rxftlr = v`. -/
@[simps] def set_rxftlr (v : Nat) (s : SlaveState) : SlaveState := { s with rxftlr := v }

/-- The register write `spi_handle->txftlr = v`. -/
@[simps] def set_txftlr (v : Nat) (s : SlaveState) : SlaveState := { s with txftlr := v }

/-- The register write `spi_handle->dmacr = v`. -/
@[simps] def set_dmacr (v : Nat) (s : SlaveState) : SlaveState := { s with dmacr := v }

/-- The register write `spi_handle->imr = v`. -/
@[simps] def set_imr (v : Nat) (s : SlaveState) : SlaveState := { s with imr := v }

/-- The register write `spi_handle->dmatdlr = v`. -/
@[simps] def set_dmatdlr (v : Nat) (s : SlaveState) : SlaveState := { s with dmatdlr := v }

/-- The register write `spi_handle->dmardlr = v`. -/
@[simps] def set_dmardlr (v : Nat) (s : SlaveState) : SlaveState := { s with dmardlr := v }

/-- The state after `n` reads of `dr[0]`. -/
@[simps] def dr_pop (n : Nat) (s : SlaveState) : SlaveState :=
  { s with rx := fun i => s.rx (i + n) }

/-- Replaces the memory contents. -/
@[simps] def set_mem (mem : Nat → Nat) (s : SlaveState) : SlaveState := { s with mem := mem }

/-- Appends actions to the log. -/
@[simps] def emit (es : List Event) (s : SlaveState) : SlaveState :=
  { s with log := s.log ++ es }

/-- Collaborator call `gpiohs_set_pin(pin, value)`: drives the pin and is
logged. -/
@[simps] def gpiohs_set_pin (pin : Nat) (value : gpio_pin_value_t) (s : SlaveState) :
    SlaveState :=
  { s with
    pin_level := fun p => if p = pin then value else s.pin_level p
    log := s.log ++ [Event.gpiohs_set_pin pin value] }

/-- The assignments to `g_instance` at source lines 736-746. -/
@[simps] def set_instance (int_pin ready_pin dmac_channel data_bit_length data len : Nat)
    (callback : Bool) (s : SlaveState) : SlaveState :=
  { s with
    status := .IDLE, config_ptr := data, config_len := len % 2 ^ 32,
    work_mode := 6, slv_oe := 10, dfs := 16, data_bit_length := data_bit_length,
    ready_pin := ready_pin % 256, int_pin := int_pin % 256, callback := callback,
    dmac_channel := dmac_channel }

/-! ## Machine arithmetic -/

/-- `x - 1` on a `size_t` (64 bits): 0 wraps to `2 ^ 64 - 1`. -/
def size_dec (x : Nat) : Nat := if x % 2 ^ 64 = 0 then 2 ^ 64 - 1 else x % 2 ^ 64 - 1

/-- `x - 1` on a `uint32_t`: 0 wraps to `2 ^ 32 - 1`. -/
def u32_dec (x : Nat) : Nat := if x % 2 ^ 32 = 0 then 2 ^ 32 - 1 else x % 2 ^ 32 - 1

/-- Unsigned 32-bit division as the RISC-V target executes it: a zero divisor
does not trap and yields all ones. -/
def u32_div (a b : Nat) : Nat := if b = 0 then 2 ^ 32 - 1 else a / b

/-- Little-endian load of a `w`-byte object at address `p`. -/
def load_le (mem : Nat → Nat) (p : Nat) : Nat → Nat
  | 0 => 0
  | w + 1 => mem p % 256 + 256 * load_le mem (p + 1) w

/-- Little-endian store of the low `w` bytes of `v` at address `p`. -/
def store_le (w p v : Nat) (mem : Nat → Nat) : Nat → Nat :=
  fun a => if p ≤ a ∧ a < p + w then (v / 256 ^ (a - p)) % 256 else mem a

/-- The bytes of a `w`-byte little-endian object holding `v`. -/
def le_bytes (w v : Nat) : List Nat :=
  (List.range w).map (fun k => (v / 256 ^ k) % 256)

/-! ## `spi_get_frame_size`, `set_bit`, `spi_set_tmod` -/

/-- Source lines 33-40. -/
def spi_get_frame_size (data_bit_length : Nat) : spi_transfer_width_t :=
  if data_bit_length < 8 then .SPI_TRANS_CHAR
  else if data_bit_length < 16 then .SPI_TRANS_SHORT
  else .SPI_TRANS_INT

/-- Modelled from the spec: `set_bit` of the absent `utils.h` replaces the
bits of a 32-bit register selected by `mask` with those of `value`. -/
def set_bit (bits mask value : Nat) : Nat :=
  (bits &&& (2 ^ 32 - 1 - mask % 2 ^ 32)) ||| (value % 2 ^ 32 &&& mask % 2 ^ 32)

/-- Source lines 52-70, for the register `ctrlr0` of bus `spi_num`: the new
value of `ctrlr0`. The assertion `spi_num < SPI_DEVICE_MAX` of line 54 is part
of `master_set_tmod`; the slave handlers call the function for bus 2, an index
of the four-entry array `spi`. -/
def spi_set_tmod (spi_num tmod ctrlr0 : Nat) : Nat :=
  let tmod_offset := if spi_num = 0 ∨ spi_num = 1 ∨ spi_num = 2 then 8 else 10
  set_bit ctrlr0 (3 <<< tmod_offset) (tmod <<< tmod_offset)

/-! ## The slave handlers -/

/-- The value `(0x0 << work_mode) | (oe << slv_oe) | (frame << dfs)` stored
into the 32-bit register `ctrlr0`. The shift counts are the ones stored in the
instance (6, 10 and 16 after `spi_slave_config`). -/
def slave_ctrlr0 (s : SlaveState) (oe frame : Nat) : Nat :=
  ((0 <<< s.work_mode) ||| (oe <<< s.slv_oe) ||| (frame <<< s.dfs)) % 2 ^ 32

/-- Source lines 460-473. -/
def spi_slave_idle_mode (s : SlaveState) : SlaveState :=
  let data_width := (s.data_bit_length / 8) % 2 ^ 32
  s |> set_status .IDLE
    |> set_ssienr 0x00
    |> set_ctrlr0 (slave_ctrlr0 s 0x1 (size_dec s.data_bit_length))
    |> set_rxftlr (u32_dec (u32_div 0x08 data_width))
    |> set_dmacr 0x00
    |> set_imr 0x10
    |> set_ssienr 0x01
    |> gpiohs_set_pin s.ready_pin .GPIO_PV_HIGH

/-- The eight bytes of `cmd_data` after the read switch of
`spi_slave_command_mode` (source lines 483-497): 8/4 word reads, 8/2 half-word
reads or 8 byte reads of `dr[0]`, each stored little-endian at its width. -/
def read_cmd_data (frame_width : spi_transfer_width_t) (rx : Nat → Nat) : List Nat :=
  match frame_width with
  | .SPI_TRANS_INT => (List.range (8 / 4)).flatMap (fun i => le_bytes 4 (rx i))
  | .SPI_TRANS_SHORT => (List.range (8 / 2)).flatMap (fun i => le_bytes 2 (rx i))
  | .SPI_TRANS_CHAR => (List.range 8).flatMap (fun i => le_bytes 1 (rx i))

/-- Number of reads of `dr[0]` made by the read switch. -/
def cmd_reads : spi_transfer_width_t → Nat
  | .SPI_TRANS_INT => 8 / 4
  | .SPI_TRANS_SHORT => 8 / 2
  | .SPI_TRANS_CHAR => 8

/-- The `uint8_t` sum of `cmd_data[0..6]` (source lines 499-502). -/
def cmd_sum (cmd_data : List Nat) : Nat :=
  (List.range 7).foldl (fun sum i => (sum + cmd_data.getD i 0) % 256) 0

/-- The frames pushed to `dr[0]` by a read opcode (source lines 533-553 and
567-587): `len / 4` words, `len / 2` half-words or `len` bytes loaded from
consecutive elements starting at address `p`. -/
def tx_frames (frame_width : spi_transfer_width_t) (mem : Nat → Nat) (p len : Nat) : List Nat :=
  match frame_width with
  | .SPI_TRANS_INT => (List.range (len / 4)).map (fun i => load_le mem (p + 4 * i) 4)
  | .SPI_TRANS_SHORT => (List.range (len / 2)).map (fun i => load_le mem (p + 2 * i) 2)
  | .SPI_TRANS_CHAR => (List.range len).map (fun i => load_le mem (p + i) 1)

/-- Source lines 518-617: the part of `spi_slave_command_mode` that follows the
checksum and length checks. -/
def command_dispatch (c : SpiHeader) (s : SlaveState) : SlaveState :=
  let frame_width := spi_get_frame_size (size_dec s.data_bit_length)
  let data_width := (s.data_bit_length / 8) % 2 ^ 32
  let spi_num := 2
  if s.command.cmd = c.WRITE_CONFIG then
    s |> set_status .TRANSFER
      |> set_ssienr 0x00
      |> set_ctrlr0 (slave_ctrlr0 s 0x1 (size_dec s.data_bit_length))
      |> set_rxftlr (u32_dec (u32_div s.command.len data_width))
      |> set_imr 0x00
      |> set_ssienr 0x01
      |> gpiohs_set_pin s.ready_pin .GPIO_PV_LOW
  else if s.command.cmd = c.READ_CONFIG then
    s |> set_status .TRANSFER
      |> set_ssienr 0x00
      |> set_ctrlr0 (slave_ctrlr0 s 0x0 (size_dec s.data_bit_length))
      |> set_ctrlr0 (spi_set_tmod 2 c.SPI_TMOD_TRANS
            (slave_ctrlr0 s 0x0 (size_dec s.data_bit_length)))
      |> set_txftlr 0x00
      |> set_imr 0x00
      |> set_ssienr 0x01
      |> emit ((tx_frames frame_width s.mem (s.config_ptr + s.command.addr) s.command.len).map
            Event.dr_write)
      |> gpiohs_set_pin s.ready_pin .GPIO_PV_LOW
  else if s.command.cmd = c.WRITE_DATA_BYTE then
    s |> set_status .TRANSFER
      |> set_ssienr 0x00
      |> set_ctrlr0 (slave_ctrlr0 s 0x1 (size_dec s.data_bit_length))
      |> set_rxftlr (u32_dec (u32_div s.command.len data_width))
      |> set_imr 0x00
      |> set_ssienr 0x01
      |> gpiohs_set_pin s.ready_pin .GPIO_PV_LOW
  else if s.command.cmd = c.READ_DATA_BYTE then
    s |> set_status .TRANSFER
      |> set_ssienr 0x00
      |> set_ctrlr0 (slave_ctrlr0 s 0x0 (size_dec s.data_bit_length))
      |> set_ctrlr0 (spi_set_tmod 2 c.SPI_TMOD_TRANS
            (slave_ctrlr0 s 0x0 (size_dec s.data_bit_length)))
      |> set_txftlr 0x00
      |> set_imr 0x00
      |> set_ssienr 0x01
      |> emit ((tx_frames frame_width s.mem s.command.addr s.command.len).map Event.dr_write)
      |> gpiohs_set_pin s.ready_pin .GPIO_PV_LOW
  else if s.command.cmd = c.WRITE_DATA_BLOCK then
    s |> set_status .TRANSFER
      |> set_ssienr 0x00
      |> set_ctrlr0 (slave_ctrlr0 s 0x1 (32 - 1))
      |> set_dmacr 0x01
      |> set_imr 0x00
      |> set_ssienr 0x01
      |> emit [Event.sysctl_dma_select s.dmac_channel (.SSI0_RX_REQ_plus (spi_num * 2))]
      |> emit [Event.dmac_set_single_mode s.dmac_channel .spi2_dr
            (.memory (s.command.addr &&& 0xFFFFFFF0)) .DMAC_ADDR_NOCHANGE .DMAC_ADDR_INCREMENT
            .DMAC_MSIZE_4 .DMAC_TRANS_WIDTH_32 ((s.command.len * 4) % 2 ^ 32)]
      |> gpiohs_set_pin s.ready_pin .GPIO_PV_LOW
  else if s.command.cmd = c.READ_DATA_BLOCK then
    s |> set_status .TRANSFER
      |> set_ssienr 0x00
      |> set_ctrlr0 (slave_ctrlr0 s 0x0 (32 - 1))
      |> set_ctrlr0 (spi_set_tmod 2 c.SPI_TMOD_TRANS (slave_ctrlr0 s 0x0 (32 - 1)))
      |> set_dmacr 0x02
      |> set_imr 0x00
      |> set_ssienr 0x01
      |> emit [Event.sysctl_dma_select s.dmac_channel (.SSI0_TX_REQ_plus (spi_num * 2))]
      |> emit [Event.dmac_set_single_mode s.dmac_channel
            (.memory (s.command.addr &&& 0xFFFFFFF0)) .spi2_dr
            .DMAC_ADDR_INCREMENT .DMAC_ADDR_NOCHANGE
            .DMAC_MSIZE_4 .DMAC_TRANS_WIDTH_32 ((s.command.len * 4) % 2 ^ 32)]
      |> gpiohs_set_pin s.ready_pin .GPIO_PV_LOW
  else
    s |> set_status .TRANSFER
      |> set_ssienr 0x00
      |> spi_slave_idle_mode

/-- Source lines 475-617. -/
def spi_slave_command_mode (c : SpiHeader) (s : SlaveState) : SlaveState :=
  let frame_width := spi_get_frame_size (size_dec s.data_bit_length)
  let cmd_data := read_cmd_data frame_width s.rx
  let s := dr_pop (cmd_reads frame_width) s
  let sum := cmd_sum cmd_data
  if cmd_data.getD 7 0 ≠ sum then
    spi_slave_idle_mode s
  else
    let cmd := cmd_data.getD 0 0
    let addr := (cmd_data.getD 1 0 ||| (cmd_data.getD 2 0 <<< 8) ||| (cmd_data.getD 3 0 <<< 16)
                  ||| (cmd_data.getD 4 0 <<< 24)) % 2 ^ 32
    let len := cmd_data.getD 5 0 ||| (cmd_data.getD 6 0 <<< 8)
    let len := if len = 0 then 65536 else len
    let s := set_command cmd addr len s
    if s.command.cmd < c.WRITE_DATA_BLOCK ∧ s.command.len > 8 then
      spi_slave_idle_mode s
    else
      command_dispatch c s

/-- The receive loop of a write opcode (source lines 660-703): `command_len`
reads of `dr[0]`, the `i`-th stored at its width into element `i` of the
array at address `p`. The memory after the first `n` iterations. -/
def store_frames (w p : Nat) (rx : Nat → Nat) (mem : Nat → Nat) : Nat → (Nat → Nat)
  | 0 => mem
  | n + 1 => store_le w (p + w * n) (rx n) (store_frames w p rx mem n)

/-- The state after the receive loop: memory updated, `command_len` frames
consumed from `dr[0]`. -/
def recv_frames (frame_width : spi_transfer_width_t) (p command_len : Nat) (s : SlaveState) :
    SlaveState :=
  match frame_width with
  | .SPI_TRANS_INT => s |> set_mem (store_frames 4 p s.rx s.mem command_len) |> dr_pop command_len
  | .SPI_TRANS_SHORT => s |> set_mem (store_frames 2 p s.rx s.mem command_len) |> dr_pop command_len
  | .SPI_TRANS_CHAR => s |> set_mem (store_frames 1 p s.rx s.mem command_len) |> dr_pop command_len

/-- The value of `command_len` computed at source lines 624-635. -/
def transfer_command_len (frame_width : spi_transfer_width_t) (len : Nat) : Nat :=
  match frame_width with
  | .SPI_TRANS_INT => len / 4
  | .SPI_TRANS_SHORT => len / 2
  | .SPI_TRANS_CHAR => len

/-- Source lines 637-654: the completion check. The result is `none` on the
final `else` branch (idle mode and return). -/
def transfer_check (c : SpiHeader) (command_len : Nat) (s : SlaveState) : Option SlaveState :=
  if s.command.cmd = c.WRITE_CONFIG ∨ s.command.cmd = c.WRITE_DATA_BYTE then
    if s.rxflr < u32_dec command_len then some (set_err 1 s) else some s
  else if s.command.cmd = c.READ_CONFIG ∨ s.command.cmd = c.READ_DATA_BYTE then
    if s.txflr ≠ 0 then some (set_err 2 s) else some s
  else if s.command.cmd = c.WRITE_DATA_BLOCK ∨ s.command.cmd = c.READ_DATA_BLOCK then
    if s.dmac_intstatus s.dmac_channel ≠ 0x02 then some (set_err 3 s) else some s
  else none

/-- Source lines 656-705: the commit of a write opcode. -/
def transfer_commit (c : SpiHeader) (frame_width : spi_transfer_width_t) (command_len : Nat)
    (s : SlaveState) : SlaveState :=
  if s.command.err = 0 then
    if s.command.cmd = c.WRITE_CONFIG then
      recv_frames frame_width (s.config_ptr + s.command.addr) command_len s
    else if s.command.cmd = c.WRITE_DATA_BYTE then
      recv_frames frame_width s.command.addr command_len s
    else s
  else s

/-- Source lines 706-709: the call of the registered callback with the
address of `g_instance.command`; the descriptor as it stands is logged. -/
def transfer_callback (s : SlaveState) : SlaveState :=
  if s.callback then emit [Event.callback s.command] s else s

/-- Source lines 619-711. -/
def spi_slave_transfer_mode (c : SpiHeader) (s : SlaveState) : SlaveState :=
  let frame_width := spi_get_frame_size (size_dec s.data_bit_length)
  let command_len := transfer_command_len frame_width s.command.len
  let s := set_err 0 s
  match transfer_check c command_len s with
  | none => spi_slave_idle_mode s
  | some s =>
    s |> transfer_commit c frame_width command_len
      |> transfer_callback
      |> spi_slave_idle_mode

/-- Source lines 713-721. -/
def spi_slave_cs_irq (c : SpiHeader) (s : SlaveState) : SlaveState :=
  if s.status = .IDLE then spi_slave_idle_mode s
  else if s.status = .COMMAND then spi_slave_command_mode c s
  else if s.status = .TRANSFER then spi_slave_transfer_mode c s
  else s

/-- Source lines 723-732. The read of `icr` has no effect on the modelled
state. -/
def spi_slave_irq (s : SlaveState) : SlaveState :=
  let s := set_imr 0x00 s
  if s.status = .IDLE then set_status .COMMAND s else s

/-- Source lines 734-773. `data` is the address of the configuration buffer
and `callback` tells whether the callback argument is non-null. -/
def spi_slave_config (int_pin ready_pin dmac_channel data_bit_length data len : Nat)
    (callback : Bool) (s : SlaveState) : SlaveState :=
  let s := set_instance int_pin ready_pin dmac_channel data_bit_length data len callback s
  let data_width := (data_bit_length / 8) % 2 ^ 32
  s |> emit [Event.sysctl_reset_spi2]
    |> emit [Event.sysctl_clock_enable_spi2]
    |> emit [Event.sysctl_clock_set_threshold_spi2 9]
    |> set_ssienr 0x00
    |> set_ctrlr0 (slave_ctrlr0 s 0x1 (size_dec data_bit_length))
    |> set_dmatdlr 0x04
    |> set_dmardlr 0x03
    |> set_dmacr 0x00
    |> set_txftlr 0x00
    |> set_rxftlr (u32_dec (u32_div 0x08 data_width))
    |> set_imr 0x10
    |> set_ssienr 0x01
    |> emit [Event.gpiohs_set_drive_mode s.ready_pin .GPIO_DM_OUTPUT]
    |> gpiohs_set_pin s.ready_pin .GPIO_PV_HIGH
    |> emit [Event.gpiohs_set_drive_mode s.int_pin .GPIO_DM_INPUT_PULL_UP]
    |> emit [Event.gpiohs_set_pin_edge_rising s.int_pin]
    |> emit [Event.gpiohs_set_irq s.int_pin 3]
    |> emit [Event.plic_set_priority_spi_slave 4]
    |> emit [Event.plic_irq_register_spi_slave]
    |> emit [Event.plic_irq_enable_spi_slave]

/-- The state before `spi_slave_config`: the zero-initialised `g_instance`,
registers at zero, zeroed memory, pins low, nothing logged, and a data
register that reads zero. -/
def power_on : SlaveState :=
  { int_pin := 0, ready_pin := 0, dmac_channel := 0, dfs := 0, slv_oe := 0, work_mode := 0,
    data_bit_length := 0, status := .IDLE, command := { cmd := 0, err := 0, addr := 0, len := 0 },
    config_ptr := 0, config_len := 0, callback := false,
    ssienr := 0, ctrlr0 := 0, rxftlr := 0, txftlr := 0, dmacr := 0, imr := 0,
    dmatdlr := 0, dmardlr := 0,
    rx := fun _ => 0, rxflr := 0, txflr := 0, dmac_intstatus := fun _ => 0,
    mem := fun _ => 0, pin_level := fun _ => .GPIO_PV_LOW, log := [] }

/-! ## Vocabulary of the statements -/

/-- The frame width the slave handlers use: `spi_get_frame_size` of the
configured bit length minus one (source lines 480 and 621). -/
def slave_frame_width (s : SlaveState) : spi_transfer_width_t :=
  spi_get_frame_size (size_dec s.data_bit_length)

/-- Eight values that are bytes. -/
def header_bytes (b0 b1 b2 b3 b4 b5 b6 b7 : Nat) : Prop :=
  b0 < 256 ∧ b1 < 256 ∧ b2 < 256 ∧ b3 < 256 ∧ b4 < 256 ∧ b5 < 256 ∧ b6 < 256 ∧ b7 < 256

instance (b0 b1 b2 b3 b4 b5 b6 b7 : Nat) : Decidable (header_bytes b0 b1 b2 b3 b4 b5 b6 b7) := by
  unfold header_bytes
  exact inferInstance

/-- The frames that carry the eight header bytes at a frame width: two
little-endian words, four little-endian half-words or eight bytes. -/
def header_frames (fw : spi_transfer_width_t) (b0 b1 b2 b3 b4 b5 b6 b7 : Nat) : List Nat :=
  match fw with
  | .SPI_TRANS_INT =>
      [b0 + 2 ^ 8 * b1 + 2 ^ 16 * b2 + 2 ^ 24 * b3, b4 + 2 ^ 8 * b5 + 2 ^ 16 * b6 + 2 ^ 24 * b7]
  | .SPI_TRANS_SHORT => [b0 + 2 ^ 8 * b1, b2 + 2 ^ 8 * b3, b4 + 2 ^ 8 * b5, b6 + 2 ^ 8 * b7]
  | .SPI_TRANS_CHAR => [b0, b1, b2, b3, b4, b5, b6, b7]

/-- The next reads of `dr[0]` return the given frames, in order. -/
def rx_holds (s : SlaveState) (frames : List Nat) : Prop :=
  ∀ i, i < frames.length → s.rx i = frames.getD i 0

instance (s : SlaveState) (frames : List Nat) : Decidable (rx_holds s frames) := by
  unfold rx_holds
  exact inferInstance

/-- The header checksum: the sum of bytes 0..6 modulo 256. -/
def header_sum (b0 b1 b2 b3 b4 b5 b6 : Nat) : Nat :=
  (b0 + b1 + b2 + b3 + b4 + b5 + b6) % 256

/-- The address field of the header, little-endian. -/
def header_addr (b1 b2 b3 b4 : Nat) : Nat :=
  b1 + 2 ^ 8 * b2 + 2 ^ 16 * b3 + 2 ^ 24 * b4

/-- The decoded length: the 16-bit little-endian length field, 0 standing for
65536. -/
def decoded_len (b5 b6 : Nat) : Nat :=
  if b5 + 2 ^ 8 * b6 = 0 then 65536 else b5 + 2 ^ 8 * b6

/-- The opcode is one of the four non-block opcodes. -/
def SpiHeader.non_block (c : SpiHeader) (cmd : Nat) : Prop :=
  cmd = c.READ_CONFIG ∨ cmd = c.WRITE_CONFIG ∨ cmd = c.READ_DATA_BYTE ∨ cmd = c.WRITE_DATA_BYTE

instance (c : SpiHeader) (cmd : Nat) : Decidable (c.non_block cmd) := by
  unfold SpiHeader.non_block
  exact inferInstance

/-- The opcode is one of the two block opcodes. -/
def SpiHeader.block (c : SpiHeader) (cmd : Nat) : Prop :=
  cmd = c.WRITE_DATA_BLOCK ∨ cmd = c.READ_DATA_BLOCK

instance (c : SpiHeader) (cmd : Nat) : Decidable (c.block cmd) := by
  unfold SpiHeader.block
  exact inferInstance

/-- The state in which `spi_slave_command_mode` evaluates the checksum test:
the header frames have been read from `dr[0]`. -/
def after_header (s : SlaveState) : SlaveState :=
  dr_pop (cmd_reads (slave_frame_width s)) s

/-- The number of frames a write opcode expects in the receive FIFO: the value
of `command_len` in `spi_slave_transfer_mode`. -/
def expected_frames (s : SlaveState) : Nat :=
  transfer_command_len (slave_frame_width s) s.command.len

/-- The completion check of a write opcode fails (source line 640). -/
def write_check_fails (s : SlaveState) : Prop :=
  s.rxflr < u32_dec (expected_frames s)

instance (s : SlaveState) : Decidable (write_check_fails s) := by
  unfold write_check_fails
  exact inferInstance

/-! ### Concrete states for evaluation -/

/-- Supplies the values that the volatile registers will return. -/
@[simps] def with_inputs (frames : List Nat) (rxflr txflr intstatus : Nat) (s : SlaveState) :
    SlaveState :=
  { s with rx := fun i => frames.getD i 0, rxflr := rxflr, txflr := txflr,
           dmac_intstatus := fun _ => intstatus }

/-- A slave configured by `spi_slave_config` with interrupt pin 7, ready pin 9,
DMA channel 3, a 64-byte configuration buffer at address 1000 and a callback,
over a memory that holds `a % 251` at address `a`. -/
def configured (data_bit_length : Nat) : SlaveState :=
  power_on |> set_mem (fun a => a % 251)
           |> spi_slave_config 7 9 3 data_bit_length 1000 64 true

/-- A configured slave in the Command phase whose data register returns
`frames`. -/
def in_command (data_bit_length : Nat) (frames : List Nat) : SlaveState :=
  configured data_bit_length |> set_status .COMMAND |> with_inputs frames 0 0 0

/-- A configured slave in the Transfer phase with the given stored command,
whose data register returns `frames` and whose level and status registers
return `rxflr`, `txflr` and `intstatus`. -/
def in_transfer (data_bit_length cmd addr len : Nat) (frames : List Nat)
    (rxflr txflr intstatus : Nat) : SlaveState :=
  configured data_bit_length |> set_status .TRANSFER |> set_command cmd addr len
    |> with_inputs frames rxflr txflr intstatus

/-! ## The master transfer engine

The master routines act on the registers of one bus `spi[spi_num]`. A routine
ends in one of three ways: an assertion fails (`aborted`), a polling loop is
still running when the supplied register readings are used up (`stalled`), or
it returns (`returned`). Each polling loop takes the successive values of the
register it reads as a list, one reading per iteration. -/

/-- The registers of `spi_t` that the master routines write by assignment. -/
inductive SpiReg
  | ctrlr0
  | ctrlr1
  | ssienr
  | ser
  | baudr
  | imr
  | dmacr
  | dmatdlr
  | dmardlr
  | spi_ctrlr0
  | endian
deriving DecidableEq

/-- Externally visible actions of the master routines, in program order:
register writes, writes to the data register `dr[0]` and calls into the clock
subsystem. -/
inductive MasterEvent
  | reg_write (spi_num : Nat) (reg : SpiReg) (value : Nat)
  | dr_write (spi_num : Nat) (value : Nat)
  | sysctl_clock_set_clock_select_spi3 (select : Nat)
  | sysctl_clock_enable_spi (spi_num : Nat)
  | sysctl_clock_set_threshold_spi (spi_num : Nat) (threshold : Nat)
deriving DecidableEq

/-- The registers of the buses, memory and the action log. -/
structure MasterState where
  regs : Nat → SpiReg → Nat
  mem : Nat → Nat
  log : List MasterEvent

/-- How a master routine ends. -/
inductive Outcome
  | aborted (s : MasterState)
  | stalled (s : MasterState)
  | returned (s : MasterState)

/-- The register write `spi[spi_num]->reg = value`. -/
@[simps] def write_reg (spi_num : Nat) (reg : SpiReg) (value : Nat) (s : MasterState) :
    MasterState :=
  { s with
    regs := fun n r => if n = spi_num ∧ r = reg then value else s.regs n r
    log := s.log ++ [MasterEvent.reg_write spi_num reg value] }

/-- The write `spi[spi_num]->dr[0] = value`. -/
@[simps] def write_dr (spi_num : Nat) (value : Nat) (s : MasterState) : MasterState :=
  { s with log := s.log ++ [MasterEvent.dr_write spi_num value] }

/-- A call into the clock subsystem. -/
@[simps] def clock_call (e : MasterEvent) (s : MasterState) : MasterState :=
  { s with log := s.log ++ [e] }

/-- Replaces the memory contents. -/
@[simps] def master_set_mem (mem : Nat → Nat) (s : MasterState) : MasterState :=
  { s with mem := mem }

/-- The values written to the data register of bus `spi_num`, in order. -/
def dr_writes (spi_num : Nat) (log : List MasterEvent) : List Nat :=
  log.filterMap fun e =>
    match e with
    | .dr_write n v => if n = spi_num then some v else none
    | _ => none

/-- The condition `spi_num < SPI_DEVICE_MAX && spi_num != 2` asserted by every
master routine. -/
def SpiHeader.master_bus (c : SpiHeader) (spi_num : Nat) : Prop :=
  spi_num < c.SPI_DEVICE_MAX ∧ spi_num ≠ 2

instance (c : SpiHeader) (spi_num : Nat) : Decidable (c.master_bus spi_num) := by
  unfold SpiHeader.master_bus
  exact inferInstance

/-- Source lines 42-50. -/
def spi_clk_init (c : SpiHeader) (spi_num : Nat) (s : MasterState) : Outcome :=
  if ¬ (spi_num < c.SPI_DEVICE_MAX ∧ spi_num ≠ 2) then .aborted s
  else
    let s := if spi_num = 3 then clock_call (.sysctl_clock_set_clock_select_spi3 1) s else s
    .returned
      (s |> clock_call (.sysctl_clock_enable_spi spi_num)
         |> clock_call (.sysctl_clock_set_threshold_spi spi_num 0))

/-- Source lines 52-70 as called by a master routine: the assertion and the
update of `ctrlr0`. -/
def master_set_tmod (c : SpiHeader) (spi_num tmod : Nat) (s : MasterState) : Outcome :=
  if ¬ spi_num < c.SPI_DEVICE_MAX then .aborted s
  else .returned (write_reg spi_num .ctrlr0 (spi_set_tmod spi_num tmod (s.regs spi_num .ctrlr0)) s)

/-- Source lines 72-125. -/
def spi_init (c : SpiHeader) (spi_num work_mode frame_format data_bit_length endian : Nat)
    (s : MasterState) : Outcome :=
  if ¬ (data_bit_length ≥ 4 ∧ data_bit_length ≤ 32) then .aborted s
  else if ¬ (spi_num < c.SPI_DEVICE_MAX ∧ spi_num ≠ 2) then .aborted s
  else
    match spi_clk_init c spi_num s with
    | .aborted s => .aborted s
    | .stalled s => .stalled s
    | .returned s =>
      if spi_num = 2 then .aborted s
      else
        let dfs_offset := if spi_num = 0 ∨ spi_num = 1 then 16 else 0
        let frf_offset := if spi_num = 0 ∨ spi_num = 1 then 21 else 22
        let work_mode_offset := if spi_num = 0 ∨ spi_num = 1 then 6 else 8
        if frame_format = c.SPI_FF_DUAL ∧ ¬ data_bit_length % 2 = 0 then .aborted s
        else if frame_format ≠ c.SPI_FF_DUAL ∧ frame_format = c.SPI_FF_QUAD ∧
            ¬ data_bit_length % 4 = 0 then .aborted s
        else if frame_format ≠ c.SPI_FF_DUAL ∧ frame_format ≠ c.SPI_FF_QUAD ∧
            frame_format = c.SPI_FF_OCTAL ∧ ¬ data_bit_length % 8 = 0 then .aborted s
        else
          let s := if s.regs spi_num .baudr = 0 then write_reg spi_num .baudr 0x14 s else s
          .returned
            (s |> write_reg spi_num .imr 0x00
               |> write_reg spi_num .dmacr 0x00
               |> write_reg spi_num .dmatdlr 0x10
               |> write_reg spi_num .dmardlr 0x00
               |> write_reg spi_num .ser 0x00
               |> write_reg spi_num .ssienr 0x00
               |> write_reg spi_num .ctrlr0
                    (((work_mode <<< work_mode_offset) ||| (frame_format <<< frf_offset) |||
                      (size_dec data_bit_length <<< dfs_offset)) % 2 ^ 32)
               |> write_reg spi_num .spi_ctrlr0 0
               |> write_reg spi_num .endian endian)

/-- The value of `inst_l` chosen by the switch at source lines 135-152, if
any. -/
def inst_l_of (instruction_length : Nat) : Option Nat :=
  if instruction_length = 0 then some 0
  else if instruction_length = 4 then some 1
  else if instruction_length = 8 then some 2
  else if instruction_length = 16 then some 3
  else none

/-- Source lines 127-158. -/
def spi_init_non_standard (c : SpiHeader)
    (spi_num instruction_length address_length wait_cycles instruction_address_trans_mode : Nat)
    (s : MasterState) : Outcome :=
  if ¬ wait_cycles < 1 <<< 5 then .aborted s
  else if ¬ instruction_address_trans_mode < 3 then .aborted s
  else if ¬ (spi_num < c.SPI_DEVICE_MAX ∧ spi_num ≠ 2) then .aborted s
  else
    match inst_l_of instruction_length with
    | none => .aborted s
    | some inst_l =>
      if ¬ (address_length % 4 = 0 ∧ address_length ≤ 60) then .aborted s
      else
        let addr_l := address_length / 4
        .returned
          (write_reg spi_num .spi_ctrlr0
            (((wait_cycles <<< 11) ||| (inst_l <<< 8) ||| (addr_l <<< 2) |||
              instruction_address_trans_mode) % 2 ^ 32) s)


/-- The value `32 - txflr` computed on 32 bits (source lines 212, 299, 394 and
450). -/
def fifo_free (txflr : Nat) : Nat :=
  if txflr % 2 ^ 32 ≤ 32 then 32 - txflr % 2 ^ 32 else 2 ^ 32 + 32 - txflr % 2 ^ 32

/-- The value `i + k` of the `uint32_t` index `i`. -/
def u32_add (i k : Nat) : Nat := (i + k) % 2 ^ 32

/-- The offset of the frame-size field of `ctrlr0` chosen by the switch on the
bus number (source lines 184-198); bus 2 is excluded by the assertion. -/
def master_dfs_offset (spi_num : Nat) : Nat :=
  if spi_num = 0 ∨ spi_num = 1 then 16 else 0

/-- The frame width a master routine derives from `ctrlr0` (source lines
199-200). -/
def master_frame_width (spi_num : Nat) (s : MasterState) : spi_transfer_width_t :=
  spi_get_frame_size ((s.regs spi_num .ctrlr0 >>> master_dfs_offset spi_num) &&& 0x1F)

/-- The wide-pointer push loops (source lines 228-229, 244-245, 249-250 and
304-313): `n` writes of `((T *)buff)[i++]` to the data register, `T` a type of
`w` bytes. Returns the final index. -/
def push_aligned (w spi_num buff : Nat) : Nat → Nat → MasterState → Nat × MasterState
  | 0, i, s => (i, s)
  | n + 1, i, s =>
      push_aligned w spi_num buff n (u32_add i 1)
        (write_dr spi_num (load_le s.mem (buff + w * i) w) s)

/-- The result of `memcpy(&v_send_data, p, w)` on the 32-bit scratch word: its
low `w` bytes are replaced by the little-endian value `x` of the `w` bytes
copied. -/
def memcpy_scratch (w x v_send_data : Nat) : Nat :=
  (v_send_data % 2 ^ 32) / 256 ^ w * 256 ^ w + x

/-- The element-wise push loops through the scratch word (source lines 220-225
and 236-241): `n` iterations, `i` a byte offset advanced by `w`. Returns the
final index and scratch word. -/
def push_misaligned (w spi_num buff : Nat) :
    Nat → Nat → Nat → MasterState → Nat × Nat × MasterState
  | 0, i, v, s => (i, v, s)
  | n + 1, i, v, s =>
      push_misaligned w spi_num buff n (u32_add i w)
        (memcpy_scratch w (load_le s.mem (buff + i) w) v)
        (write_dr spi_num (memcpy_scratch w (load_le s.mem (buff + i) w) v) s)

/-- One iteration of the send loop after `fifo_len` has been clamped to the
remaining length (source lines 214-252): the number of bytes consumed, the new
index and scratch word, and the state. -/
def send_chunk (fw : spi_transfer_width_t) (misalign : Bool) (spi_num tx_buff fifo_len i v : Nat)
    (s : MasterState) : Nat × Nat × Nat × MasterState :=
  match fw with
  | .SPI_TRANS_INT =>
      let fifo_len := fifo_len / 4 * 4
      if misalign then
        let r := push_misaligned 4 spi_num tx_buff (fifo_len / 4) i v s
        (fifo_len, r)
      else
        let r := push_aligned 4 spi_num tx_buff (fifo_len / 4) i s
        (fifo_len, r.1, v, r.2)
  | .SPI_TRANS_SHORT =>
      let fifo_len := fifo_len / 2 * 2
      if misalign then
        let r := push_misaligned 2 spi_num tx_buff (fifo_len / 2) i v s
        (fifo_len, r)
      else
        let r := push_aligned 2 spi_num tx_buff (fifo_len / 2) i s
        (fifo_len, r.1, v, r.2)
  | .SPI_TRANS_CHAR =>
      let r := push_aligned 1 spi_num tx_buff fifo_len i s
      (fifo_len, r.1, v, r.2)

/-- The send loop `while(tx_len)` (source lines 210-254), one reading of `txflr`
per iteration. The result is `none` when the readings are used up while
`tx_len` is not 0; otherwise the readings left over and the state. -/
def send_loop (fw : spi_transfer_width_t) (misalign : Bool) (spi_num tx_buff : Nat) :
    List Nat → Nat → Nat → Nat → MasterState → Option (List Nat × MasterState)
  | [], tx_len, _, _, s => if tx_len = 0 then some ([], s) else none
  | txflr :: rest, tx_len, i, v, s =>
      if tx_len = 0 then some (txflr :: rest, s)
      else
        let fifo_len := fifo_free txflr
        let fifo_len := if fifo_len < tx_len then fifo_len else tx_len
        let r := send_chunk fw misalign spi_num tx_buff fifo_len i v s
        send_loop fw misalign spi_num tx_buff rest (tx_len - r.1) r.2.1 r.2.2.1 r.2.2.2

/-- The busy wait `while((sr & 0x05) != 0x04)` (source lines 255-256): whether
one of the readings of `sr` ends it. -/
def wait_idle : List Nat → Bool
  | [] => false
  | sr :: rest => if sr &&& 0x05 = 0x04 then true else wait_idle rest

/-- Source lines 175-259. `v_send_data` is the value the uninitialised scratch
word holds on entry; `txflr` and `sr` are the readings of the two registers
polled. -/
def spi_send_data_normal (c : SpiHeader) (spi_num chip_select tx_buff tx_len v_send_data : Nat)
    (txflr sr : List Nat) (s : MasterState) : Outcome :=
  if ¬ (spi_num < c.SPI_DEVICE_MAX ∧ spi_num ≠ 2) then .aborted s
  else
    match master_set_tmod c spi_num c.SPI_TMOD_TRANS s with
    | .aborted s => .aborted s
    | .stalled s => .stalled s
    | .returned s =>
      if spi_num = 2 then .aborted s
      else
        let frame_width := master_frame_width spi_num s
        let v_misalign_flag := decide (tx_buff % frame_width.bytes ≠ 0)
        let s := s |> write_reg spi_num .ssienr 0x01
                   |> write_reg spi_num .ser ((1 <<< chip_select) % 2 ^ 32)
        match send_loop frame_width v_misalign_flag spi_num tx_buff txflr tx_len 0 v_send_data s with
        | none => .stalled s
        | some (_, s) =>
          if wait_idle sr then
            .returned (s |> write_reg spi_num .ser 0x00 |> write_reg spi_num .ssienr 0x00)
          else .stalled s

/-- The pointer push loops of the command-prefixed routines (source lines
397-398 and 453-454): `n` writes of `*cmd_buff++`, 32-bit words. -/
def push_words (spi_num : Nat) : Nat → Nat → MasterState → Nat × MasterState
  | 0, cmd_buff, s => (cmd_buff, s)
  | n + 1, cmd_buff, s =>
      push_words spi_num n (cmd_buff + 4) (write_dr spi_num (load_le s.mem cmd_buff 4) s)

/-- The command loop of `spi_send_data_multiple` (source lines 448-456), one
reading of `txflr` per iteration. -/
def send_cmd_loop (spi_num : Nat) :
    List Nat → Nat → Nat → MasterState → Option (List Nat × MasterState)
  | [], v_cmd_len, _, s => if v_cmd_len = 0 then some ([], s) else none
  | txflr :: rest, v_cmd_len, cmd_buff, s =>
      if v_cmd_len = 0 then some (txflr :: rest, s)
      else
        let fifo_len := fifo_free txflr
        let fifo_len := if fifo_len < v_cmd_len then fifo_len else v_cmd_len
        let fifo_len := fifo_len / 4 * 4
        let r := push_words spi_num (fifo_len / 4) cmd_buff s
        send_cmd_loop spi_num rest (v_cmd_len - fifo_len) r.1 r.2

/-- Source lines 436-458. The readings of `txflr` left over by the command loop
are those polled by `spi_send_data_normal`. -/
def spi_send_data_multiple (c : SpiHeader)
    (spi_num chip_select cmd_buff cmd_len tx_buff tx_len v_send_data : Nat)
    (txflr sr : List Nat) (s : MasterState) : Outcome :=
  if ¬ (spi_num < c.SPI_DEVICE_MAX ∧ spi_num ≠ 2) then .aborted s
  else
    match master_set_tmod c spi_num c.SPI_TMOD_TRANS s with
    | .aborted s => .aborted s
    | .stalled s => .stalled s
    | .returned s =>
      let s := s |> write_reg spi_num .ssienr 0x01
                 |> write_reg spi_num .ser ((1 <<< chip_select) % 2 ^ 32)
      let v_cmd_len := (cmd_len * 4) % 2 ^ 64
      match send_cmd_loop spi_num txflr v_cmd_len cmd_buff s with
      | none => .stalled s
      | some (txflr, s) =>
        spi_send_data_normal c spi_num chip_select tx_buff tx_len v_send_data txflr sr s


/-- The drain loops into the output buffer (source lines 333-344 and 415-426):
`n` reads of the data register, the `k`-th stored at its width into element
`i` of the array at `rx_buff`; `dr pos` is the value of the read number `pos`.
Returns the final index and read position. -/
def pull_frames (w rx_buff : Nat) (dr : Nat → Nat) :
    Nat → Nat → Nat → MasterState → Nat × Nat × MasterState
  | 0, i, pos, s => (i, pos, s)
  | n + 1, i, pos, s =>
      pull_frames w rx_buff dr n (u32_add i 1) (pos + 1)
        (master_set_mem (store_le w (rx_buff + w * i) (dr pos) s.mem) s)

/-- The command loop of `spi_receive_data_standard` (source lines 297-318), one
reading of `txflr` per iteration; the chip select is written in every
iteration. -/
def recv_cmd_loop (w spi_num chip_select cmd_buff : Nat) :
    List Nat → Nat → Nat → MasterState → Option MasterState
  | [], v_cmd_len, _, s => if v_cmd_len = 0 then some s else none
  | txflr :: rest, v_cmd_len, i, s =>
      if v_cmd_len = 0 then some s
      else
        let fifo_len := fifo_free txflr
        let fifo_len := if fifo_len < v_cmd_len then fifo_len else v_cmd_len
        let r := push_aligned w spi_num cmd_buff fifo_len i s
        let s := write_reg spi_num .ser ((1 <<< chip_select) % 2 ^ 32) r.2
        recv_cmd_loop w spi_num chip_select cmd_buff rest (v_cmd_len - fifo_len) r.1 s

/-- The drain loop `while(v_rx_len)` (source lines 327-348 and 409-430), one
reading of `rxflr` per iteration. -/
def drain_loop (w rx_buff : Nat) (dr : Nat → Nat) :
    List Nat → Nat → Nat → Nat → MasterState → Option MasterState
  | [], v_rx_len, _, _, s => if v_rx_len = 0 then some s else none
  | rxflr :: rest, v_rx_len, i, pos, s =>
      if v_rx_len = 0 then some s
      else
        let fifo_len := rxflr % 2 ^ 32
        let fifo_len := if fifo_len < v_rx_len then fifo_len else v_rx_len
        let r := pull_frames w rx_buff dr fifo_len i pos s
        drain_loop w rx_buff dr rest (v_rx_len - fifo_len) r.1 r.2.1 r.2.2

/-- Source lines 261-352. `txflr` and `rxflr` are the readings of the two level
registers polled and `dr k` is the value returned by the `k`-th read of the
data register. -/
def spi_receive_data_standard (c : SpiHeader)
    (spi_num chip_select cmd_buff cmd_len rx_buff rx_len : Nat)
    (txflr rxflr : List Nat) (dr : Nat → Nat) (s : MasterState) : Outcome :=
  if ¬ (spi_num < c.SPI_DEVICE_MAX ∧ spi_num ≠ 2) then .aborted s
  else
    match master_set_tmod c spi_num (if cmd_len = 0 then c.SPI_TMOD_RECV else c.SPI_TMOD_EEROM)
        s with
    | .aborted s => .aborted s
    | .stalled s => .stalled s
    | .returned s =>
      if spi_num = 2 then .aborted s
      else
        let frame_width := master_frame_width spi_num s
        let v_cmd_len := cmd_len / frame_width.bytes
        let v_rx_len := (rx_len / frame_width.bytes) % 2 ^ 32
        let s := s |> write_reg spi_num .ctrlr1 (u32_dec v_rx_len)
                   |> write_reg spi_num .ssienr 0x01
        match recv_cmd_loop frame_width.bytes spi_num chip_select cmd_buff txflr v_cmd_len 0 s with
        | none => .stalled s
        | some s =>
          let s :=
            if cmd_len = 0 then
              s |> write_dr spi_num 0xffffffff
                |> write_reg spi_num .ser ((1 <<< chip_select) % 2 ^ 32)
            else s
          match drain_loop frame_width.bytes rx_buff dr rxflr v_rx_len 0 0 s with
          | none => .stalled s
          | some s =>
            .returned (s |> write_reg spi_num .ser 0x00 |> write_reg spi_num .ssienr 0x00)

/-- The command loop of `spi_receive_data_multiple` (source lines 392-402). -/
def recv_words_loop (spi_num chip_select : Nat) :
    List Nat → Nat → Nat → MasterState → Option MasterState
  | [], v_cmd_len, _, s => if v_cmd_len = 0 then some s else none
  | txflr :: rest, v_cmd_len, cmd_buff, s =>
      if v_cmd_len = 0 then some s
      else
        let fifo_len := fifo_free txflr
        let fifo_len := if fifo_len < v_cmd_len then fifo_len else v_cmd_len
        let r := push_words spi_num fifo_len cmd_buff s
        let s := write_reg spi_num .ser ((1 <<< chip_select) % 2 ^ 32) r.2
        recv_words_loop spi_num chip_select rest (v_cmd_len - fifo_len) r.1 s

/-- Source lines 354-434. -/
def spi_receive_data_multiple (c : SpiHeader)
    (spi_num chip_select cmd_buff cmd_len rx_buff rx_len : Nat)
    (txflr rxflr : List Nat) (dr : Nat → Nat) (s : MasterState) : Outcome :=
  if ¬ (spi_num < c.SPI_DEVICE_MAX ∧ spi_num ≠ 2) then .aborted s
  else
    match master_set_tmod c spi_num (if cmd_len = 0 then c.SPI_TMOD_RECV else c.SPI_TMOD_EEROM)
        s with
    | .aborted s => .aborted s
    | .stalled s => .stalled s
    | .returned s =>
      if spi_num = 2 then .aborted s
      else
        let frame_width := master_frame_width spi_num s
        let v_cmd_len := cmd_len % 2 ^ 32
        let v_rx_len := (rx_len / frame_width.bytes) % 2 ^ 32
        let s := s |> write_reg spi_num .ctrlr1 (u32_dec v_rx_len)
                   |> write_reg spi_num .ssienr 0x01
        match recv_words_loop spi_num chip_select txflr v_cmd_len cmd_buff s with
        | none => .stalled s
        | some s =>
          let s :=
            if cmd_len = 0 then write_reg spi_num .ser ((1 <<< chip_select) % 2 ^ 32) s
            else s
          match drain_loop frame_width.bytes rx_buff dr rxflr v_rx_len 0 0 s with
          | none => .stalled s
          | some s =>
            .returned (s |> write_reg spi_num .ser 0x00 |> write_reg spi_num .ssienr 0x00)

/-- A master state with all registers at zero, memory holding `a % 251` at
address `a` and an empty log; used for concrete evaluations. -/
def master_reset : MasterState :=
  { regs := fun _ _ => 0, mem := fun a => a % 251, log := [] }

/-- The state in which a routine returned, if it did. -/
def Outcome.state? : Outcome → Option MasterState
  | .returned s => some s
  | _ => none


/-- The state after `spi_init` of bus `spi_num` in work mode 0 and the standard
frame format with `data_bit_length` bits, from `master_reset`. -/
def master_configured (spi_num data_bit_length : Nat) : MasterState :=
  match spi_init spi_h spi_num 0 0 data_bit_length 0 master_reset with
  | .returned s => s
  | _ => master_reset

/-- The rejection condition of `spi_init_non_standard` in the words of the
specification: the wait cycles do not fit five bits, the transfer mode is not
below 3, the instruction length is none of 0, 4, 8, 16, or the address length
is not a multiple of 4 or exceeds 60. -/
def non_standard_rejected (instruction_length address_length wait_cycles trans_mode : Nat) :
    Prop :=
  wait_cycles ≥ 32 ∨ trans_mode ≥ 3 ∨
    (instruction_length ≠ 0 ∧ instruction_length ≠ 4 ∧ instruction_length ≠ 8 ∧
      instruction_length ≠ 16) ∨
    address_length % 4 ≠ 0 ∨ address_length > 60

instance (il al wc m : Nat) : Decidable (non_standard_rejected il al wc m) := by
  unfold non_standard_rejected
  exact inferInstance

/-- The state with the events `es` appended to the log. -/
@[simps] def append_log (es : List MasterEvent) (s : MasterState) : MasterState :=
  { s with log := s.log ++ es }

/-- The first `n` consecutive `w`-byte little-endian groups of the buffer at
`buff`. -/
def buffer_frames (w : Nat) (mem : Nat → Nat) (buff n : Nat) : List Nat :=
  (List.range n).map fun k => load_le mem (buff + w * k) w

/-- The control skeleton of the send loop `while(tx_len)`: the readings of
`txflr` left over when the loop ends at frame width `w`, `none` when the
readings are used up first. -/
def send_rest (w : Nat) : List Nat → Nat → Option (List Nat)
  | [], tx_len => if tx_len = 0 then some [] else none
  | txflr :: rest, tx_len =>
      if tx_len = 0 then some (txflr :: rest)
      else
        send_rest w rest
          (tx_len - (if fifo_free txflr < tx_len then fifo_free txflr else tx_len) / w * w)

/-- The control skeleton of the drain loop `while(v_rx_len)`: whether the loop
ends before the readings of `rxflr` are used up. -/
def drain_done : List Nat → Nat → Bool
  | [], v_rx_len => decide (v_rx_len = 0)
  | rxflr :: rest, v_rx_len =>
      if v_rx_len = 0 then true
      else
        drain_done rest
          (v_rx_len - (if rxflr % 2 ^ 32 < v_rx_len then rxflr % 2 ^ 32 else v_rx_len))

/-! ### Runs of the slave state machine -/

/-- What the environment does between two handler invocations: the receive
FIFO contents, the level registers, the DMA status and memory (written by the
DMA engine and by the callback's owner) take new values. -/
@[simps] def set_environment (rx : Nat → Nat) (rxflr txflr : Nat) (dmac_intstatus : Nat → Nat)
    (mem : Nat → Nat) (s : SlaveState) : SlaveState :=
  { s with rx := rx, rxflr := rxflr, txflr := txflr, dmac_intstatus := dmac_intstatus,
           mem := mem }

/-- One event of a run of the slave: the SPI interrupt (`spi_slave_irq`), an
edge on the interrupt pin (`spi_slave_cs_irq`), or a change of what the
volatile registers and memory hold. -/
inductive SlaveStep
  | irq
  | cs_irq
  | environment (rx : Nat → Nat) (rxflr txflr : Nat) (dmac_intstatus : Nat → Nat)
      (mem : Nat → Nat)

/-- The state after one event. -/
def slave_step (c : SpiHeader) : SlaveStep → SlaveState → SlaveState
  | .irq, s => spi_slave_irq s
  | .cs_irq, s => spi_slave_cs_irq c s
  | .environment rx rxflr txflr dmac_intstatus mem, s =>
      set_environment rx rxflr txflr dmac_intstatus mem s

/-- The state after a finite sequence of events, observed between handler
invocations. -/
def slave_run (c : SpiHeader) : List SlaveStep → SlaveState → SlaveState
  | [], s => s
  | e :: es, s => slave_run c es (slave_step c e s)

/-- A sample run at 8-bit frames: the SPI interrupt, the header of a
WRITE_CONFIG command of length 4 arriving in the receive FIFO, and the pin edge
that decodes it. -/
def sample_run : List SlaveStep :=
  [.irq,
   .environment (fun i => [0, 0, 0, 0, 0, 4, 0, 4].getD i 0) 0 0 (fun _ => 0) (fun a => a % 251),
   .cs_irq]

/-! ## Lemmas -/

theorem read_cmd_data_header (fw : spi_transfer_width_t) (s : SlaveState)
    (b0 b1 b2 b3 b4 b5 b6 b7 : Nat) (hb : header_bytes b0 b1 b2 b3 b4 b5 b6 b7)
    (hrx : rx_holds s (header_frames fw b0 b1 b2 b3 b4 b5 b6 b7)) :
    read_cmd_data fw s.rx = [b0, b1, b2, b3, b4, b5, b6, b7] := by
  obtain ⟨h0, h1, h2, h3, h4, h5, h6, h7⟩ := hb
  cases fw
  · have e0 := hrx 0 (by simp [header_frames])
    have e1 := hrx 1 (by simp [header_frames])
    have e2 := hrx 2 (by simp [header_frames])
    have e3 := hrx 3 (by simp [header_frames])
    have e4 := hrx 4 (by simp [header_frames])
    have e5 := hrx 5 (by simp [header_frames])
    have e6 := hrx 6 (by simp [header_frames])
    have e7 := hrx 7 (by simp [header_frames])
    simp only [header_frames, List.getD_cons_zero, List.getD_cons_succ] at e0 e1 e2 e3 e4 e5 e6 e7
    simp [read_cmd_data, le_bytes, List.range_succ, e0, e1, e2, e3, e4, e5, e6, e7]
    exact ⟨by omega, by omega, by omega, by omega, by omega, by omega, by omega, by omega⟩
  · have e0 := hrx 0 (by simp [header_frames])
    have e1 := hrx 1 (by simp [header_frames])
    have e2 := hrx 2 (by simp [header_frames])
    have e3 := hrx 3 (by simp [header_frames])
    simp only [header_frames, List.getD_cons_zero, List.getD_cons_succ] at e0 e1 e2 e3
    simp [read_cmd_data, le_bytes, List.range_succ, e0, e1, e2, e3]
    omega
  · have e0 := hrx 0 (by simp [header_frames])
    have e1 := hrx 1 (by simp [header_frames])
    simp only [header_frames, List.getD_cons_zero, List.getD_cons_succ] at e0 e1
    simp [read_cmd_data, le_bytes, List.range_succ, e0, e1]
    omega

theorem cmd_sum_header (b0 b1 b2 b3 b4 b5 b6 b7 : Nat) :
    cmd_sum [b0, b1, b2, b3, b4, b5, b6, b7] = header_sum b0 b1 b2 b3 b4 b5 b6 := by
  simp [cmd_sum, header_sum, List.range_succ]

theorem or_shift_byte (x b k : Nat) (hx : x < 2 ^ k) : x ||| (b <<< k) = x + 2 ^ k * b := by
  rw [Nat.shiftLeft_eq, Nat.mul_comm b, Nat.or_comm, ← Nat.mul_add_lt_is_or hx, Nat.add_comm]

theorem or_shift_bytes4 (b1 b2 b3 b4 : Nat) (h1 : b1 < 256) (h2 : b2 < 256) (h3 : b3 < 256)
    (h4 : b4 < 256) :
    (b1 ||| (b2 <<< 8) ||| (b3 <<< 16) ||| (b4 <<< 24)) % 2 ^ 32 = header_addr b1 b2 b3 b4 := by
  rw [or_shift_byte b1 b2 8 (by omega), or_shift_byte _ b3 16 (by omega),
    or_shift_byte _ b4 24 (by omega)]
  unfold header_addr
  omega

theorem or_shift_bytes2 (b5 b6 : Nat) (h5 : b5 < 256) :
    b5 ||| (b6 <<< 8) = b5 + 2 ^ 8 * b6 :=
  or_shift_byte b5 b6 8 (by omega)

theorem and_mask16 (a : Nat) (ha : a < 2 ^ 32) : a &&& 0xFFFFFFF0 = 16 * (a / 16) := by
  apply Nat.eq_of_testBit_eq
  intro j
  have e1 : (0xFFFFFFF0 : Nat) = 2 ^ 4 * (2 ^ 28 - 1) := by norm_num
  have e2 : 16 * (a / 16) = 2 ^ 4 * (a >>> 4) := by
    rw [Nat.shiftRight_eq_div_pow]; norm_num
  rw [Nat.testBit_and, e1, e2, Nat.testBit_mul_pow_two, Nat.testBit_mul_pow_two,
    Nat.testBit_two_pow_sub_one, Nat.testBit_shiftRight]
  by_cases hj : 4 ≤ j
  · have e3 : 4 + (j - 4) = j := by omega
    rw [e3]
    by_cases hj2 : j < 32
    · have : j - 4 < 28 := by omega
      simp [hj, this]
    · have hlt : a < 2 ^ j := lt_of_lt_of_le ha (Nat.pow_le_pow_right (by norm_num) (by omega))
      simp [Nat.testBit_lt_two_pow hlt]
  · simp [hj]

theorem header_addr_lt (b1 b2 b3 b4 : Nat) (h1 : b1 < 256) (h2 : b2 < 256) (h3 : b3 < 256)
    (h4 : b4 < 256) : header_addr b1 b2 b3 b4 < 2 ^ 32 := by
  unfold header_addr
  omega

theorem decoded_len_pos (b5 b6 : Nat) : 1 ≤ decoded_len b5 b6 := by
  unfold decoded_len
  split_ifs <;> omega

theorem decoded_len_le (b5 b6 : Nat) (h5 : b5 < 256) (h6 : b6 < 256) :
    decoded_len b5 b6 ≤ 65536 := by
  unfold decoded_len
  split_ifs <;> omega

/-- What `spi_slave_command_mode` does when the next frames of the receive FIFO
carry the header bytes `b0..b7`. -/
theorem command_mode_eq (c : SpiHeader) (s : SlaveState)
    (b0 b1 b2 b3 b4 b5 b6 b7 : Nat) (hb : header_bytes b0 b1 b2 b3 b4 b5 b6 b7)
    (hrx : rx_holds s (header_frames (slave_frame_width s) b0 b1 b2 b3 b4 b5 b6 b7)) :
    spi_slave_command_mode c s =
      if b7 ≠ header_sum b0 b1 b2 b3 b4 b5 b6 then
        spi_slave_idle_mode (after_header s)
      else if b0 < c.WRITE_DATA_BLOCK ∧ decoded_len b5 b6 > 8 then
        spi_slave_idle_mode
          (set_command b0 (header_addr b1 b2 b3 b4) (decoded_len b5 b6) (after_header s))
      else
        command_dispatch c
          (set_command b0 (header_addr b1 b2 b3 b4) (decoded_len b5 b6) (after_header s)) := by
  have hcd := read_cmd_data_header (slave_frame_width s) s b0 b1 b2 b3 b4 b5 b6 b7 hb hrx
  obtain ⟨h0, h1, h2, h3, h4, h5, h6, h7⟩ := hb
  unfold slave_frame_width at hcd
  have g0 : [b0, b1, b2, b3, b4, b5, b6, b7].getD 0 0 = b0 := rfl
  have g1 : [b0, b1, b2, b3, b4, b5, b6, b7].getD 1 0 = b1 := rfl
  have g2 : [b0, b1, b2, b3, b4, b5, b6, b7].getD 2 0 = b2 := rfl
  have g3 : [b0, b1, b2, b3, b4, b5, b6, b7].getD 3 0 = b3 := rfl
  have g4 : [b0, b1, b2, b3, b4, b5, b6, b7].getD 4 0 = b4 := rfl
  have g5 : [b0, b1, b2, b3, b4, b5, b6, b7].getD 5 0 = b5 := rfl
  have g6 : [b0, b1, b2, b3, b4, b5, b6, b7].getD 6 0 = b6 := rfl
  have g7 : [b0, b1, b2, b3, b4, b5, b6, b7].getD 7 0 = b7 := rfl
  unfold spi_slave_command_mode after_header slave_frame_width decoded_len
  simp only [hcd, cmd_sum_header, g0, g1, g2, g3, g4, g5, g6, g7,
    or_shift_bytes4 b1 b2 b3 b4 h1 h2 h3 h4, or_shift_bytes2 b5 b6 h5, set_command_command_cmd,
    set_command_command_len]

@[simp] theorem idle_mode_command (s : SlaveState) :
    (spi_slave_idle_mode s).command = s.command := by
  simp [spi_slave_idle_mode]

@[simp] theorem idle_mode_status (s : SlaveState) :
    (spi_slave_idle_mode s).status = .IDLE := by
  simp [spi_slave_idle_mode]

@[simp] theorem idle_mode_mem (s : SlaveState) : (spi_slave_idle_mode s).mem = s.mem := by
  funext a
  simp [spi_slave_idle_mode]

@[simp] theorem idle_mode_rx (s : SlaveState) : (spi_slave_idle_mode s).rx = s.rx := by
  funext a
  simp [spi_slave_idle_mode]

@[simp] theorem idle_mode_log (s : SlaveState) :
    (spi_slave_idle_mode s).log = s.log ++ [Event.gpiohs_set_pin s.ready_pin .GPIO_PV_HIGH] := by
  simp [spi_slave_idle_mode]

@[simp] theorem idle_mode_ready_pin (s : SlaveState) :
    (spi_slave_idle_mode s).ready_pin = s.ready_pin := by
  simp [spi_slave_idle_mode]

@[simp] theorem idle_mode_pin_level (s : SlaveState) (p : Nat) :
    (spi_slave_idle_mode s).pin_level p
      = if p = s.ready_pin then .GPIO_PV_HIGH else s.pin_level p := by
  simp [spi_slave_idle_mode]

@[simp] theorem idle_mode_config_ptr (s : SlaveState) :
    (spi_slave_idle_mode s).config_ptr = s.config_ptr := by
  simp [spi_slave_idle_mode]

@[simp] theorem idle_mode_config_len (s : SlaveState) :
    (spi_slave_idle_mode s).config_len = s.config_len := by
  simp [spi_slave_idle_mode]

@[simp] theorem after_header_config_len (s : SlaveState) :
    (after_header s).config_len = s.config_len := by
  simp [after_header]

@[simp] theorem after_header_command (s : SlaveState) : (after_header s).command = s.command := by
  simp [after_header]

@[simp] theorem after_header_mem (s : SlaveState) : (after_header s).mem = s.mem := by
  funext a
  simp [after_header]

@[simp] theorem after_header_log (s : SlaveState) : (after_header s).log = s.log := by
  simp [after_header]

@[simp] theorem after_header_ready_pin (s : SlaveState) :
    (after_header s).ready_pin = s.ready_pin := by
  simp [after_header]

@[simp] theorem after_header_pin_level (s : SlaveState) :
    (after_header s).pin_level = s.pin_level := by
  funext a
  simp [after_header]

@[simp] theorem after_header_config_ptr (s : SlaveState) :
    (after_header s).config_ptr = s.config_ptr := by
  simp [after_header]

@[simp] theorem after_header_dmac_channel (s : SlaveState) :
    (after_header s).dmac_channel = s.dmac_channel := by
  simp [after_header]

@[simp] theorem after_header_data_bit_length (s : SlaveState) :
    (after_header s).data_bit_length = s.data_bit_length := by
  simp [after_header]

@[simp] theorem set_command_command (cmd addr len : Nat) (s : SlaveState) :
    (set_command cmd addr len s).command
      = { cmd := cmd, err := s.command.err, addr := addr, len := len } := rfl

@[simp] theorem set_err_command (err : Nat) (s : SlaveState) :
    (set_err err s).command
      = { cmd := s.command.cmd, err := err, addr := s.command.addr, len := s.command.len } := rfl

theorem dispatch_command (c : SpiHeader) (s : SlaveState) :
    (command_dispatch c s).command = s.command := by
  unfold command_dispatch
  split_ifs <;> simp

/-- The descriptor stored by `spi_slave_command_mode` for a header with a
valid checksum. -/
theorem command_mode_command (c : SpiHeader) (s : SlaveState)
    (b0 b1 b2 b3 b4 b5 b6 b7 : Nat) (hb : header_bytes b0 b1 b2 b3 b4 b5 b6 b7)
    (hsum : b7 = header_sum b0 b1 b2 b3 b4 b5 b6)
    (hrx : rx_holds s (header_frames (slave_frame_width s) b0 b1 b2 b3 b4 b5 b6 b7)) :
    (spi_slave_command_mode c s).command
      = { cmd := b0, err := s.command.err, addr := header_addr b1 b2 b3 b4,
          len := decoded_len b5 b6 } := by
  rw [command_mode_eq c s b0 b1 b2 b3 b4 b5 b6 b7 hb hrx, if_neg (not_not.mpr hsum)]
  split_ifs <;> simp [dispatch_command]

/-- C1. For every eight header bytes `b0..b7` whose last byte is the checksum
of the first seven, read from the receive FIFO at the frame width of the
instance (whichever of the three it is), `spi_slave_command_mode` stores in the
command descriptor the opcode `b0`, the little-endian address `b1..b4` and the
little-endian length `b5, b6`, a length field of 0 being stored as 65536. -/
theorem command_mode_stores_header (c : SpiHeader) (s : SlaveState)
    (b0 b1 b2 b3 b4 b5 b6 b7 : Nat) (hb : header_bytes b0 b1 b2 b3 b4 b5 b6 b7)
    (hsum : b7 = (b0 + b1 + b2 + b3 + b4 + b5 + b6) % 256)
    (hrx : rx_holds s (header_frames (slave_frame_width s) b0 b1 b2 b3 b4 b5 b6 b7)) :
    (spi_slave_command_mode c s).command.cmd = b0 ∧
    (spi_slave_command_mode c s).command.addr = b1 + 2 ^ 8 * b2 + 2 ^ 16 * b3 + 2 ^ 24 * b4 ∧
    (spi_slave_command_mode c s).command.len
      = if b5 + 2 ^ 8 * b6 = 0 then 65536 else b5 + 2 ^ 8 * b6 := by
  rw [command_mode_command c s b0 b1 b2 b3 b4 b5 b6 b7 hb hsum hrx]
  exact ⟨rfl, rfl, rfl⟩

/-- Witness for C1: the header `01 11 00 00 00 00 00 12` (READ_CONFIG in the
sample numbering, address 17, length field 0) at each of the three frame
widths. -/
theorem command_mode_stores_header_witness :
    ((spi_slave_command_mode spi_h (in_command 8 [1, 17, 0, 0, 0, 0, 0, 18])).command.cmd = 1 ∧
     (spi_slave_command_mode spi_h (in_command 8 [1, 17, 0, 0, 0, 0, 0, 18])).command.addr
        = 17 + 2 ^ 8 * 0 + 2 ^ 16 * 0 + 2 ^ 24 * 0 ∧
     (spi_slave_command_mode spi_h (in_command 8 [1, 17, 0, 0, 0, 0, 0, 18])).command.len
        = if 0 + 2 ^ 8 * 0 = 0 then 65536 else 0 + 2 ^ 8 * 0) ∧
    ((spi_slave_command_mode spi_h (in_command 16 [0x1101, 0, 0, 0x1200])).command.cmd = 1 ∧
     (spi_slave_command_mode spi_h (in_command 16 [0x1101, 0, 0, 0x1200])).command.addr
        = 17 + 2 ^ 8 * 0 + 2 ^ 16 * 0 + 2 ^ 24 * 0 ∧
     (spi_slave_command_mode spi_h (in_command 16 [0x1101, 0, 0, 0x1200])).command.len
        = if 0 + 2 ^ 8 * 0 = 0 then 65536 else 0 + 2 ^ 8 * 0) ∧
    ((spi_slave_command_mode spi_h (in_command 32 [0x00001101, 0x12000000])).command.cmd = 1 ∧
     (spi_slave_command_mode spi_h (in_command 32 [0x00001101, 0x12000000])).command.addr
        = 17 + 2 ^ 8 * 0 + 2 ^ 16 * 0 + 2 ^ 24 * 0 ∧
     (spi_slave_command_mode spi_h (in_command 32 [0x00001101, 0x12000000])).command.len
        = if 0 + 2 ^ 8 * 0 = 0 then 65536 else 0 + 2 ^ 8 * 0) :=
  ⟨command_mode_stores_header spi_h (in_command 8 [1, 17, 0, 0, 0, 0, 0, 18])
      1 17 0 0 0 0 0 18 (by decide) (by decide) (by decide),
   command_mode_stores_header spi_h (in_command 16 [0x1101, 0, 0, 0x1200])
      1 17 0 0 0 0 0 18 (by decide) (by decide) (by decide),
   command_mode_stores_header spi_h (in_command 32 [0x00001101, 0x12000000])
      1 17 0 0 0 0 0 18 (by decide) (by decide) (by decide)⟩

theorem dispatch_ready_pin (c : SpiHeader) (s : SlaveState) :
    (command_dispatch c s).ready_pin = s.ready_pin := by
  unfold command_dispatch
  split_ifs <;> simp

theorem dispatch_mem (c : SpiHeader) (s : SlaveState) :
    (command_dispatch c s).mem = s.mem := by
  funext a
  unfold command_dispatch
  split_ifs <;> simp

/-- A known opcode leaves `command_dispatch` in Transfer with the ready pin
low. -/
theorem dispatch_known (c : SpiHeader) (s : SlaveState)
    (h : c.non_block s.command.cmd ∨ c.block s.command.cmd) :
    (command_dispatch c s).status = .TRANSFER ∧
    (command_dispatch c s).pin_level s.ready_pin = .GPIO_PV_LOW := by
  unfold SpiHeader.non_block SpiHeader.block at h
  unfold command_dispatch
  split_ifs <;> simp_all

/-- Any other opcode value leaves `command_dispatch` in Idle with the ready pin
high and only that pin write logged. -/
theorem dispatch_unknown (c : SpiHeader) (s : SlaveState)
    (h : ¬ (c.non_block s.command.cmd ∨ c.block s.command.cmd)) :
    (command_dispatch c s).status = .IDLE ∧
    (command_dispatch c s).pin_level s.ready_pin = .GPIO_PV_HIGH ∧
    (command_dispatch c s).log = s.log ++ [Event.gpiohs_set_pin s.ready_pin .GPIO_PV_HIGH] := by
  unfold SpiHeader.non_block SpiHeader.block at h
  unfold command_dispatch
  split_ifs <;> simp_all

theorem dispatch_write_block_log (c : SpiHeader) (hwf : c.WF) (s : SlaveState)
    (h : s.command.cmd = c.WRITE_DATA_BLOCK) :
    (command_dispatch c s).log = s.log ++
      [Event.sysctl_dma_select s.dmac_channel (.SSI0_RX_REQ_plus 4),
       Event.dmac_set_single_mode s.dmac_channel .spi2_dr
         (.memory (s.command.addr &&& 0xFFFFFFF0)) .DMAC_ADDR_NOCHANGE .DMAC_ADDR_INCREMENT
         .DMAC_MSIZE_4 .DMAC_TRANS_WIDTH_32 ((s.command.len * 4) % 2 ^ 32),
       Event.gpiohs_set_pin s.ready_pin .GPIO_PV_LOW] := by
  obtain ⟨_, _, _, _, _, _, h1, h2, h3, h4, _, _, _, _, _⟩ := hwf
  unfold command_dispatch
  rw [if_neg (by omega), if_neg (by omega), if_neg (by omega), if_neg (by omega), if_pos h]
  simp

theorem dispatch_read_block_log (c : SpiHeader) (hwf : c.WF) (s : SlaveState)
    (h : s.command.cmd = c.READ_DATA_BLOCK) :
    (command_dispatch c s).log = s.log ++
      [Event.sysctl_dma_select s.dmac_channel (.SSI0_TX_REQ_plus 4),
       Event.dmac_set_single_mode s.dmac_channel
         (.memory (s.command.addr &&& 0xFFFFFFF0)) .spi2_dr
         .DMAC_ADDR_INCREMENT .DMAC_ADDR_NOCHANGE
         .DMAC_MSIZE_4 .DMAC_TRANS_WIDTH_32 ((s.command.len * 4) % 2 ^ 32),
       Event.gpiohs_set_pin s.ready_pin .GPIO_PV_LOW] := by
  obtain ⟨_, _, _, _, _, _, _, _, _, _, h1, h2, h3, h4, h5⟩ := hwf
  unfold command_dispatch
  rw [if_neg (by omega), if_neg (by omega), if_neg (by omega), if_neg (by omega),
    if_neg (by omega), if_pos h]
  simp

theorem non_block_lt (c : SpiHeader) (hwf : c.WF) (cmd : Nat) (h : c.non_block cmd) :
    cmd < c.WRITE_DATA_BLOCK := by
  obtain ⟨_, _, _, _, _, _, h1, h2, h3, h4, _, _, _, _, _⟩ := hwf
  rcases h with h | h | h | h <;> omega

/-- Which of the six opcodes lie below `WRITE_DATA_BLOCK`, the bound of the
length guard: the four non-block opcodes, and `READ_DATA_BLOCK` when it is
numbered below `WRITE_DATA_BLOCK`. -/
theorem known_lt_write_block (c : SpiHeader) (hwf : c.WF) (cmd : Nat)
    (h : c.non_block cmd ∨ c.block cmd) :
    cmd < c.WRITE_DATA_BLOCK ↔
      (c.non_block cmd ∨ (cmd = c.READ_DATA_BLOCK ∧ c.READ_DATA_BLOCK < c.WRITE_DATA_BLOCK)) := by
  obtain ⟨_, _, _, _, _, _, h1, h2, h3, h4, _, _, _, _, h5⟩ := hwf
  unfold SpiHeader.non_block SpiHeader.block at *
  omega

/-- C2. In the Command phase with the ready pin high, a header whose byte 7
differs from the sum of bytes 0..6 modulo 256 makes `spi_slave_command_mode`
end in Idle with the ready pin high; memory (hence the configuration buffer),
the buffer pointer and length and the stored descriptor are unchanged, and the
only action logged is the write of the ready pin: no write to the data register
and no DMA call. -/
theorem command_mode_bad_checksum (c : SpiHeader) (s : SlaveState)
    (b0 b1 b2 b3 b4 b5 b6 b7 : Nat) (hb : header_bytes b0 b1 b2 b3 b4 b5 b6 b7)
    (hsum : b7 ≠ (b0 + b1 + b2 + b3 + b4 + b5 + b6) % 256)
    (hrx : rx_holds s (header_frames (slave_frame_width s) b0 b1 b2 b3 b4 b5 b6 b7))
    (hst : s.status = .COMMAND) (hpin : s.pin_level s.ready_pin = .GPIO_PV_HIGH) :
    s.status = .COMMAND ∧ s.pin_level s.ready_pin = .GPIO_PV_HIGH ∧
    (spi_slave_command_mode c s).status = .IDLE ∧
    (spi_slave_command_mode c s).ready_pin = s.ready_pin ∧
    (spi_slave_command_mode c s).pin_level s.ready_pin = .GPIO_PV_HIGH ∧
    (spi_slave_command_mode c s).mem = s.mem ∧
    (spi_slave_command_mode c s).config_ptr = s.config_ptr ∧
    (spi_slave_command_mode c s).config_len = s.config_len ∧
    (spi_slave_command_mode c s).command = s.command ∧
    (spi_slave_command_mode c s).log
      = s.log ++ [Event.gpiohs_set_pin s.ready_pin .GPIO_PV_HIGH] := by
  have hs : spi_slave_command_mode c s = spi_slave_idle_mode (after_header s) := by
    have hsum2 : b7 ≠ header_sum b0 b1 b2 b3 b4 b5 b6 := hsum
    rw [command_mode_eq c s b0 b1 b2 b3 b4 b5 b6 b7 hb hrx, if_pos hsum2]
  rw [hs]
  simp [hst, hpin]

/-- Witness for C2: the header `01 11 00 00 00 04 00 00`, whose checksum byte
should be `16`, at 8-bit frames. -/
theorem command_mode_bad_checksum_witness :
    (in_command 8 [1, 17, 0, 0, 0, 4, 0, 0]).status = .COMMAND ∧
    (in_command 8 [1, 17, 0, 0, 0, 4, 0, 0]).pin_level
      (in_command 8 [1, 17, 0, 0, 0, 4, 0, 0]).ready_pin = .GPIO_PV_HIGH ∧
    (spi_slave_command_mode spi_h (in_command 8 [1, 17, 0, 0, 0, 4, 0, 0])).status = .IDLE ∧
    (spi_slave_command_mode spi_h (in_command 8 [1, 17, 0, 0, 0, 4, 0, 0])).ready_pin
      = (in_command 8 [1, 17, 0, 0, 0, 4, 0, 0]).ready_pin ∧
    (spi_slave_command_mode spi_h (in_command 8 [1, 17, 0, 0, 0, 4, 0, 0])).pin_level
      (in_command 8 [1, 17, 0, 0, 0, 4, 0, 0]).ready_pin = .GPIO_PV_HIGH ∧
    (spi_slave_command_mode spi_h (in_command 8 [1, 17, 0, 0, 0, 4, 0, 0])).mem
      = (in_command 8 [1, 17, 0, 0, 0, 4, 0, 0]).mem ∧
    (spi_slave_command_mode spi_h (in_command 8 [1, 17, 0, 0, 0, 4, 0, 0])).config_ptr
      = (in_command 8 [1, 17, 0, 0, 0, 4, 0, 0]).config_ptr ∧
    (spi_slave_command_mode spi_h (in_command 8 [1, 17, 0, 0, 0, 4, 0, 0])).config_len
      = (in_command 8 [1, 17, 0, 0, 0, 4, 0, 0]).config_len ∧
    (spi_slave_command_mode spi_h (in_command 8 [1, 17, 0, 0, 0, 4, 0, 0])).command
      = (in_command 8 [1, 17, 0, 0, 0, 4, 0, 0]).command ∧
    (spi_slave_command_mode spi_h (in_command 8 [1, 17, 0, 0, 0, 4, 0, 0])).log
      = (in_command 8 [1, 17, 0, 0, 0, 4, 0, 0]).log ++
          [Event.gpiohs_set_pin (in_command 8 [1, 17, 0, 0, 0, 4, 0, 0]).ready_pin
            .GPIO_PV_HIGH] :=
  command_mode_bad_checksum spi_h (in_command 8 [1, 17, 0, 0, 0, 4, 0, 0])
    1 17 0 0 0 4 0 0 (by decide) (by decide) (by decide) (by decide) (by decide)

@[simp] theorem set_command_mem_eq (cmd addr len : Nat) (s : SlaveState) :
    (set_command cmd addr len s).mem = s.mem := rfl

@[simp] theorem set_command_pin_level_eq (cmd addr len : Nat) (s : SlaveState) :
    (set_command cmd addr len s).pin_level = s.pin_level := rfl

@[simp] theorem set_err_mem_eq (err : Nat) (s : SlaveState) : (set_err err s).mem = s.mem := rfl

@[simp] theorem set_err_rx_eq (err : Nat) (s : SlaveState) : (set_err err s).rx = s.rx := rfl

/-- The state of `spi_slave_command_mode` after a header with a valid checksum
has been decoded and stored. -/
theorem command_mode_valid (c : SpiHeader) (s : SlaveState)
    (b0 b1 b2 b3 b4 b5 b6 b7 : Nat) (hb : header_bytes b0 b1 b2 b3 b4 b5 b6 b7)
    (hsum : b7 = header_sum b0 b1 b2 b3 b4 b5 b6)
    (hrx : rx_holds s (header_frames (slave_frame_width s) b0 b1 b2 b3 b4 b5 b6 b7)) :
    spi_slave_command_mode c s =
      if b0 < c.WRITE_DATA_BLOCK ∧ decoded_len b5 b6 > 8 then
        spi_slave_idle_mode
          (set_command b0 (header_addr b1 b2 b3 b4) (decoded_len b5 b6) (after_header s))
      else
        command_dispatch c
          (set_command b0 (header_addr b1 b2 b3 b4) (decoded_len b5 b6) (after_header s)) := by
  rw [command_mode_eq c s b0 b1 b2 b3 b4 b5 b6 b7 hb hrx, if_neg (not_not.mpr hsum)]

/-- C3. A header with a valid checksum, one of the four non-block opcodes and a
decoded length above 8 makes `spi_slave_command_mode` return to Idle: the
status ends Idle, the ready pin is high, the only action logged is the write of
the ready pin high (nothing is written to the data register, no DMA call, no
lowering of the pin) and memory, hence the configuration buffer, is
unchanged. -/
theorem command_mode_rejects_long_non_block (c : SpiHeader) (hwf : c.WF) (s : SlaveState)
    (b0 b1 b2 b3 b4 b5 b6 b7 : Nat) (hb : header_bytes b0 b1 b2 b3 b4 b5 b6 b7)
    (hsum : b7 = (b0 + b1 + b2 + b3 + b4 + b5 + b6) % 256)
    (hrx : rx_holds s (header_frames (slave_frame_width s) b0 b1 b2 b3 b4 b5 b6 b7))
    (hop : c.non_block b0) (hlen : 8 < decoded_len b5 b6) :
    (spi_slave_command_mode c s).status = .IDLE ∧
    (spi_slave_command_mode c s).pin_level s.ready_pin = .GPIO_PV_HIGH ∧
    (spi_slave_command_mode c s).log
      = s.log ++ [Event.gpiohs_set_pin s.ready_pin .GPIO_PV_HIGH] ∧
    (spi_slave_command_mode c s).mem = s.mem ∧
    (spi_slave_command_mode c s).config_ptr = s.config_ptr ∧
    (spi_slave_command_mode c s).config_len = s.config_len := by
  rw [command_mode_valid c s b0 b1 b2 b3 b4 b5 b6 b7 hb hsum hrx,
    if_pos ⟨non_block_lt c hwf b0 hop, hlen⟩]
  simp

/-- Witness for C3: READ_CONFIG with length field 9 at 8-bit frames. -/
theorem command_mode_rejects_long_non_block_witness :
    (spi_slave_command_mode spi_h (in_command 8 [1, 0, 0, 0, 0, 9, 0, 10])).status = .IDLE ∧
    (spi_slave_command_mode spi_h (in_command 8 [1, 0, 0, 0, 0, 9, 0, 10])).pin_level
      (in_command 8 [1, 0, 0, 0, 0, 9, 0, 10]).ready_pin = .GPIO_PV_HIGH ∧
    (spi_slave_command_mode spi_h (in_command 8 [1, 0, 0, 0, 0, 9, 0, 10])).log
      = (in_command 8 [1, 0, 0, 0, 0, 9, 0, 10]).log ++
          [Event.gpiohs_set_pin (in_command 8 [1, 0, 0, 0, 0, 9, 0, 10]).ready_pin
            .GPIO_PV_HIGH] ∧
    (spi_slave_command_mode spi_h (in_command 8 [1, 0, 0, 0, 0, 9, 0, 10])).mem
      = (in_command 8 [1, 0, 0, 0, 0, 9, 0, 10]).mem ∧
    (spi_slave_command_mode spi_h (in_command 8 [1, 0, 0, 0, 0, 9, 0, 10])).config_ptr
      = (in_command 8 [1, 0, 0, 0, 0, 9, 0, 10]).config_ptr ∧
    (spi_slave_command_mode spi_h (in_command 8 [1, 0, 0, 0, 0, 9, 0, 10])).config_len
      = (in_command 8 [1, 0, 0, 0, 0, 9, 0, 10]).config_len :=
  command_mode_rejects_long_non_block spi_h (by decide) (in_command 8 [1, 0, 0, 0, 0, 9, 0, 10])
    1 0 0 0 0 9 0 10 (by decide) (by decide) (by decide) (by decide) (by decide)

/-- C4, as stated, fails: the header `c8 00 00 00 00 01 00 c9` has a valid
checksum and is not a non-block opcode with a length above 8, yet
`spi_slave_command_mode` ends in Idle with the ready pin high, not in Transfer
with the pin low. -/
theorem command_mode_any_opcode_counterexample :
    spi_h.WF ∧ header_bytes 200 0 0 0 0 1 0 201 ∧
    201 = (200 + 0 + 0 + 0 + 0 + 1 + 0) % 256 ∧
    rx_holds (in_command 8 [200, 0, 0, 0, 0, 1, 0, 201])
      (header_frames (slave_frame_width (in_command 8 [200, 0, 0, 0, 0, 1, 0, 201]))
        200 0 0 0 0 1 0 201) ∧
    ¬ (spi_h.non_block 200 ∧ 8 < decoded_len 1 0) ∧
    (spi_slave_command_mode spi_h (in_command 8 [200, 0, 0, 0, 0, 1, 0, 201])).status = .IDLE ∧
    (spi_slave_command_mode spi_h (in_command 8 [200, 0, 0, 0, 0, 1, 0, 201])).status
      ≠ .TRANSFER ∧
    (spi_slave_command_mode spi_h (in_command 8 [200, 0, 0, 0, 0, 1, 0, 201])).pin_level
      (in_command 8 [200, 0, 0, 0, 0, 1, 0, 201]).ready_pin = .GPIO_PV_HIGH := by
  decide

/-- C4, amended. A header with a valid checksum that the length guard of
`spi_slave_command_mode` does not reject ends the handler in Transfer with the
ready pin lowered when its opcode is one of the six defined opcodes; for any
other value of the opcode byte the handler ends in Idle with the ready pin high.
The guard rejects an opcode value below `WRITE_DATA_BLOCK` with a decoded
length above 8, and a rejected header ends in Idle with the ready pin high;
among the six opcodes these are the non-block opcodes and, only when
`READ_DATA_BLOCK` is numbered below `WRITE_DATA_BLOCK`, `READ_DATA_BLOCK`. No
order of the two block opcodes is assumed. -/
theorem command_mode_enters_transfer (c : SpiHeader) (hwf : c.WF) (s : SlaveState)
    (b0 b1 b2 b3 b4 b5 b6 b7 : Nat) (hb : header_bytes b0 b1 b2 b3 b4 b5 b6 b7)
    (hsum : b7 = (b0 + b1 + b2 + b3 + b4 + b5 + b6) % 256)
    (hrx : rx_holds s (header_frames (slave_frame_width s) b0 b1 b2 b3 b4 b5 b6 b7)) :
    (c.non_block b0 ∨ c.block b0 → ¬ (b0 < c.WRITE_DATA_BLOCK ∧ 8 < decoded_len b5 b6) →
      (spi_slave_command_mode c s).status = .TRANSFER ∧
      (spi_slave_command_mode c s).pin_level s.ready_pin = .GPIO_PV_LOW) ∧
    (¬ (c.non_block b0 ∨ c.block b0) →
      (spi_slave_command_mode c s).status = .IDLE ∧
      (spi_slave_command_mode c s).pin_level s.ready_pin = .GPIO_PV_HIGH) ∧
    (b0 < c.WRITE_DATA_BLOCK ∧ 8 < decoded_len b5 b6 →
      (spi_slave_command_mode c s).status = .IDLE ∧
      (spi_slave_command_mode c s).pin_level s.ready_pin = .GPIO_PV_HIGH) ∧
    (c.non_block b0 ∨ c.block b0 →
      ((b0 < c.WRITE_DATA_BLOCK ∧ 8 < decoded_len b5 b6) ↔
        ((c.non_block b0 ∨
            (b0 = c.READ_DATA_BLOCK ∧ c.READ_DATA_BLOCK < c.WRITE_DATA_BLOCK)) ∧
          8 < decoded_len b5 b6))) := by
  rw [command_mode_valid c s b0 b1 b2 b3 b4 b5 b6 b7 hb hsum hrx]
  refine ⟨fun hk hg => ?_, fun hk => ?_, fun hg => ?_, fun hk => ?_⟩
  · rw [if_neg hg]
    have := dispatch_known c
      (set_command b0 (header_addr b1 b2 b3 b4) (decoded_len b5 b6) (after_header s))
      (by simpa using hk)
    simpa using this
  · split_ifs
    · simp
    · have := dispatch_unknown c
        (set_command b0 (header_addr b1 b2 b3 b4) (decoded_len b5 b6) (after_header s))
        (by simpa using hk)
      exact ⟨by simpa using this.1, by simpa using this.2.1⟩
  · rw [if_pos hg]
    simp
  · rw [known_lt_write_block c hwf b0 hk]

/-- Witness for C4 (amended): WRITE_CONFIG with length 4 at 8-bit frames. -/
theorem command_mode_enters_transfer_witness :
    spi_h.WF ∧ header_bytes 0 0 0 0 0 4 0 4 ∧ 4 = (0 + 0 + 0 + 0 + 0 + 4 + 0) % 256 ∧
    rx_holds (in_command 8 [0, 0, 0, 0, 0, 4, 0, 4])
      (header_frames (slave_frame_width (in_command 8 [0, 0, 0, 0, 0, 4, 0, 4]))
        0 0 0 0 0 4 0 4) ∧
    (spi_h.non_block 0 ∨ spi_h.block 0) ∧
    ¬ (0 < spi_h.WRITE_DATA_BLOCK ∧ 8 < decoded_len 4 0) ∧
    (spi_slave_command_mode spi_h (in_command 8 [0, 0, 0, 0, 0, 4, 0, 4])).status
      = .TRANSFER ∧
    (spi_slave_command_mode spi_h (in_command 8 [0, 0, 0, 0, 0, 4, 0, 4])).pin_level
      (in_command 8 [0, 0, 0, 0, 0, 4, 0, 4]).ready_pin = .GPIO_PV_LOW :=
  ⟨by decide, by decide, by decide, by decide, by decide, by decide,
    (command_mode_enters_transfer spi_h (by decide) (in_command 8 [0, 0, 0, 0, 0, 4, 0, 4])
      0 0 0 0 0 4 0 4 (by decide) (by decide) (by decide)).1 (by decide) (by decide)⟩

/-- The length guard under the two orders of the block opcodes, evaluated at
8-bit frames on a READ_DATA_BLOCK header of length 9 with a valid checksum. With
`READ_DATA_BLOCK` above `WRITE_DATA_BLOCK` (`spi_h`) the handler ends in
Transfer with the ready pin low; with `READ_DATA_BLOCK` below
`WRITE_DATA_BLOCK` (`spi_h_listed`) the guard rejects the header: Idle, ready
pin high, only the pin write logged. With length 8 the second order ends in
Transfer as well. -/
theorem command_mode_read_block_orders :
    spi_h.WF ∧ spi_h_listed.WF ∧
    ((spi_slave_command_mode spi_h (in_command 8 [5, 0, 0, 0, 0, 9, 0, 14])).status,
      (spi_slave_command_mode spi_h (in_command 8 [5, 0, 0, 0, 0, 9, 0, 14])).pin_level 9)
        = (.TRANSFER, .GPIO_PV_LOW) ∧
    ((spi_slave_command_mode spi_h_listed (in_command 8 [4, 0, 0, 0, 0, 9, 0, 13])).status,
      (spi_slave_command_mode spi_h_listed (in_command 8 [4, 0, 0, 0, 0, 9, 0, 13])).pin_level
        9) = (.IDLE, .GPIO_PV_HIGH) ∧
    (spi_slave_command_mode spi_h_listed (in_command 8 [4, 0, 0, 0, 0, 9, 0, 13])).log
      = (in_command 8 [4, 0, 0, 0, 0, 9, 0, 13]).log ++
          [Event.gpiohs_set_pin 9 .GPIO_PV_HIGH] ∧
    ((spi_slave_command_mode spi_h_listed (in_command 8 [4, 0, 0, 0, 0, 8, 0, 12])).status,
      (spi_slave_command_mode spi_h_listed (in_command 8 [4, 0, 0, 0, 0, 8, 0, 12])).pin_level
        9) = (.TRANSFER, .GPIO_PV_LOW) := by
  decide

/-- C5. A WRITE_DATA_BLOCK header with a valid checksum, address `A` and
decoded length `L` (1..65536) makes `spi_slave_command_mode` log, besides the
request-line selection and the lowering of the ready pin, exactly one call of
`dmac_set_single_mode`: on the configured channel, from the data register
(address fixed) to memory (address incrementing) at `A & 0xFFFFFFF0`, which is
`A` rounded down to a multiple of 16, with burst size 4, width 32 bits and
length argument `L * 4`; for `L = 4` the length argument is 16. -/
theorem command_mode_write_block_dma (c : SpiHeader) (hwf : c.WF) (s : SlaveState)
    (b0 b1 b2 b3 b4 b5 b6 b7 : Nat) (hb : header_bytes b0 b1 b2 b3 b4 b5 b6 b7)
    (hsum : b7 = (b0 + b1 + b2 + b3 + b4 + b5 + b6) % 256)
    (hrx : rx_holds s (header_frames (slave_frame_width s) b0 b1 b2 b3 b4 b5 b6 b7))
    (hop : b0 = c.WRITE_DATA_BLOCK) :
    (spi_slave_command_mode c s).log = s.log ++
      [Event.sysctl_dma_select s.dmac_channel (.SSI0_RX_REQ_plus 4),
       Event.dmac_set_single_mode s.dmac_channel .spi2_dr
         (.memory (header_addr b1 b2 b3 b4 &&& 0xFFFFFFF0))
         .DMAC_ADDR_NOCHANGE .DMAC_ADDR_INCREMENT
         .DMAC_MSIZE_4 .DMAC_TRANS_WIDTH_32 (decoded_len b5 b6 * 4),
       Event.gpiohs_set_pin s.ready_pin .GPIO_PV_LOW] ∧
    header_addr b1 b2 b3 b4 &&& 0xFFFFFFF0 = 16 * (header_addr b1 b2 b3 b4 / 16) ∧
    1 ≤ decoded_len b5 b6 ∧ decoded_len b5 b6 ≤ 65536 ∧
    (b5 = 4 → b6 = 0 → decoded_len b5 b6 * 4 = 16) := by
  have hb2 := hb
  obtain ⟨h0, h1, h2, h3, h4, h5, h6, h7⟩ := hb2
  have hlen := decoded_len_le b5 b6 h5 h6
  have hg : ¬ (b0 < c.WRITE_DATA_BLOCK ∧ decoded_len b5 b6 > 8) := by
    rw [hop]; omega
  refine ⟨?_, and_mask16 _ (header_addr_lt b1 b2 b3 b4 h1 h2 h3 h4), decoded_len_pos b5 b6,
    hlen, ?_⟩
  · rw [command_mode_valid c s b0 b1 b2 b3 b4 b5 b6 b7 hb hsum hrx, if_neg hg,
      dispatch_write_block_log c hwf _ (by simpa using hop)]
    simp
    omega
  · intro e5 e6
    subst e5 e6
    decide

/-- Witness for C5: WRITE_DATA_BLOCK at address 17 with length 4, at 32-bit
frames. -/
theorem command_mode_write_block_dma_witness :
    (spi_slave_command_mode spi_h (in_command 32 [0x00001104, 0x19000400])).log
      = (in_command 32 [0x00001104, 0x19000400]).log ++
      [Event.sysctl_dma_select (in_command 32 [0x00001104, 0x19000400]).dmac_channel
         (.SSI0_RX_REQ_plus 4),
       Event.dmac_set_single_mode (in_command 32 [0x00001104, 0x19000400]).dmac_channel
         .spi2_dr (.memory (header_addr 17 0 0 0 &&& 0xFFFFFFF0))
         .DMAC_ADDR_NOCHANGE .DMAC_ADDR_INCREMENT
         .DMAC_MSIZE_4 .DMAC_TRANS_WIDTH_32 (decoded_len 4 0 * 4),
       Event.gpiohs_set_pin (in_command 32 [0x00001104, 0x19000400]).ready_pin .GPIO_PV_LOW] ∧
    header_addr 17 0 0 0 &&& 0xFFFFFFF0 = 16 * (header_addr 17 0 0 0 / 16) ∧
    1 ≤ decoded_len 4 0 ∧ decoded_len 4 0 ≤ 65536 ∧
    (4 = 4 → 0 = 0 → decoded_len 4 0 * 4 = 16) :=
  command_mode_write_block_dma spi_h (by decide) (in_command 32 [0x00001104, 0x19000400])
    4 17 0 0 0 4 0 25 (by decide) (by decide) (by decide) (by decide)

/-- C6, as stated, fails: for the READ_DATA_BLOCK header with address 17 and
length 4 the memory source handed to `dmac_set_single_mode` is 16, not 17; no
call with source address 17 is made. -/
theorem command_mode_read_block_counterexample :
    header_bytes 5 17 0 0 0 4 0 26 ∧ 26 = (5 + 17 + 0 + 0 + 0 + 4 + 0) % 256 ∧
    rx_holds (in_command 32 [0x00001105, 0x1A000400])
      (header_frames (slave_frame_width (in_command 32 [0x00001105, 0x1A000400]))
        5 17 0 0 0 4 0 26) ∧
    spi_h.READ_DATA_BLOCK = 5 ∧
    (spi_slave_command_mode spi_h (in_command 32 [0x00001105, 0x1A000400])).command.addr = 17 ∧
    (spi_slave_command_mode spi_h (in_command 32 [0x00001105, 0x1A000400])).log
      = (in_command 32 [0x00001105, 0x1A000400]).log ++
        [Event.sysctl_dma_select 3 (.SSI0_TX_REQ_plus 4),
         Event.dmac_set_single_mode 3 (.memory 16) .spi2_dr
           .DMAC_ADDR_INCREMENT .DMAC_ADDR_NOCHANGE .DMAC_MSIZE_4 .DMAC_TRANS_WIDTH_32 16,
         Event.gpiohs_set_pin 9 .GPIO_PV_LOW] ∧
    Event.dmac_set_single_mode 3 (.memory 17) .spi2_dr
        .DMAC_ADDR_INCREMENT .DMAC_ADDR_NOCHANGE .DMAC_MSIZE_4 .DMAC_TRANS_WIDTH_32 16
      ∉ (spi_slave_command_mode spi_h (in_command 32 [0x00001105, 0x1A000400])).log := by
  decide

/-- C6, amended. A READ_DATA_BLOCK header with a valid checksum, address `A`
and decoded length `L` that the length guard lets through makes
`spi_slave_command_mode` arm a single-block DMA transfer whose memory source
starts at `A & 0xFFFFFFF0`, that is `A` rounded down to a multiple of 16 (the
same masking as for writes), whose destination is the data register, with width
32 bits and length argument `L * 4`. The guard rejects an opcode value below
`WRITE_DATA_BLOCK` with `L > 8`: every such header passes when `READ_DATA_BLOCK`
is numbered above `WRITE_DATA_BLOCK`; under the other order those with `L > 8`
end in Idle with only the pin write logged, so no DMA is armed. No order of the
two block opcodes is assumed. -/
theorem command_mode_read_block_dma (c : SpiHeader) (hwf : c.WF) (s : SlaveState)
    (b0 b1 b2 b3 b4 b5 b6 b7 : Nat) (hb : header_bytes b0 b1 b2 b3 b4 b5 b6 b7)
    (hsum : b7 = (b0 + b1 + b2 + b3 + b4 + b5 + b6) % 256)
    (hrx : rx_holds s (header_frames (slave_frame_width s) b0 b1 b2 b3 b4 b5 b6 b7))
    (hop : b0 = c.READ_DATA_BLOCK) :
    (¬ (c.READ_DATA_BLOCK < c.WRITE_DATA_BLOCK ∧ 8 < decoded_len b5 b6) →
      (spi_slave_command_mode c s).log = s.log ++
        [Event.sysctl_dma_select s.dmac_channel (.SSI0_TX_REQ_plus 4),
         Event.dmac_set_single_mode s.dmac_channel
           (.memory (header_addr b1 b2 b3 b4 &&& 0xFFFFFFF0)) .spi2_dr
           .DMAC_ADDR_INCREMENT .DMAC_ADDR_NOCHANGE
           .DMAC_MSIZE_4 .DMAC_TRANS_WIDTH_32 (decoded_len b5 b6 * 4),
         Event.gpiohs_set_pin s.ready_pin .GPIO_PV_LOW]) ∧
    (c.READ_DATA_BLOCK < c.WRITE_DATA_BLOCK ∧ 8 < decoded_len b5 b6 →
      (spi_slave_command_mode c s).status = .IDLE ∧
      (spi_slave_command_mode c s).log
        = s.log ++ [Event.gpiohs_set_pin s.ready_pin .GPIO_PV_HIGH]) ∧
    (c.WRITE_DATA_BLOCK < c.READ_DATA_BLOCK →
      ¬ (c.READ_DATA_BLOCK < c.WRITE_DATA_BLOCK ∧ 8 < decoded_len b5 b6)) ∧
    header_addr b1 b2 b3 b4 &&& 0xFFFFFFF0 = 16 * (header_addr b1 b2 b3 b4 / 16) := by
  have hb2 := hb
  obtain ⟨h0, h1, h2, h3, h4, h5, h6, h7⟩ := hb2
  have hlen := decoded_len_le b5 b6 h5 h6
  refine ⟨fun hpass => ?_, fun hrej => ?_, fun hord hrej => ?_,
    and_mask16 _ (header_addr_lt b1 b2 b3 b4 h1 h2 h3 h4)⟩
  · have hg : ¬ (b0 < c.WRITE_DATA_BLOCK ∧ decoded_len b5 b6 > 8) := by
      rw [hop]
      exact hpass
    rw [command_mode_valid c s b0 b1 b2 b3 b4 b5 b6 b7 hb hsum hrx, if_neg hg,
      dispatch_read_block_log c hwf _ (by simpa using hop)]
    simp
    omega
  · have hg : b0 < c.WRITE_DATA_BLOCK ∧ decoded_len b5 b6 > 8 := by
      rw [hop]
      exact hrej
    rw [command_mode_valid c s b0 b1 b2 b3 b4 b5 b6 b7 hb hsum hrx, if_pos hg]
    simp
  · omega

/-- Witness for C6 (amended): READ_DATA_BLOCK at address 17 with length 4, at
32-bit frames. -/
theorem command_mode_read_block_dma_witness :
    spi_h.WF ∧ header_bytes 5 17 0 0 0 4 0 26 ∧ 26 = (5 + 17 + 0 + 0 + 0 + 4 + 0) % 256 ∧
    rx_holds (in_command 32 [0x00001105, 0x1A000400])
      (header_frames (slave_frame_width (in_command 32 [0x00001105, 0x1A000400]))
        5 17 0 0 0 4 0 26) ∧
    5 = spi_h.READ_DATA_BLOCK ∧
    ¬ (spi_h.READ_DATA_BLOCK < spi_h.WRITE_DATA_BLOCK ∧ 8 < decoded_len 4 0) ∧
    (spi_slave_command_mode spi_h (in_command 32 [0x00001105, 0x1A000400])).log
      = (in_command 32 [0x00001105, 0x1A000400]).log ++
      [Event.sysctl_dma_select (in_command 32 [0x00001105, 0x1A000400]).dmac_channel
         (.SSI0_TX_REQ_plus 4),
       Event.dmac_set_single_mode (in_command 32 [0x00001105, 0x1A000400]).dmac_channel
         (.memory (header_addr 17 0 0 0 &&& 0xFFFFFFF0)) .spi2_dr
         .DMAC_ADDR_INCREMENT .DMAC_ADDR_NOCHANGE
         .DMAC_MSIZE_4 .DMAC_TRANS_WIDTH_32 (decoded_len 4 0 * 4),
       Event.gpiohs_set_pin (in_command 32 [0x00001105, 0x1A000400]).ready_pin .GPIO_PV_LOW] ∧
    header_addr 17 0 0 0 &&& 0xFFFFFFF0 = 16 * (header_addr 17 0 0 0 / 16) :=
  ⟨by decide, by decide, by decide, by decide, by decide, by decide,
    (command_mode_read_block_dma spi_h (by decide) (in_command 32 [0x00001105, 0x1A000400])
      5 17 0 0 0 4 0 26 (by decide) (by decide) (by decide) (by decide)).1 (by decide),
    (command_mode_read_block_dma spi_h (by decide) (in_command 32 [0x00001105, 0x1A000400])
      5 17 0 0 0 4 0 26 (by decide) (by decide) (by decide) (by decide)).2.2.2⟩

/-- The READ_DATA_BLOCK header of length 9 at address 17 under the order of the
spec's listing (`READ_DATA_BLOCK` below `WRITE_DATA_BLOCK`), at 8-bit frames:
the guard rejects it and no DMA call is logged; with length 8 the transfer is
armed with source 16. -/
theorem command_mode_read_block_listed :
    (spi_slave_command_mode spi_h_listed (in_command 8 [4, 17, 0, 0, 0, 9, 0, 30])).status
      = .IDLE ∧
    (spi_slave_command_mode spi_h_listed (in_command 8 [4, 17, 0, 0, 0, 9, 0, 30])).log
      = (in_command 8 [4, 17, 0, 0, 0, 9, 0, 30]).log ++
          [Event.gpiohs_set_pin 9 .GPIO_PV_HIGH] ∧
    (spi_slave_command_mode spi_h_listed (in_command 8 [4, 17, 0, 0, 0, 8, 0, 29])).log
      = (in_command 8 [4, 17, 0, 0, 0, 8, 0, 29]).log ++
        [Event.sysctl_dma_select 3 (.SSI0_TX_REQ_plus 4),
         Event.dmac_set_single_mode 3 (.memory 16) .spi2_dr
           .DMAC_ADDR_INCREMENT .DMAC_ADDR_NOCHANGE .DMAC_MSIZE_4 .DMAC_TRANS_WIDTH_32 32,
         Event.gpiohs_set_pin 9 .GPIO_PV_LOW] := by
  decide

theorem le_bytes_load1 (mem : Nat → Nat) (q : Nat) :
    le_bytes 1 (load_le mem q 1) = [mem q % 256] := by
  simp [le_bytes, load_le, List.range_succ]

theorem le_bytes2_pack (a b : Nat) (ha : a < 256) (hb : b < 256) :
    le_bytes 2 (a + 256 * (b + 256 * 0)) = [a, b] := by
  simp [le_bytes, List.range_succ]
  omega

theorem le_bytes4_pack (a b c d : Nat) (ha : a < 256) (hb : b < 256) (hc : c < 256)
    (hd : d < 256) :
    le_bytes 4 (a + 256 * (b + 256 * (c + 256 * (d + 256 * 0)))) = [a, b, c, d] := by
  simp [le_bytes, List.range_succ]
  omega

theorem le_bytes_load2 (mem : Nat → Nat) (q : Nat) :
    le_bytes 2 (load_le mem q 2) = [mem q % 256, mem (q + 1) % 256] :=
  le_bytes2_pack _ _ (Nat.mod_lt _ (by norm_num)) (Nat.mod_lt _ (by norm_num))

theorem le_bytes_load4 (mem : Nat → Nat) (q : Nat) :
    le_bytes 4 (load_le mem q 4)
      = [mem q % 256, mem (q + 1) % 256, mem (q + 2) % 256, mem (q + 3) % 256] :=
  le_bytes4_pack _ _ _ _ (Nat.mod_lt _ (by norm_num)) (Nat.mod_lt _ (by norm_num))
    (Nat.mod_lt _ (by norm_num)) (Nat.mod_lt _ (by norm_num))

theorem range_flatMap1 (f : Nat → Nat) (n : Nat) :
    (List.range n).flatMap (fun i => [f i]) = (List.range n).map f := by
  induction n with
  | zero => rfl
  | succ n ih => simp [List.range_succ, ih]

theorem range_flatMap2 (f : Nat → Nat) (n : Nat) :
    (List.range n).flatMap (fun i => [f (2 * i), f (2 * i + 1)]) = (List.range (2 * n)).map f := by
  induction n with
  | zero => rfl
  | succ n ih =>
    have e : 2 * (n + 1) = 2 * n + 1 + 1 := by ring
    simp [e, List.range_succ, ih]

theorem range_flatMap4 (f : Nat → Nat) (n : Nat) :
    (List.range n).flatMap (fun i => [f (4 * i), f (4 * i + 1), f (4 * i + 2), f (4 * i + 3)])
      = (List.range (4 * n)).map f := by
  induction n with
  | zero => rfl
  | succ n ih =>
    have e : 4 * (n + 1) = 4 * n + 1 + 1 + 1 + 1 := by ring
    simp [e, List.range_succ, ih]

/-- The bytes carried by the frames that a read opcode pushes: the first
`w * (len / w)` bytes of memory from address `p`, in order. -/
theorem tx_frames_bytes (fw : spi_transfer_width_t) (mem : Nat → Nat) (p len : Nat) :
    (tx_frames fw mem p len).flatMap (le_bytes fw.bytes)
      = (List.range (fw.bytes * (len / fw.bytes))).map (fun j => mem (p + j) % 256) := by
  cases fw
  · simp only [tx_frames, spi_transfer_width_t.bytes, List.flatMap_map, le_bytes_load1]
    rw [range_flatMap1 (fun j => mem (p + j) % 256)]
    simp
  · simp only [tx_frames, spi_transfer_width_t.bytes, List.flatMap_map, le_bytes_load2]
    rw [← range_flatMap2 (fun j => mem (p + j) % 256)]
    simp [Nat.add_assoc]
  · simp only [tx_frames, spi_transfer_width_t.bytes, List.flatMap_map, le_bytes_load4]
    rw [← range_flatMap4 (fun j => mem (p + j) % 256)]
    simp [Nat.add_assoc]

theorem dispatch_read_config_log (c : SpiHeader) (hwf : c.WF) (s : SlaveState)
    (h : s.command.cmd = c.READ_CONFIG) :
    (command_dispatch c s).log = s.log ++
      (tx_frames (slave_frame_width s) s.mem (s.config_ptr + s.command.addr)
        s.command.len).map Event.dr_write ++
      [Event.gpiohs_set_pin s.ready_pin .GPIO_PV_LOW] := by
  have h1 : ¬ s.command.cmd = c.WRITE_CONFIG := by
    rw [h]; exact fun e => hwf.1 e.symm
  unfold command_dispatch slave_frame_width
  rw [if_neg h1, if_pos h]
  simp

/-- C7, as stated, fails: at 32-bit frames a READ_CONFIG header with address 0
and length 5 makes `spi_slave_command_mode` write a single frame to the data
register before it lowers the ready pin; the frame carries the four bytes
`config[0..3]`, not the five bytes `config[0..4]`. -/
theorem command_mode_read_config_counterexample :
    header_bytes 1 0 0 0 0 5 0 6 ∧ 6 = (1 + 0 + 0 + 0 + 0 + 5 + 0) % 256 ∧
    rx_holds (in_command 32 [0x00000001, 0x06000500])
      (header_frames (slave_frame_width (in_command 32 [0x00000001, 0x06000500]))
        1 0 0 0 0 5 0 6) ∧
    spi_h.READ_CONFIG = 1 ∧
    0 + 5 ≤ (in_command 32 [0x00000001, 0x06000500]).config_len ∧
    (spi_slave_command_mode spi_h (in_command 32 [0x00000001, 0x06000500])).log
      = (in_command 32 [0x00000001, 0x06000500]).log ++
        [Event.dr_write 4210686199, Event.gpiohs_set_pin 9 .GPIO_PV_LOW] ∧
    le_bytes 4 4210686199 = [247, 248, 249, 250] ∧
    (List.range 5).map (fun j => (in_command 32 [0x00000001, 0x06000500]).mem
        ((in_command 32 [0x00000001, 0x06000500]).config_ptr + 0 + j) % 256)
      = [247, 248, 249, 250, 0] := by
  decide

/-- C7, amended. For every configured data bit length and every READ_CONFIG
header with a valid checksum, address `A` and length `L` with `1 ≤ L ≤ 8` and
`A + L` within the configuration buffer, what `spi_slave_command_mode` logs is
the writes of `L / w` frames to the data register followed by the lowering of
the ready pin, `w` being the frame width in bytes; the frames carry, in order
and little-endian, exactly the first `w * (L / w)` bytes
`config[A], ..., config[A + w * (L / w) - 1]`, which are all `L` bytes when `w`
divides `L`. -/
theorem command_mode_read_config_frames (c : SpiHeader) (hwf : c.WF) (s : SlaveState)
    (b0 b1 b2 b3 b4 b5 b6 b7 : Nat) (hb : header_bytes b0 b1 b2 b3 b4 b5 b6 b7)
    (hsum : b7 = (b0 + b1 + b2 + b3 + b4 + b5 + b6) % 256)
    (hrx : rx_holds s (header_frames (slave_frame_width s) b0 b1 b2 b3 b4 b5 b6 b7))
    (hop : b0 = c.READ_CONFIG)
    (hL : 1 ≤ decoded_len b5 b6 ∧ decoded_len b5 b6 ≤ 8)
    (hin : header_addr b1 b2 b3 b4 + decoded_len b5 b6 ≤ s.config_len) :
    header_addr b1 b2 b3 b4 + decoded_len b5 b6 ≤ s.config_len ∧
    (spi_slave_command_mode c s).log = s.log ++
      (tx_frames (slave_frame_width s) s.mem (s.config_ptr + header_addr b1 b2 b3 b4)
        (decoded_len b5 b6)).map Event.dr_write ++
      [Event.gpiohs_set_pin s.ready_pin .GPIO_PV_LOW] ∧
    (tx_frames (slave_frame_width s) s.mem (s.config_ptr + header_addr b1 b2 b3 b4)
        (decoded_len b5 b6)).length = decoded_len b5 b6 / (slave_frame_width s).bytes ∧
    (tx_frames (slave_frame_width s) s.mem (s.config_ptr + header_addr b1 b2 b3 b4)
        (decoded_len b5 b6)).flatMap (le_bytes (slave_frame_width s).bytes)
      = (List.range ((slave_frame_width s).bytes *
            (decoded_len b5 b6 / (slave_frame_width s).bytes))).map
          (fun j => s.mem (s.config_ptr + header_addr b1 b2 b3 b4 + j) % 256) ∧
    ((slave_frame_width s).bytes ∣ decoded_len b5 b6 →
      (tx_frames (slave_frame_width s) s.mem (s.config_ptr + header_addr b1 b2 b3 b4)
          (decoded_len b5 b6)).flatMap (le_bytes (slave_frame_width s).bytes)
        = (List.range (decoded_len b5 b6)).map
            (fun j => s.mem (s.config_ptr + header_addr b1 b2 b3 b4 + j) % 256)) := by
  have hg : ¬ (b0 < c.WRITE_DATA_BLOCK ∧ decoded_len b5 b6 > 8) := by
    intro hgt
    omega
  refine ⟨hin, ?_, ?_, tx_frames_bytes _ _ _ _, ?_⟩
  · rw [command_mode_valid c s b0 b1 b2 b3 b4 b5 b6 b7 hb hsum hrx, if_neg hg,
      dispatch_read_config_log c hwf _ (by simpa using hop)]
    simp [slave_frame_width]
  · cases slave_frame_width s <;> simp [tx_frames, spi_transfer_width_t.bytes]
  · intro hdvd
    rw [tx_frames_bytes, Nat.mul_div_cancel' hdvd]

/-- Witness for C7 (amended): READ_CONFIG at address 2 with length 4, at 16-bit
frames. -/
theorem command_mode_read_config_frames_witness :
    header_addr 2 0 0 0 + decoded_len 4 0 ≤ (in_command 16 [0x0201, 0, 0x0400, 0x0700]).config_len ∧
    (spi_slave_command_mode spi_h (in_command 16 [0x0201, 0, 0x0400, 0x0700])).log
      = (in_command 16 [0x0201, 0, 0x0400, 0x0700]).log ++
      (tx_frames (slave_frame_width (in_command 16 [0x0201, 0, 0x0400, 0x0700]))
        (in_command 16 [0x0201, 0, 0x0400, 0x0700]).mem
        ((in_command 16 [0x0201, 0, 0x0400, 0x0700]).config_ptr + header_addr 2 0 0 0)
        (decoded_len 4 0)).map Event.dr_write ++
      [Event.gpiohs_set_pin (in_command 16 [0x0201, 0, 0x0400, 0x0700]).ready_pin
        .GPIO_PV_LOW] ∧
    (tx_frames (slave_frame_width (in_command 16 [0x0201, 0, 0x0400, 0x0700]))
        (in_command 16 [0x0201, 0, 0x0400, 0x0700]).mem
        ((in_command 16 [0x0201, 0, 0x0400, 0x0700]).config_ptr + header_addr 2 0 0 0)
        (decoded_len 4 0)).length
      = decoded_len 4 0 / (slave_frame_width (in_command 16 [0x0201, 0, 0x0400, 0x0700])).bytes ∧
    (tx_frames (slave_frame_width (in_command 16 [0x0201, 0, 0x0400, 0x0700]))
        (in_command 16 [0x0201, 0, 0x0400, 0x0700]).mem
        ((in_command 16 [0x0201, 0, 0x0400, 0x0700]).config_ptr + header_addr 2 0 0 0)
        (decoded_len 4 0)).flatMap
          (le_bytes (slave_frame_width (in_command 16 [0x0201, 0, 0x0400, 0x0700])).bytes)
      = (List.range ((slave_frame_width (in_command 16 [0x0201, 0, 0x0400, 0x0700])).bytes *
            (decoded_len 4 0 /
              (slave_frame_width (in_command 16 [0x0201, 0, 0x0400, 0x0700])).bytes))).map
          (fun j => (in_command 16 [0x0201, 0, 0x0400, 0x0700]).mem
            ((in_command 16 [0x0201, 0, 0x0400, 0x0700]).config_ptr + header_addr 2 0 0 0 + j)
              % 256) ∧
    ((slave_frame_width (in_command 16 [0x0201, 0, 0x0400, 0x0700])).bytes ∣ decoded_len 4 0 →
      (tx_frames (slave_frame_width (in_command 16 [0x0201, 0, 0x0400, 0x0700]))
          (in_command 16 [0x0201, 0, 0x0400, 0x0700]).mem
          ((in_command 16 [0x0201, 0, 0x0400, 0x0700]).config_ptr + header_addr 2 0 0 0)
          (decoded_len 4 0)).flatMap
            (le_bytes (slave_frame_width (in_command 16 [0x0201, 0, 0x0400, 0x0700])).bytes)
        = (List.range (decoded_len 4 0)).map
            (fun j => (in_command 16 [0x0201, 0, 0x0400, 0x0700]).mem
              ((in_command 16 [0x0201, 0, 0x0400, 0x0700]).config_ptr + header_addr 2 0 0 0 + j)
                % 256)) :=
  command_mode_read_config_frames spi_h (by decide) (in_command 16 [0x0201, 0, 0x0400, 0x0700])
    1 2 0 0 0 4 0 7 (by decide) (by decide) (by decide) (by decide) (by decide) (by decide)

theorem store_frames_apply (w p : Nat) (rx mem : Nat → Nat) (hw : 0 < w) (n a : Nat) :
    store_frames w p rx mem n a
      = if p ≤ a ∧ a < p + w * n then (rx ((a - p) / w) / 256 ^ ((a - p) % w)) % 256
        else mem a := by
  induction n with
  | zero =>
    have h0 : ¬ (p ≤ a ∧ a < p + w * 0) := by omega
    rw [if_neg h0]
    rfl
  | succ n ih =>
    have e : w * (n + 1) = w * n + w := by ring
    simp only [store_frames, store_le, ih, e]
    by_cases h1 : p + w * n ≤ a ∧ a < p + w * n + w
    · have h2 : p ≤ a ∧ a < p + (w * n + w) := by omega
      rw [if_pos h1, if_pos h2]
      obtain ⟨r, hr⟩ : ∃ r, a - p = w * n + r := ⟨a - p - w * n, by omega⟩
      have hrw : r < w := by omega
      have e1 : a - (p + w * n) = r := by omega
      rw [hr, e1, Nat.mul_add_div hw, Nat.mul_add_mod, Nat.div_eq_of_lt hrw, Nat.mod_eq_of_lt hrw]
      simp
    · rw [if_neg h1]
      by_cases h3 : p ≤ a ∧ a < p + w * n
      · have h2 : p ≤ a ∧ a < p + (w * n + w) := by omega
        rw [if_pos h3, if_pos h2]
      · have h2 : ¬ (p ≤ a ∧ a < p + (w * n + w)) := by omega
        rw [if_neg h3, if_neg h2]

/-- Memory and receive FIFO after the receive loop of a write opcode. -/
theorem recv_frames_spec (fw : spi_transfer_width_t) (p n : Nat) (s : SlaveState) :
    (∀ a, (recv_frames fw p n s).mem a
        = if p ≤ a ∧ a < p + fw.bytes * n then
            (s.rx ((a - p) / fw.bytes) / 256 ^ ((a - p) % fw.bytes)) % 256
          else s.mem a) ∧
    (∀ i, (recv_frames fw p n s).rx i = s.rx (i + n)) ∧
    (recv_frames fw p n s).command = s.command ∧
    (recv_frames fw p n s).callback = s.callback ∧
    (recv_frames fw p n s).log = s.log ∧
    (recv_frames fw p n s).ready_pin = s.ready_pin := by
  cases fw <;>
    simp [recv_frames, spi_transfer_width_t.bytes, store_frames_apply]

theorem transfer_mode_checked (c : SpiHeader) (s s1 : SlaveState)
    (h : transfer_check c (expected_frames s) (set_err 0 s) = some s1) :
    spi_slave_transfer_mode c s
      = spi_slave_idle_mode
          (transfer_callback (transfer_commit c (slave_frame_width s) (expected_frames s) s1)) := by
  unfold expected_frames slave_frame_width at h
  unfold spi_slave_transfer_mode expected_frames slave_frame_width
  simp only [h]

theorem transfer_check_write (c : SpiHeader) (n : Nat) (s : SlaveState)
    (h : s.command.cmd = c.WRITE_CONFIG ∨ s.command.cmd = c.WRITE_DATA_BYTE) :
    transfer_check c n s = some (if s.rxflr < u32_dec n then set_err 1 s else s) := by
  unfold transfer_check
  rw [if_pos h]
  split_ifs <;> rfl

theorem transfer_check_read (c : SpiHeader) (hwf : c.WF) (n : Nat) (s : SlaveState)
    (h : s.command.cmd = c.READ_CONFIG ∨ s.command.cmd = c.READ_DATA_BYTE) :
    transfer_check c n s = some (if s.txflr ≠ 0 then set_err 2 s else s) := by
  obtain ⟨h1, h2, h3, h4, h5, h6, _⟩ := hwf
  have hn : ¬ (s.command.cmd = c.WRITE_CONFIG ∨ s.command.cmd = c.WRITE_DATA_BYTE) := by
    rcases h with h | h <;> rw [h] <;> omega
  unfold transfer_check
  rw [if_neg hn, if_pos h]
  split_ifs <;> rfl

theorem transfer_check_block (c : SpiHeader) (hwf : c.WF) (n : Nat) (s : SlaveState)
    (h : c.block s.command.cmd) :
    transfer_check c n s
      = some (if s.dmac_intstatus s.dmac_channel ≠ 0x02 then set_err 3 s else s) := by
  obtain ⟨_, _, _, _, _, _, h1, h2, h3, h4, k1, k2, k3, k4, _⟩ := hwf
  have hn1 : ¬ (s.command.cmd = c.WRITE_CONFIG ∨ s.command.cmd = c.WRITE_DATA_BYTE) := by
    rcases h with h | h <;> rw [h] <;> omega
  have hn2 : ¬ (s.command.cmd = c.READ_CONFIG ∨ s.command.cmd = c.READ_DATA_BYTE) := by
    rcases h with h | h <;> rw [h] <;> omega
  have hb : s.command.cmd = c.WRITE_DATA_BLOCK ∨ s.command.cmd = c.READ_DATA_BLOCK := h
  unfold transfer_check
  rw [if_neg hn1, if_neg hn2, if_pos hb]
  split_ifs <;> rfl

theorem transfer_commit_not_write (c : SpiHeader) (fw : spi_transfer_width_t) (n : Nat)
    (s : SlaveState)
    (h : ¬ (s.command.cmd = c.WRITE_CONFIG ∨ s.command.cmd = c.WRITE_DATA_BYTE)) :
    transfer_commit c fw n s = s := by
  unfold transfer_commit
  split_ifs <;> first | rfl | (exfalso; tauto)

theorem transfer_commit_err (c : SpiHeader) (fw : spi_transfer_width_t) (n : Nat)
    (s : SlaveState) (h : s.command.err ≠ 0) :
    transfer_commit c fw n s = s := by
  unfold transfer_commit
  rw [if_neg h]

@[simp] theorem transfer_callback_mem (s : SlaveState) : (transfer_callback s).mem = s.mem := by
  unfold transfer_callback
  split_ifs <;> rfl

@[simp] theorem transfer_callback_rx (s : SlaveState) : (transfer_callback s).rx = s.rx := by
  unfold transfer_callback
  split_ifs <;> rfl

@[simp] theorem transfer_callback_command (s : SlaveState) :
    (transfer_callback s).command = s.command := by
  unfold transfer_callback
  split_ifs <;> rfl

@[simp] theorem transfer_callback_ready_pin (s : SlaveState) :
    (transfer_callback s).ready_pin = s.ready_pin := by
  unfold transfer_callback
  split_ifs <;> rfl

theorem transfer_callback_log (s : SlaveState) :
    (transfer_callback s).log
      = s.log ++ (if s.callback then [Event.callback s.command] else []) := by
  unfold transfer_callback
  split_ifs <;> simp

/-- C8. When the completion check of a WRITE_CONFIG command succeeds,
`spi_slave_transfer_mode` stores the next `command_len` frames read from the
data register, in arrival order and little-endian at the frame width `w`, into
memory from the address of `config[address]` on: byte `k` of the `i`-th frame
lands at offset `address + w * i + k` of the configuration buffer, every other
byte of memory is unchanged, and exactly `command_len` frames are consumed. For
every read or block opcode memory, hence the configuration buffer, is
unchanged. -/
theorem transfer_mode_write_config (c : SpiHeader) (hwf : c.WF) (s : SlaveState) :
    (s.command.cmd = c.WRITE_CONFIG → ¬ write_check_fails s →
      (∀ a, (spi_slave_transfer_mode c s).mem a
        = if s.config_ptr + s.command.addr ≤ a ∧
             a < s.config_ptr + s.command.addr + (slave_frame_width s).bytes * expected_frames s
          then (s.rx ((a - (s.config_ptr + s.command.addr)) / (slave_frame_width s).bytes)
                  / 256 ^ ((a - (s.config_ptr + s.command.addr)) % (slave_frame_width s).bytes))
                % 256
          else s.mem a) ∧
      (∀ i, (spi_slave_transfer_mode c s).rx i = s.rx (i + expected_frames s))) ∧
    (s.command.cmd = c.READ_CONFIG ∨ s.command.cmd = c.READ_DATA_BYTE ∨
        c.block s.command.cmd →
      (spi_slave_transfer_mode c s).mem = s.mem) := by
  constructor
  · intro hop hok
    have hchk := transfer_check_write c (expected_frames s) (set_err 0 s) (Or.inl hop)
    rw [if_neg (by simpa [write_check_fails] using hok)] at hchk
    rw [transfer_mode_checked c s _ hchk]
    have hcommit : transfer_commit c (slave_frame_width s) (expected_frames s) (set_err 0 s)
        = recv_frames (slave_frame_width s) (s.config_ptr + s.command.addr) (expected_frames s)
            (set_err 0 s) := by
      unfold transfer_commit
      rw [if_pos (by simp), if_pos (by simpa using hop)]
      simp
    rw [hcommit]
    have hspec := recv_frames_spec (slave_frame_width s) (s.config_ptr + s.command.addr)
      (expected_frames s) (set_err 0 s)
    constructor
    · intro a
      simp [hspec.1 a]
    · intro i
      simp [hspec.2.1 i]
  · intro hop
    have hnw : ¬ ((set_err 0 s).command.cmd = c.WRITE_CONFIG ∨
        (set_err 0 s).command.cmd = c.WRITE_DATA_BYTE) := by
      obtain ⟨h1, h2, h3, h4, h5, h6, h7, h8, h9, h10, h11, h12, h13, h14, h15⟩ := hwf
      unfold SpiHeader.block at hop
      simp only [set_err_command]
      omega
    rcases hop with hop | hop | hop
    · have hchk := transfer_check_read c hwf (expected_frames s) (set_err 0 s) (Or.inl hop)
      rw [transfer_mode_checked c s _ hchk, transfer_commit_not_write]
      · split_ifs <;> simp
      · split_ifs <;> simpa using hnw
    · have hchk := transfer_check_read c hwf (expected_frames s) (set_err 0 s) (Or.inr hop)
      rw [transfer_mode_checked c s _ hchk, transfer_commit_not_write]
      · split_ifs <;> simp
      · split_ifs <;> simpa using hnw
    · have hchk := transfer_check_block c hwf (expected_frames s) (set_err 0 s) hop
      rw [transfer_mode_checked c s _ hchk, transfer_commit_not_write]
      · split_ifs <;> simp
      · split_ifs <;> simpa using hnw

/-- Witness for C8: WRITE_CONFIG at address 2 with length 4 at 16-bit frames,
the receive FIFO holding the frames `0xAABB` and `0xCCDD`; and READ_CONFIG in
the same state. -/
theorem transfer_mode_write_config_witness :
    ((spi_slave_transfer_mode spi_h (in_transfer 16 0 2 4 [0xAABB, 0xCCDD] 1 0 0)).mem 1001
        = (in_transfer 16 0 2 4 [0xAABB, 0xCCDD] 1 0 0).mem 1001 ∧
     (spi_slave_transfer_mode spi_h (in_transfer 16 0 2 4 [0xAABB, 0xCCDD] 1 0 0)).mem 1002
        = 0xBB ∧
     (spi_slave_transfer_mode spi_h (in_transfer 16 0 2 4 [0xAABB, 0xCCDD] 1 0 0)).mem 1003
        = 0xAA ∧
     (spi_slave_transfer_mode spi_h (in_transfer 16 0 2 4 [0xAABB, 0xCCDD] 1 0 0)).mem 1004
        = 0xDD ∧
     (spi_slave_transfer_mode spi_h (in_transfer 16 0 2 4 [0xAABB, 0xCCDD] 1 0 0)).mem 1005
        = 0xCC ∧
     (spi_slave_transfer_mode spi_h (in_transfer 16 0 2 4 [0xAABB, 0xCCDD] 1 0 0)).mem 1006
        = (in_transfer 16 0 2 4 [0xAABB, 0xCCDD] 1 0 0).mem 1006) ∧
    (spi_slave_transfer_mode spi_h (in_transfer 16 1 2 4 [] 0 0 0)).mem
      = (in_transfer 16 1 2 4 [] 0 0 0).mem :=
  ⟨⟨(((transfer_mode_write_config spi_h (by decide)
          (in_transfer 16 0 2 4 [0xAABB, 0xCCDD] 1 0 0)).1 (by decide) (by decide)).1
        1001).trans (by decide),
    (((transfer_mode_write_config spi_h (by decide)
          (in_transfer 16 0 2 4 [0xAABB, 0xCCDD] 1 0 0)).1 (by decide) (by decide)).1
        1002).trans (by decide),
    (((transfer_mode_write_config spi_h (by decide)
          (in_transfer 16 0 2 4 [0xAABB, 0xCCDD] 1 0 0)).1 (by decide) (by decide)).1
        1003).trans (by decide),
    (((transfer_mode_write_config spi_h (by decide)
          (in_transfer 16 0 2 4 [0xAABB, 0xCCDD] 1 0 0)).1 (by decide) (by decide)).1
        1004).trans (by decide),
    (((transfer_mode_write_config spi_h (by decide)
          (in_transfer 16 0 2 4 [0xAABB, 0xCCDD] 1 0 0)).1 (by decide) (by decide)).1
        1005).trans (by decide),
    (((transfer_mode_write_config spi_h (by decide)
          (in_transfer 16 0 2 4 [0xAABB, 0xCCDD] 1 0 0)).1 (by decide) (by decide)).1
        1006).trans (by decide)⟩,
   (transfer_mode_write_config spi_h (by decide) (in_transfer 16 1 2 4 [] 0 0 0)).2
      (by decide)⟩

/-- C9, as stated, fails: for WRITE_CONFIG with length 4 at 8-bit frames and an
empty receive FIFO level the completion check fails and the error code is set
to 1, but the write is not committed: `config[0]` keeps its value 247 although
the data register would have returned 170. The callback is still invoked. -/
theorem transfer_mode_failed_write_counterexample :
    (in_transfer 8 0 0 4 [170, 187, 204, 221] 0 0 0).command.cmd = spi_h.WRITE_CONFIG ∧
    write_check_fails (in_transfer 8 0 0 4 [170, 187, 204, 221] 0 0 0) ∧
    (spi_slave_transfer_mode spi_h
        (in_transfer 8 0 0 4 [170, 187, 204, 221] 0 0 0)).command.err = 1 ∧
    (in_transfer 8 0 0 4 [170, 187, 204, 221] 0 0 0).rx 0 = 170 ∧
    (in_transfer 8 0 0 4 [170, 187, 204, 221] 0 0 0).mem
        ((in_transfer 8 0 0 4 [170, 187, 204, 221] 0 0 0).config_ptr + 0) = 247 ∧
    (spi_slave_transfer_mode spi_h (in_transfer 8 0 0 4 [170, 187, 204, 221] 0 0 0)).mem
        ((in_transfer 8 0 0 4 [170, 187, 204, 221] 0 0 0).config_ptr + 0) = 247 ∧
    (spi_slave_transfer_mode spi_h (in_transfer 8 0 0 4 [170, 187, 204, 221] 0 0 0)).log
      = (in_transfer 8 0 0 4 [170, 187, 204, 221] 0 0 0).log ++
          [Event.callback { cmd := 0, err := 1, addr := 0, len := 4 },
           Event.gpiohs_set_pin 9 .GPIO_PV_HIGH] := by
  decide

/-- C9, amended. When the completion check of a write opcode (WRITE_CONFIG or
WRITE_DATA_BYTE) fails, `spi_slave_transfer_mode` sets the error code of the
descriptor to 1, does not commit the write (memory is unchanged and no frame is
read from the data register), still invokes the callback, if one is
registered, with the descriptor carrying the error code, and returns to
Idle. -/
theorem transfer_mode_failed_write (c : SpiHeader) (s : SlaveState)
    (hop : s.command.cmd = c.WRITE_CONFIG ∨ s.command.cmd = c.WRITE_DATA_BYTE)
    (hfail : write_check_fails s) :
    (spi_slave_transfer_mode c s).command.err = 1 ∧
    (spi_slave_transfer_mode c s).mem = s.mem ∧
    (spi_slave_transfer_mode c s).rx = s.rx ∧
    (spi_slave_transfer_mode c s).log = s.log ++
      (if s.callback then
        [Event.callback { cmd := s.command.cmd, err := 1, addr := s.command.addr,
                          len := s.command.len }]
       else []) ++
      [Event.gpiohs_set_pin s.ready_pin .GPIO_PV_HIGH] ∧
    (spi_slave_transfer_mode c s).status = .IDLE := by
  have hchk := transfer_check_write c (expected_frames s) (set_err 0 s) (by simpa using hop)
  rw [if_pos (by simpa [write_check_fails] using hfail)] at hchk
  rw [transfer_mode_checked c s _ hchk, transfer_commit_err _ _ _ _ (by simp)]
  simp [transfer_callback_log]

/-- Witness for C9 (amended): WRITE_CONFIG with length 4 at 8-bit frames and
receive FIFO level 0. -/
theorem transfer_mode_failed_write_witness :
    (spi_slave_transfer_mode spi_h
        (in_transfer 8 0 0 4 [170, 187, 204, 221] 0 0 0)).command.err = 1 ∧
    (spi_slave_transfer_mode spi_h (in_transfer 8 0 0 4 [170, 187, 204, 221] 0 0 0)).mem
      = (in_transfer 8 0 0 4 [170, 187, 204, 221] 0 0 0).mem ∧
    (spi_slave_transfer_mode spi_h (in_transfer 8 0 0 4 [170, 187, 204, 221] 0 0 0)).rx
      = (in_transfer 8 0 0 4 [170, 187, 204, 221] 0 0 0).rx ∧
    (spi_slave_transfer_mode spi_h (in_transfer 8 0 0 4 [170, 187, 204, 221] 0 0 0)).log
      = (in_transfer 8 0 0 4 [170, 187, 204, 221] 0 0 0).log ++
      (if (in_transfer 8 0 0 4 [170, 187, 204, 221] 0 0 0).callback then
        [Event.callback
          { cmd := (in_transfer 8 0 0 4 [170, 187, 204, 221] 0 0 0).command.cmd, err := 1,
            addr := (in_transfer 8 0 0 4 [170, 187, 204, 221] 0 0 0).command.addr,
            len := (in_transfer 8 0 0 4 [170, 187, 204, 221] 0 0 0).command.len }]
       else []) ++
      [Event.gpiohs_set_pin (in_transfer 8 0 0 4 [170, 187, 204, 221] 0 0 0).ready_pin
        .GPIO_PV_HIGH] ∧
    (spi_slave_transfer_mode spi_h (in_transfer 8 0 0 4 [170, 187, 204, 221] 0 0 0)).status
      = .IDLE :=
  transfer_mode_failed_write spi_h (in_transfer 8 0 0 4 [170, 187, 204, 221] 0 0 0)
    (by decide) (by decide)

/-- C10. With a registered callback, `spi_slave_transfer_mode` invokes the
callback exactly once and then raises the ready pin. For a block opcode the
descriptor handed over carries error code 3 when the interrupt-status field of
the DMA channel is not `0x02` and 0 otherwise; for READ_CONFIG and
READ_DATA_BYTE it carries error code 2 when the transmit FIFO level is non-zero
and 0 otherwise. -/
theorem transfer_mode_read_block_error (c : SpiHeader) (hwf : c.WF) (s : SlaveState)
    (hcb : s.callback = true) :
    (c.block s.command.cmd →
      (spi_slave_transfer_mode c s).log = s.log ++
        [Event.callback
          { cmd := s.command.cmd,
            err := if s.dmac_intstatus s.dmac_channel ≠ 0x02 then 3 else 0,
            addr := s.command.addr, len := s.command.len },
         Event.gpiohs_set_pin s.ready_pin .GPIO_PV_HIGH]) ∧
    (s.command.cmd = c.READ_CONFIG ∨ s.command.cmd = c.READ_DATA_BYTE →
      (spi_slave_transfer_mode c s).log = s.log ++
        [Event.callback
          { cmd := s.command.cmd, err := if s.txflr ≠ 0 then 2 else 0,
            addr := s.command.addr, len := s.command.len },
         Event.gpiohs_set_pin s.ready_pin .GPIO_PV_HIGH]) := by
  have hnw : ∀ cmd, (c.block cmd ∨ cmd = c.READ_CONFIG ∨ cmd = c.READ_DATA_BYTE) →
      ¬ (cmd = c.WRITE_CONFIG ∨ cmd = c.WRITE_DATA_BYTE) := by
    intro cmd h
    obtain ⟨h1, h2, h3, h4, h5, h6, h7, h8, h9, h10, h11, h12, h13, h14, h15⟩ := hwf
    unfold SpiHeader.block at h
    omega
  constructor
  · intro hop
    have hchk := transfer_check_block c hwf (expected_frames s) (set_err 0 s) hop
    have e1 : (set_err 0 s).dmac_intstatus (set_err 0 s).dmac_channel
        = s.dmac_intstatus s.dmac_channel := rfl
    rw [e1] at hchk
    rw [transfer_mode_checked c s _ hchk, transfer_commit_not_write]
    · split_ifs <;> simp [transfer_callback_log, hcb]
    · split_ifs <;> simpa using hnw _ (Or.inl hop)
  · intro hop
    have hchk := transfer_check_read c hwf (expected_frames s) (set_err 0 s) hop
    have e1 : (set_err 0 s).txflr = s.txflr := rfl
    rw [e1] at hchk
    rw [transfer_mode_checked c s _ hchk, transfer_commit_not_write]
    · split_ifs <;> simp [transfer_callback_log, hcb]
    · split_ifs <;> simpa using hnw _ (Or.inr hop)

/-- Witness for C10: WRITE_DATA_BLOCK with the DMA interrupt status reading 0,
and READ_CONFIG with one frame left in the transmit FIFO. -/
theorem transfer_mode_read_block_error_witness :
    (spi_slave_transfer_mode spi_h (in_transfer 32 4 16 4 [] 0 0 0)).log
      = (in_transfer 32 4 16 4 [] 0 0 0).log ++
        [Event.callback
          { cmd := (in_transfer 32 4 16 4 [] 0 0 0).command.cmd,
            err := if (in_transfer 32 4 16 4 [] 0 0 0).dmac_intstatus
                        (in_transfer 32 4 16 4 [] 0 0 0).dmac_channel ≠ 0x02 then 3 else 0,
            addr := (in_transfer 32 4 16 4 [] 0 0 0).command.addr,
            len := (in_transfer 32 4 16 4 [] 0 0 0).command.len },
         Event.gpiohs_set_pin (in_transfer 32 4 16 4 [] 0 0 0).ready_pin .GPIO_PV_HIGH] ∧
    (spi_slave_transfer_mode spi_h (in_transfer 8 1 0 4 [] 0 1 0)).log
      = (in_transfer 8 1 0 4 [] 0 1 0).log ++
        [Event.callback
          { cmd := (in_transfer 8 1 0 4 [] 0 1 0).command.cmd,
            err := if (in_transfer 8 1 0 4 [] 0 1 0).txflr ≠ 0 then 2 else 0,
            addr := (in_transfer 8 1 0 4 [] 0 1 0).command.addr,
            len := (in_transfer 8 1 0 4 [] 0 1 0).command.len },
         Event.gpiohs_set_pin (in_transfer 8 1 0 4 [] 0 1 0).ready_pin .GPIO_PV_HIGH] :=
  ⟨(transfer_mode_read_block_error spi_h (by decide) (in_transfer 32 4 16 4 [] 0 0 0)
      (by decide)).1 (by decide),
   (transfer_mode_read_block_error spi_h (by decide) (in_transfer 8 1 0 4 [] 0 1 0)
      (by decide)).2 (by decide)⟩

theorem transfer_mode_unchecked (c : SpiHeader) (s : SlaveState)
    (h : transfer_check c (expected_frames s) (set_err 0 s) = none) :
    spi_slave_transfer_mode c s = spi_slave_idle_mode (set_err 0 s) := by
  unfold expected_frames slave_frame_width at h
  unfold spi_slave_transfer_mode
  simp only [h]

theorem transfer_check_ready_pin (c : SpiHeader) (n : Nat) (s s1 : SlaveState)
    (h : transfer_check c n s = some s1) : s1.ready_pin = s.ready_pin := by
  unfold transfer_check at h
  split_ifs at h <;> (cases h; rfl)

theorem transfer_commit_ready_pin (c : SpiHeader) (fw : spi_transfer_width_t) (n : Nat)
    (s : SlaveState) : (transfer_commit c fw n s).ready_pin = s.ready_pin := by
  unfold transfer_commit
  split_ifs <;> first | rfl | exact (recv_frames_spec _ _ _ _).2.2.2.2.2

@[simp] theorem idle_mode_data_bit_length (s : SlaveState) :
    (spi_slave_idle_mode s).data_bit_length = s.data_bit_length := by
  simp [spi_slave_idle_mode]

@[simp] theorem transfer_callback_data_bit_length (s : SlaveState) :
    (transfer_callback s).data_bit_length = s.data_bit_length := by
  unfold transfer_callback
  split_ifs <;> rfl

theorem transfer_check_data_bit_length (c : SpiHeader) (n : Nat) (s s1 : SlaveState)
    (h : transfer_check c n s = some s1) : s1.data_bit_length = s.data_bit_length := by
  unfold transfer_check at h
  split_ifs at h <;> (cases h; rfl)

theorem transfer_commit_data_bit_length (c : SpiHeader) (fw : spi_transfer_width_t) (n : Nat)
    (s : SlaveState) : (transfer_commit c fw n s).data_bit_length = s.data_bit_length := by
  unfold transfer_commit
  split_ifs <;> first | rfl | (cases fw <;> simp [recv_frames])

/-- The error code that `spi_slave_transfer_mode` leaves in the descriptor of a
write opcode: 1 when the receive FIFO level is below `command_len - 1`
(computed on 32 bits), else 0. -/
theorem transfer_mode_write_err (c : SpiHeader) (s : SlaveState)
    (hop : s.command.cmd = c.WRITE_CONFIG ∨ s.command.cmd = c.WRITE_DATA_BYTE) :
    (spi_slave_transfer_mode c s).command.err
      = if s.rxflr < u32_dec (expected_frames s) then 1 else 0 := by
  have hchk := transfer_check_write c (expected_frames s) (set_err 0 s) (by simpa using hop)
  have e1 : (set_err 0 s).rxflr = s.rxflr := rfl
  rw [e1] at hchk
  rw [transfer_mode_checked c s _ hchk]
  by_cases h : s.rxflr < u32_dec (expected_frames s)
  · rw [if_pos h, if_pos h, transfer_commit_err _ _ _ _ (by simp)]
    simp
  · rw [if_neg h, if_neg h]
    simp only [idle_mode_command, transfer_callback_command]
    unfold transfer_commit
    split_ifs <;> first | rfl | simp [(recv_frames_spec _ _ _ _).2.2.1]

/-- C11: the code at the failing input. WRITE_CONFIG with decoded length 4 at
8-bit frames expects 4 frames; with the receive FIFO level reading 3 the check
`rxflr < command_len - 1` passes, the error code stays 0 and four frames are
read from the data register and stored. -/
theorem transfer_mode_rx_check_short_by_one :
    (in_transfer 8 0 0 4 [170, 187, 204, 221] 3 0 0).command.cmd = spi_h.WRITE_CONFIG ∧
    expected_frames (in_transfer 8 0 0 4 [170, 187, 204, 221] 3 0 0) = 4 ∧
    (in_transfer 8 0 0 4 [170, 187, 204, 221] 3 0 0).rxflr = 3 ∧
    (spi_slave_transfer_mode spi_h
        (in_transfer 8 0 0 4 [170, 187, 204, 221] 3 0 0)).command.err = 0 ∧
    (List.range 4).map (fun j =>
        (spi_slave_transfer_mode spi_h (in_transfer 8 0 0 4 [170, 187, 204, 221] 3 0 0)).mem
          (1000 + j))
      = [170, 187, 204, 221] ∧
    expected_frames (in_transfer 32 0 0 1 [] 5 0 0) = 0 ∧
    (in_transfer 32 0 0 1 [] 5 0 0).rxflr = 5 ∧
    (spi_slave_transfer_mode spi_h (in_transfer 32 0 0 1 [] 5 0 0)).command.err = 1 := by
  decide

/-- C12. Every call of `spi_slave_transfer_mode` with a data bit length of at
least 8 ends with status Idle and the ready pin high, whatever opcode the
descriptor holds, whatever the completion check gives and whether or not a
callback is registered; the data bit length is still at least 8. -/
theorem transfer_mode_ends_idle (c : SpiHeader) (s : SlaveState)
    (hdbl : 8 ≤ s.data_bit_length) :
    (spi_slave_transfer_mode c s).status = .IDLE ∧
    (spi_slave_transfer_mode c s).ready_pin = s.ready_pin ∧
    (spi_slave_transfer_mode c s).pin_level s.ready_pin = .GPIO_PV_HIGH ∧
    8 ≤ (spi_slave_transfer_mode c s).data_bit_length := by
  cases h : transfer_check c (expected_frames s) (set_err 0 s) with
  | none =>
    rw [transfer_mode_unchecked c s h]
    simpa using hdbl
  | some s1 =>
    rw [transfer_mode_checked c s s1 h]
    have h1 := transfer_check_ready_pin c _ _ _ h
    have h2 := transfer_commit_ready_pin c (slave_frame_width s) (expected_frames s) s1
    have h3 : s1.ready_pin = s.ready_pin := h1
    have h4 := transfer_check_data_bit_length c _ _ _ h
    have h5 := transfer_commit_data_bit_length c (slave_frame_width s) (expected_frames s) s1
    have h6 : s1.data_bit_length = s.data_bit_length := h4
    simp [h2, h3, h5, h6, hdbl]

/-- Witness for C12: a WRITE_CONFIG descriptor whose check fails, a block
descriptor and a descriptor with an undefined opcode, at 8-bit frames. -/
theorem transfer_mode_ends_idle_witness :
    ((spi_slave_transfer_mode spi_h (in_transfer 8 0 0 4 [] 0 0 0)).status = .IDLE ∧
     (spi_slave_transfer_mode spi_h (in_transfer 8 0 0 4 [] 0 0 0)).ready_pin
        = (in_transfer 8 0 0 4 [] 0 0 0).ready_pin ∧
     (spi_slave_transfer_mode spi_h (in_transfer 8 0 0 4 [] 0 0 0)).pin_level
        (in_transfer 8 0 0 4 [] 0 0 0).ready_pin = .GPIO_PV_HIGH ∧
     8 ≤ (spi_slave_transfer_mode spi_h (in_transfer 8 0 0 4 [] 0 0 0)).data_bit_length) ∧
    ((spi_slave_transfer_mode spi_h (in_transfer 8 5 16 4 [] 0 0 2)).status = .IDLE ∧
     (spi_slave_transfer_mode spi_h (in_transfer 8 5 16 4 [] 0 0 2)).ready_pin
        = (in_transfer 8 5 16 4 [] 0 0 2).ready_pin ∧
     (spi_slave_transfer_mode spi_h (in_transfer 8 5 16 4 [] 0 0 2)).pin_level
        (in_transfer 8 5 16 4 [] 0 0 2).ready_pin = .GPIO_PV_HIGH ∧
     8 ≤ (spi_slave_transfer_mode spi_h (in_transfer 8 5 16 4 [] 0 0 2)).data_bit_length) ∧
    ((spi_slave_transfer_mode spi_h (in_transfer 8 200 0 1 [] 0 0 0)).status = .IDLE ∧
     (spi_slave_transfer_mode spi_h (in_transfer 8 200 0 1 [] 0 0 0)).ready_pin
        = (in_transfer 8 200 0 1 [] 0 0 0).ready_pin ∧
     (spi_slave_transfer_mode spi_h (in_transfer 8 200 0 1 [] 0 0 0)).pin_level
        (in_transfer 8 200 0 1 [] 0 0 0).ready_pin = .GPIO_PV_HIGH ∧
     8 ≤ (spi_slave_transfer_mode spi_h (in_transfer 8 200 0 1 [] 0 0 0)).data_bit_length) :=
  ⟨transfer_mode_ends_idle spi_h (in_transfer 8 0 0 4 [] 0 0 0) (by decide),
   transfer_mode_ends_idle spi_h (in_transfer 8 5 16 4 [] 0 0 2) (by decide),
   transfer_mode_ends_idle spi_h (in_transfer 8 200 0 1 [] 0 0 0) (by decide)⟩

/-! ## The master routines: assertions and configuration -/

/-- C18. `spi_get_frame_size b` is the Byte width for `b < 8`, the HalfWord
width for `8 ≤ b < 16` and the Word width for `16 ≤ b`; this holds for every
`b`, in particular for the bit lengths 4 to 32. -/
theorem get_frame_size_classes (b : Nat) :
    (b < 8 → spi_get_frame_size b = .SPI_TRANS_CHAR) ∧
    (8 ≤ b ∧ b < 16 → spi_get_frame_size b = .SPI_TRANS_SHORT) ∧
    (16 ≤ b → spi_get_frame_size b = .SPI_TRANS_INT) := by
  unfold spi_get_frame_size
  refine ⟨fun h => ?_, fun h => ?_, fun h => ?_⟩
  · rw [if_pos h]
  · rw [if_neg (by omega), if_pos h.2]
  · rw [if_neg (by omega), if_neg (by omega)]

/-- C16. When the bus index is 2 or is not below `SPI_DEVICE_MAX`, each of the
six master routines aborts in the state it was called in: no register has been
written and the clock subsystem has not been called. -/
theorem master_routines_reject_bus (c : SpiHeader) (spi_num : Nat) (s : MasterState)
    (work_mode frame_format data_bit_length endian : Nat)
    (instruction_length address_length wait_cycles trans_mode : Nat)
    (chip_select tx_buff tx_len v_send_data cmd_buff cmd_len rx_buff rx_len : Nat)
    (txflr sr rxflr : List Nat) (dr : Nat → Nat)
    (hbus : ¬ c.master_bus spi_num) :
    spi_init c spi_num work_mode frame_format data_bit_length endian s = .aborted s ∧
    spi_init_non_standard c spi_num instruction_length address_length wait_cycles trans_mode s
      = .aborted s ∧
    spi_send_data_normal c spi_num chip_select tx_buff tx_len v_send_data txflr sr s
      = .aborted s ∧
    spi_receive_data_standard c spi_num chip_select cmd_buff cmd_len rx_buff rx_len txflr rxflr
      dr s = .aborted s ∧
    spi_receive_data_multiple c spi_num chip_select cmd_buff cmd_len rx_buff rx_len txflr rxflr
      dr s = .aborted s ∧
    spi_send_data_multiple c spi_num chip_select cmd_buff cmd_len tx_buff tx_len v_send_data
      txflr sr s = .aborted s := by
  have h : ¬ (spi_num < c.SPI_DEVICE_MAX ∧ spi_num ≠ 2) := hbus
  refine ⟨?_, ?_, ?_, ?_, ?_, ?_⟩
  · unfold spi_init
    split_ifs <;> rfl
  · unfold spi_init_non_standard
    split_ifs <;> rfl
  · unfold spi_send_data_normal
    rw [if_pos h]
  · unfold spi_receive_data_standard
    rw [if_pos h]
  · unfold spi_receive_data_multiple
    rw [if_pos h]
  · unfold spi_send_data_multiple
    rw [if_pos h]

/-- Witness for C16: bus 2 and bus 4 with the concrete header table. -/
theorem master_routines_reject_bus_witness :
    (¬ spi_h.master_bus 2 ∧
      spi_init spi_h 2 0 0 8 0 master_reset = .aborted master_reset ∧
      spi_init_non_standard spi_h 2 8 24 0 0 master_reset = .aborted master_reset ∧
      spi_send_data_normal spi_h 2 1 1000 4 0 [0] [4] master_reset = .aborted master_reset ∧
      spi_receive_data_standard spi_h 2 1 1000 1 2000 4 [0] [4] (fun _ => 0) master_reset
        = .aborted master_reset ∧
      spi_receive_data_multiple spi_h 2 1 1000 1 2000 4 [0] [4] (fun _ => 0) master_reset
        = .aborted master_reset ∧
      spi_send_data_multiple spi_h 2 1 1000 1 1000 4 0 [0] [4] master_reset
        = .aborted master_reset) ∧
    (¬ spi_h.master_bus 4 ∧
      spi_init spi_h 4 0 0 8 0 master_reset = .aborted master_reset ∧
      spi_init_non_standard spi_h 4 8 24 0 0 master_reset = .aborted master_reset ∧
      spi_send_data_normal spi_h 4 1 1000 4 0 [0] [4] master_reset = .aborted master_reset ∧
      spi_receive_data_standard spi_h 4 1 1000 1 2000 4 [0] [4] (fun _ => 0) master_reset
        = .aborted master_reset ∧
      spi_receive_data_multiple spi_h 4 1 1000 1 2000 4 [0] [4] (fun _ => 0) master_reset
        = .aborted master_reset ∧
      spi_send_data_multiple spi_h 4 1 1000 1 1000 4 0 [0] [4] master_reset
        = .aborted master_reset) :=
  ⟨⟨by decide, master_routines_reject_bus spi_h 2 master_reset 0 0 8 0 8 24 0 0 1 1000 4 0 1000 1
      2000 4 [0] [4] [4] (fun _ => 0) (by decide)⟩,
   ⟨by decide, master_routines_reject_bus spi_h 4 master_reset 0 0 8 0 8 24 0 0 1 1000 4 0 1000 1
      2000 4 [0] [4] [4] (fun _ => 0) (by decide)⟩⟩

theorem non_standard_word_eq (wait_cycles inst_l addr_l mode : Nat) (hw : wait_cycles < 32)
    (hi : inst_l < 4) (ha : addr_l < 16) (hm : mode < 3) :
    ((wait_cycles <<< 11) ||| (inst_l <<< 8) ||| (addr_l <<< 2) ||| mode) % 2 ^ 32
      = 2048 * wait_cycles + 256 * inst_l + 4 * addr_l + mode := by
  have e1 : mode ||| (addr_l <<< 2) = mode + 2 ^ 2 * addr_l := or_shift_byte _ _ 2 (by omega)
  have e2 : (mode + 2 ^ 2 * addr_l) ||| (inst_l <<< 8) = mode + 2 ^ 2 * addr_l + 2 ^ 8 * inst_l :=
    or_shift_byte _ _ 8 (by omega)
  have e3 : (mode + 2 ^ 2 * addr_l + 2 ^ 8 * inst_l) ||| (wait_cycles <<< 11)
      = mode + 2 ^ 2 * addr_l + 2 ^ 8 * inst_l + 2 ^ 11 * wait_cycles :=
    or_shift_byte _ _ 11 (by omega)
  have e : (wait_cycles <<< 11) ||| (inst_l <<< 8) ||| (addr_l <<< 2) ||| mode
      = mode + 2 ^ 2 * addr_l + 2 ^ 8 * inst_l + 2 ^ 11 * wait_cycles := by
    rw [← e3, ← e2, ← e1]
    ac_rfl
  rw [e]
  omega

theorem inst_l_of_eq_none (il : Nat) :
    inst_l_of il = none ↔ (il ≠ 0 ∧ il ≠ 4 ∧ il ≠ 8 ∧ il ≠ 16) := by
  unfold inst_l_of
  split_ifs <;> simp_all

theorem inst_l_of_some (il k : Nat) (h : inst_l_of il = some k) :
    il = 4 * k + 4 * (k / 3) ∧ k < 4 := by
  unfold inst_l_of at h
  split_ifs at h with h0 h4 h8 h16
  all_goals simp at h
  all_goals subst h
  all_goals omega

theorem non_standard_word_lt (wait_cycles inst_l addr_l mode : Nat) (hw : wait_cycles < 32)
    (hi : inst_l < 4) (ha : addr_l < 16) (hm : mode < 3) :
    (wait_cycles <<< 11) ||| (inst_l <<< 8) ||| (addr_l <<< 2) ||| mode
      = 2048 * wait_cycles + 256 * inst_l + 4 * addr_l + mode := by
  have h := non_standard_word_eq wait_cycles inst_l addr_l mode hw hi ha hm
  have hlt : (wait_cycles <<< 11) ||| (inst_l <<< 8) ||| (addr_l <<< 2) ||| mode < 2 ^ 32 := by
    apply Nat.or_lt_two_pow
    · apply Nat.or_lt_two_pow
      · apply Nat.or_lt_two_pow
        · rw [Nat.shiftLeft_eq]; omega
        · rw [Nat.shiftLeft_eq]; omega
      · rw [Nat.shiftLeft_eq]; omega
    · omega
  rwa [Nat.mod_eq_of_lt hlt] at h

theorem init_non_standard_accepted (c : SpiHeader) (spi_num il al wc m k : Nat) (s : MasterState)
    (hbus : c.master_bus spi_num) (hw : wc < 32) (hm : m < 3) (hk : inst_l_of il = some k)
    (ha : al % 4 = 0 ∧ al ≤ 60) :
    spi_init_non_standard c spi_num il al wc m s
      = .returned (write_reg spi_num .spi_ctrlr0
          (2048 * wc + 256 * k + 4 * (al / 4) + m) s) := by
  have hb : spi_num < c.SPI_DEVICE_MAX ∧ spi_num ≠ 2 := hbus
  have hw2 : wc < 1 <<< 5 := by
    have e : (1 : Nat) <<< 5 = 32 := by decide
    rw [e]; exact hw
  have hk4 := (inst_l_of_some il k hk).2
  unfold spi_init_non_standard
  rw [if_neg (not_not.mpr hw2), if_neg (not_not.mpr hm), if_neg (not_not.mpr hb), hk]
  simp only []
  rw [if_neg (not_not.mpr ha), non_standard_word_eq wc k (al / 4) m hw hk4 (by omega) hm]

theorem init_non_standard_rejected (c : SpiHeader) (spi_num il al wc m : Nat) (s : MasterState)
    (h : non_standard_rejected il al wc m) :
    spi_init_non_standard c spi_num il al wc m s = .aborted s := by
  unfold spi_init_non_standard
  have e : (1 : Nat) <<< 5 = 32 := by decide
  rw [e]
  by_cases h1 : wc < 32
  · rw [if_neg (not_not.mpr h1)]
    by_cases h2 : m < 3
    · rw [if_neg (not_not.mpr h2)]
      by_cases h3 : spi_num < c.SPI_DEVICE_MAX ∧ spi_num ≠ 2
      · rw [if_neg (not_not.mpr h3)]
        cases hk : inst_l_of il with
        | none => rfl
        | some k =>
          have hk2 := inst_l_of_some il k hk
          have h4 : ¬ (al % 4 = 0 ∧ al ≤ 60) := by
            unfold non_standard_rejected at h
            omega
          simp only []
          rw [if_pos h4]
      · rw [if_pos h3]
    · rw [if_pos h2]
  · rw [if_pos h1]

/-- C17. On a valid master bus `spi_init_non_standard` aborts, leaving the state
as it was, exactly when the wait cycles are 32 or more, the transfer mode is 3
or more, the instruction length is none of 0, 4, 8, 16, or the address length
is not a multiple of 4 or exceeds 60. Otherwise it returns after the single
write `spi_ctrlr0 = (wait_cycles << 11) | (k << 8) | ((address_length / 4) << 2)
| mode`, `k` = 0, 1, 2, 3 for instruction length 0, 4, 8, 16. Two accepted
argument tuples that leave the same value in `spi_ctrlr0` are equal. -/
theorem init_non_standard_encoding (c : SpiHeader) (spi_num il al wc m : Nat) (s : MasterState)
    (hbus : c.master_bus spi_num) :
    (spi_init_non_standard c spi_num il al wc m s = .aborted s ↔
      non_standard_rejected il al wc m) ∧
    (¬ non_standard_rejected il al wc m →
      ∃ k, ((il = 0 ∧ k = 0) ∨ (il = 4 ∧ k = 1) ∨ (il = 8 ∧ k = 2) ∨ (il = 16 ∧ k = 3)) ∧
        spi_init_non_standard c spi_num il al wc m s
          = .returned (write_reg spi_num .spi_ctrlr0
              ((wc <<< 11) ||| (k <<< 8) ||| ((al / 4) <<< 2) ||| m) s)) ∧
    (∀ (il2 al2 wc2 m2 : Nat) (s2 t t2 : MasterState),
      spi_init_non_standard c spi_num il al wc m s = .returned t →
      spi_init_non_standard c spi_num il2 al2 wc2 m2 s2 = .returned t2 →
      t.regs spi_num .spi_ctrlr0 = t2.regs spi_num .spi_ctrlr0 →
      il = il2 ∧ al = al2 ∧ wc = wc2 ∧ m = m2) := by
  have accepted : ∀ (il al wc m : Nat) (s : MasterState), ¬ non_standard_rejected il al wc m →
      ∃ k, il = 4 * k + 4 * (k / 3) ∧ k < 4 ∧ wc < 32 ∧ m < 3 ∧ al % 4 = 0 ∧ al ≤ 60 ∧
        spi_init_non_standard c spi_num il al wc m s
          = .returned (write_reg spi_num .spi_ctrlr0
              (2048 * wc + 256 * k + 4 * (al / 4) + m) s) := by
    intro il al wc m s h
    unfold non_standard_rejected at h
    cases hk : inst_l_of il with
    | none =>
      have := (inst_l_of_eq_none il).mp hk
      exact absurd (Or.inr (Or.inr (Or.inl this))) h
    | some k =>
      have hk2 := inst_l_of_some il k hk
      exact ⟨k, hk2.1, hk2.2, by omega, by omega, by omega, by omega,
        init_non_standard_accepted c spi_num il al wc m k s hbus (by omega) (by omega) hk
          ⟨by omega, by omega⟩⟩
  refine ⟨⟨fun h => ?_, init_non_standard_rejected c spi_num il al wc m s⟩, fun h => ?_, ?_⟩
  · by_contra hn
    obtain ⟨k, -, -, -, -, -, -, e⟩ := accepted il al wc m s hn
    rw [e] at h
    cases h
  · obtain ⟨k, hk, hk4, hw, hm, ha, ha2, e⟩ := accepted il al wc m s h
    refine ⟨k, by omega, ?_⟩
    rw [e, non_standard_word_lt wc k (al / 4) m hw hk4 (by omega) hm]
  · intro il2 al2 wc2 m2 s2 t t2 h1 h2 hv
    have a1 : ¬ non_standard_rejected il al wc m := by
      intro hr
      rw [init_non_standard_rejected c spi_num il al wc m s hr] at h1
      cases h1
    have a2 : ¬ non_standard_rejected il2 al2 wc2 m2 := by
      intro hr
      rw [init_non_standard_rejected c spi_num il2 al2 wc2 m2 s2 hr] at h2
      cases h2
    obtain ⟨k, hk, hk4, hw, hm, ha, ha60, e⟩ := accepted il al wc m s a1
    obtain ⟨k2, hk2, hk42, hw2, hm2, ha2, ha602, e2⟩ := accepted il2 al2 wc2 m2 s2 a2
    rw [e] at h1
    rw [e2] at h2
    cases h1
    cases h2
    simp only [write_reg_regs, and_self, if_true] at hv
    omega

/-- Witness for C17: bus 0, instruction length 8, address length 24, 5 wait
cycles, mode 1. -/
theorem init_non_standard_encoding_witness :
    spi_h.master_bus 0 ∧
    (spi_init_non_standard spi_h 0 8 24 5 1 master_reset = .aborted master_reset ↔
      non_standard_rejected 8 24 5 1) ∧
    (¬ non_standard_rejected 8 24 5 1 →
      ∃ k, ((8 = 0 ∧ k = 0) ∨ (8 = 4 ∧ k = 1) ∨ (8 = 8 ∧ k = 2) ∨ (8 = 16 ∧ k = 3)) ∧
        spi_init_non_standard spi_h 0 8 24 5 1 master_reset
          = .returned (write_reg 0 .spi_ctrlr0
              ((5 <<< 11) ||| (k <<< 8) ||| ((24 / 4) <<< 2) ||| 1) master_reset)) :=
  ⟨by decide, (init_non_standard_encoding spi_h 0 8 24 5 1 master_reset (by decide)).1,
    (init_non_standard_encoding spi_h 0 8 24 5 1 master_reset (by decide)).2.1⟩

theorem testBit_small (x j : Nat) (h : x < 4) (hj : 2 ≤ j) : x.testBit j = false := by
  apply Nat.testBit_lt_two_pow
  calc x < 2 ^ 2 := h
    _ ≤ 2 ^ j := Nat.pow_le_pow_right (by decide) hj

theorem testBit_field (n j : Nat) (h : n < 32) (hj : 5 ≤ j) : n.testBit j = false := by
  apply Nat.testBit_lt_two_pow
  calc n < 2 ^ 5 := h
    _ ≤ 2 ^ j := Nat.pow_le_pow_right (by decide) hj

theorem mask31 : (0x1F : Nat) = 2 ^ 5 - 1 := by decide

/-- The frame-size field of the `ctrlr0` value written by `spi_init` on bus 0
or 1. -/
theorem init_field_hi (wm ff n : Nat) (hwm : wm < 4) (hn : n < 32) :
    ((((wm <<< 6) ||| (ff <<< 21) ||| (n <<< 16)) % 2 ^ 32) >>> 16) &&& 0x1F = n := by
  apply Nat.eq_of_testBit_eq
  intro i
  rw [mask31, Nat.testBit_and, Nat.testBit_two_pow_sub_one, Nat.testBit_shiftRight,
    Nat.testBit_mod_two_pow, Nat.testBit_or, Nat.testBit_or, Nat.testBit_shiftLeft,
    Nat.testBit_shiftLeft, Nat.testBit_shiftLeft]
  by_cases hi : i < 5
  · have e1 : wm.testBit (16 + i - 6) = false := testBit_small wm _ hwm (by omega)
    have e2 : decide (16 + i ≥ 21) = false := by simp; omega
    have e3 : decide (16 + i < 32) = true := by simp; omega
    have e4 : decide (16 + i ≥ 16) = true := by simp
    have e5 : 16 + i - 16 = i := by omega
    simp [e1, e2, e3, e4, e5, hi]
  · have e : n.testBit i = false := testBit_field n i hn (by omega)
    simp [hi, e]

/-- The frame-size field of the `ctrlr0` value written by `spi_init` on a bus
other than 0 and 1. -/
theorem init_field_lo (wm ff n : Nat) (hn : n < 32) :
    ((((wm <<< 8) ||| (ff <<< 22) ||| (n <<< 0)) % 2 ^ 32) >>> 0) &&& 0x1F = n := by
  apply Nat.eq_of_testBit_eq
  intro i
  rw [mask31, Nat.testBit_and, Nat.testBit_two_pow_sub_one, Nat.testBit_shiftRight,
    Nat.testBit_mod_two_pow, Nat.testBit_or, Nat.testBit_or, Nat.testBit_shiftLeft,
    Nat.testBit_shiftLeft, Nat.testBit_shiftLeft]
  by_cases hi : i < 5
  · have a1 : ¬ 8 ≤ i := by omega
    have a2 : ¬ 22 ≤ i := by omega
    have a3 : i < 32 := by omega
    simp [a1, a2, a3, hi]
  · have e : n.testBit i = false := testBit_field n i hn (by omega)
    simp [hi, e]

/-- The update of `spi_set_tmod` leaves the frame-size field of `ctrlr0` as it
is, on every bus. -/
theorem set_tmod_field (spi_num tmod x : Nat) :
    (spi_set_tmod spi_num tmod x >>> master_dfs_offset spi_num) &&& 0x1F
      = (x >>> master_dfs_offset spi_num) &&& 0x1F := by
  have hc8 : ∀ i, i < 5 → (2 ^ 32 - 1 - (3 <<< 8) % 2 ^ 32).testBit (16 + i) = true ∧
      ((3 <<< 8) % 2 ^ 32).testBit (16 + i) = false := by decide
  have hc10 : ∀ i, i < 5 → (2 ^ 32 - 1 - (3 <<< 10) % 2 ^ 32).testBit (0 + i) = true ∧
      ((3 <<< 10) % 2 ^ 32).testBit (0 + i) = false := by decide
  have hc80 : ∀ i, i < 5 → (2 ^ 32 - 1 - (3 <<< 8) % 2 ^ 32).testBit (0 + i) = true ∧
      ((3 <<< 8) % 2 ^ 32).testBit (0 + i) = false := by decide
  have key : ∀ off dfs : Nat, (off = 8 ∧ dfs = 16) ∨ (off = 10 ∧ dfs = 0) ∨ (off = 8 ∧ dfs = 0) →
      (set_bit x (3 <<< off) (tmod <<< off) >>> dfs) &&& 0x1F = (x >>> dfs) &&& 0x1F := by
    intro off dfs h
    apply Nat.eq_of_testBit_eq
    intro i
    unfold set_bit
    rw [mask31, Nat.testBit_and, Nat.testBit_and, Nat.testBit_two_pow_sub_one,
      Nat.testBit_shiftRight, Nat.testBit_shiftRight, Nat.testBit_or, Nat.testBit_and,
      Nat.testBit_and]
    by_cases hi : i < 5
    · rcases h with ⟨rfl, rfl⟩ | ⟨rfl, rfl⟩ | ⟨rfl, rfl⟩
      · rw [(hc8 i hi).1, (hc8 i hi).2]
        simp
      · rw [(hc10 i hi).1, (hc10 i hi).2]
        simp
      · rw [(hc80 i hi).1, (hc80 i hi).2]
        simp
    · simp [hi]
  unfold spi_set_tmod master_dfs_offset
  by_cases h01 : spi_num = 0 ∨ spi_num = 1
  · have h2 : spi_num = 0 ∨ spi_num = 1 ∨ spi_num = 2 := by omega
    rw [if_pos h01]
    simp only [if_pos h2]
    exact key 8 16 (Or.inl ⟨rfl, rfl⟩)
  · rw [if_neg h01]
    by_cases h2 : spi_num = 2
    · have h3 : spi_num = 0 ∨ spi_num = 1 ∨ spi_num = 2 := Or.inr (Or.inr h2)
      simp only [if_pos h3]
      exact key 8 0 (Or.inr (Or.inr ⟨rfl, rfl⟩))
    · have h3 : ¬ (spi_num = 0 ∨ spi_num = 1 ∨ spi_num = 2) := by omega
      simp only [if_neg h3]
      exact key 10 0 (Or.inr (Or.inl ⟨rfl, rfl⟩))

end Spi
namespace Spi

theorem get_frame_size_cases (n : Nat) :
    (n < 8 → spi_get_frame_size n = .SPI_TRANS_CHAR) ∧
    (8 ≤ n ∧ n < 16 → spi_get_frame_size n = .SPI_TRANS_SHORT) ∧
    (16 ≤ n → spi_get_frame_size n = .SPI_TRANS_INT) := by
  unfold spi_get_frame_size
  refine ⟨fun h => ?_, fun h => ?_, fun h => ?_⟩
  · rw [if_pos h]
  · rw [if_neg (by omega), if_pos h.2]
  · rw [if_neg (by omega), if_neg (by omega)]

end Spi
namespace Spi

theorem size_dec_small (b : Nat) (h1 : 1 ≤ b) (h2 : b ≤ 32) : size_dec b = b - 1 := by
  unfold size_dec
  have e : b % 2 ^ 64 = b := Nat.mod_eq_of_lt (by omega)
  rw [e, if_neg (by omega)]

/-- When its assertions hold `spi_init` returns, and `ctrlr0` then holds the
value assembled at source line 122. -/
theorem spi_init_returns (c : SpiHeader) (spi_num work_mode frame_format b endian : Nat)
    (s : MasterState) (hbus : c.master_bus spi_num) (hb : 4 ≤ b ∧ b ≤ 32)
    (hdual : frame_format = c.SPI_FF_DUAL → b % 2 = 0)
    (hquad : frame_format = c.SPI_FF_QUAD → b % 4 = 0)
    (hoctal : frame_format = c.SPI_FF_OCTAL → b % 8 = 0) :
    ∃ t, spi_init c spi_num work_mode frame_format b endian s = .returned t ∧
      t.regs spi_num .ctrlr0
        = ((work_mode <<< (if spi_num = 0 ∨ spi_num = 1 then 6 else 8)) |||
            (frame_format <<< (if spi_num = 0 ∨ spi_num = 1 then 21 else 22)) |||
            ((b - 1) <<< (if spi_num = 0 ∨ spi_num = 1 then 16 else 0))) % 2 ^ 32 := by
  have hbus2 : spi_num < c.SPI_DEVICE_MAX ∧ spi_num ≠ 2 := hbus
  have hb2 : b ≥ 4 ∧ b ≤ 32 := hb
  have h1 : ¬ (frame_format = c.SPI_FF_DUAL ∧ ¬ b % 2 = 0) := fun h => h.2 (hdual h.1)
  have h2 : ¬ (frame_format ≠ c.SPI_FF_DUAL ∧ frame_format = c.SPI_FF_QUAD ∧ ¬ b % 4 = 0) :=
    fun h => h.2.2 (hquad h.2.1)
  have h3 : ¬ (frame_format ≠ c.SPI_FF_DUAL ∧ frame_format ≠ c.SPI_FF_QUAD ∧
      frame_format = c.SPI_FF_OCTAL ∧ ¬ b % 8 = 0) := fun h => h.2.2.2 (hoctal h.2.2.1)
  unfold spi_init spi_clk_init
  rw [if_neg (not_not.mpr hb2), if_neg (not_not.mpr hbus2), if_neg (not_not.mpr hbus2)]
  simp only []
  rw [if_neg hbus2.2, if_neg h1, if_neg h2, if_neg h3, size_dec_small b (by omega) hb.2]
  refine ⟨_, rfl, ?_⟩
  simp [write_reg_regs]

/-- C19 (as amended). On every master bus, for every work mode below 4, every
frame format whose divisibility assertion holds and every data bit length `b`
from 4 to 32, `spi_init` returns and the frame width the transfer routines then
derive from `ctrlr0` is that of the stored field `b - 1`: Byte for `b ≤ 8`,
HalfWord for `8 < b ≤ 16`, Word for `16 < b`; a following `spi_set_tmod` with
any transfer mode returns and leaves that width as it is. -/
theorem init_frame_width (c : SpiHeader) (spi_num work_mode frame_format b endian : Nat)
    (s : MasterState) (hbus : c.master_bus spi_num) (hb : 4 ≤ b ∧ b ≤ 32)
    (hwm : work_mode < 4)
    (hdual : frame_format = c.SPI_FF_DUAL → b % 2 = 0)
    (hquad : frame_format = c.SPI_FF_QUAD → b % 4 = 0)
    (hoctal : frame_format = c.SPI_FF_OCTAL → b % 8 = 0) :
    ∃ t, spi_init c spi_num work_mode frame_format b endian s = .returned t ∧
      master_frame_width spi_num t = spi_get_frame_size (b - 1) ∧
      (b ≤ 8 → master_frame_width spi_num t = .SPI_TRANS_CHAR) ∧
      (8 < b ∧ b ≤ 16 → master_frame_width spi_num t = .SPI_TRANS_SHORT) ∧
      (16 < b → master_frame_width spi_num t = .SPI_TRANS_INT) ∧
      ∀ tmod, ∃ t2, master_set_tmod c spi_num tmod t = .returned t2 ∧
        master_frame_width spi_num t2 = master_frame_width spi_num t := by
  obtain ⟨t, ht, hreg⟩ :=
    spi_init_returns c spi_num work_mode frame_format b endian s hbus hb hdual hquad hoctal
  have hw : master_frame_width spi_num t = spi_get_frame_size (b - 1) := by
    unfold master_frame_width master_dfs_offset
    rw [hreg]
    by_cases h01 : spi_num = 0 ∨ spi_num = 1
    · simp only [if_pos h01]
      rw [init_field_hi work_mode frame_format (b - 1) hwm (by omega)]
    · simp only [if_neg h01]
      rw [init_field_lo work_mode frame_format (b - 1) (by omega)]
  have hcls := get_frame_size_cases (b - 1)
  refine ⟨t, ht, hw, fun h => ?_, fun h => ?_, fun h => ?_, fun tmod => ?_⟩
  · rw [hw]; exact hcls.1 (by omega)
  · rw [hw]; exact hcls.2.1 (by omega)
  · rw [hw]; exact hcls.2.2 (by omega)
  · have hlt : spi_num < c.SPI_DEVICE_MAX := hbus.1
    refine ⟨_, by unfold master_set_tmod; rw [if_neg (not_not.mpr hlt)], ?_⟩
    unfold master_frame_width
    simp only [write_reg_regs, and_self, if_true]
    rw [set_tmod_field]

end Spi
namespace Spi

/-- Counterexample for C19 as stated: after `spi_init` with a data bit length
of 8 on bus 0 the derived width is Byte, although 8 is not below 8 and the
classifier maps 8 to HalfWord; after `spi_init` with 16 on bus 3 it is
HalfWord, although the classifier maps 16 to Word. -/
theorem init_frame_width_counterexample :
    (spi_init spi_h 0 0 0 8 0 master_reset).state?.map (master_frame_width 0)
      = some .SPI_TRANS_CHAR ∧
    spi_get_frame_size 8 = .SPI_TRANS_SHORT ∧
    (spi_init spi_h 3 0 0 16 0 master_reset).state?.map (master_frame_width 3)
      = some .SPI_TRANS_SHORT ∧
    spi_get_frame_size 16 = .SPI_TRANS_INT := by
  decide

/-- Witness for C19: bus 0, work mode 0, the dual frame format, 8 data bits. -/
theorem init_frame_width_witness :
    spi_h.master_bus 0 ∧ (4 ≤ 8 ∧ 8 ≤ 32) ∧ (0 : Nat) < 4 ∧
    (1 = spi_h.SPI_FF_DUAL → 8 % 2 = 0) ∧
    ∃ t, spi_init spi_h 0 0 1 8 0 master_reset = .returned t ∧
      master_frame_width 0 t = spi_get_frame_size (8 - 1) ∧
      (8 ≤ 8 → master_frame_width 0 t = .SPI_TRANS_CHAR) ∧
      (8 < 8 ∧ 8 ≤ 16 → master_frame_width 0 t = .SPI_TRANS_SHORT) ∧
      (16 < 8 → master_frame_width 0 t = .SPI_TRANS_INT) ∧
      ∀ tmod, ∃ t2, master_set_tmod spi_h 0 tmod t = .returned t2 ∧
        master_frame_width 0 t2 = master_frame_width 0 t :=
  ⟨by decide, by decide, by decide, by decide,
    init_frame_width spi_h 0 0 1 8 0 master_reset (by decide) (by decide) (by decide)
      (by decide) (by decide) (by decide)⟩

/-! ## The send loop -/

theorem MasterState.ext_fields (s t : MasterState) (h1 : s.regs = t.regs) (h2 : s.mem = t.mem)
    (h3 : s.log = t.log) : s = t := by
  cases s
  cases t
  simp only [MasterState.mk.injEq]
  exact ⟨h1, h2, h3⟩

theorem append_log_nil (s : MasterState) : append_log [] s = s :=
  MasterState.ext_fields _ _ rfl rfl (by simp)

theorem append_log_append (es fs : List MasterEvent) (s : MasterState) :
    append_log fs (append_log es s) = append_log (es ++ fs) s :=
  MasterState.ext_fields _ _ rfl rfl (by simp)

theorem write_dr_eq (spi_num v : Nat) (s : MasterState) :
    write_dr spi_num v s = append_log [.dr_write spi_num v] s := rfl

theorem write_reg_log_eq (spi_num : Nat) (r : SpiReg) (v : Nat) (s : MasterState) :
    (write_reg spi_num r v s).log = s.log ++ [.reg_write spi_num r v] := rfl

theorem range_succ_map_shift {α : Type} (f : Nat → α) (n : Nat) :
    (List.range (n + 1)).map f = f 0 :: (List.range n).map (fun k => f (k + 1)) := by
  rw [List.range_succ_eq_map, List.map_cons, List.map_map]
  rfl

theorem range_add_map {α : Type} (f : Nat → α) (m n : Nat) :
    (List.range (m + n)).map f
      = (List.range m).map f ++ (List.range n).map (fun k => f (m + k)) := by
  rw [List.range_add, List.map_append, List.map_map]
  rfl

theorem mod_u32_of_succ_le (idx n : Nat) (h : idx + (n + 1) ≤ 2 ^ 32) : idx % 2 ^ 32 = idx :=
  Nat.mod_eq_of_lt (by omega)

/-- The aligned push loop in closed form: `n` writes of consecutive elements,
as long as the 32-bit index does not wrap before the last read. -/
theorem push_aligned_eq (w spi_num buff : Nat) (n idx : Nat) (s : MasterState)
    (h : idx + n ≤ 2 ^ 32) :
    push_aligned w spi_num buff n (idx % 2 ^ 32) s
      = ((idx + n) % 2 ^ 32,
         append_log ((List.range n).map fun k =>
           MasterEvent.dr_write spi_num (load_le s.mem (buff + w * (idx + k)) w)) s) := by
  induction n generalizing idx s with
  | zero =>
    simp only [push_aligned, List.range_zero, List.map_nil, append_log_nil, Nat.add_zero]
  | succ n ih =>
    have e : idx % 2 ^ 32 = idx := mod_u32_of_succ_le idx n h
    have ih2 := ih (idx + 1) (write_dr spi_num (load_le s.mem (buff + w * idx) w) s) (by omega)
    rw [push_aligned, e]
    unfold u32_add
    rw [ih2, write_dr_eq, append_log_append, range_succ_map_shift]
    have e2 : idx + 1 + n = idx + (n + 1) := by omega
    rw [e2]
    congr 2
    simp only [append_log_mem, Nat.add_zero, List.cons_append, List.nil_append, List.cons.injEq,
      true_and]
    apply List.map_congr_left
    intro k _
    have e3 : idx + 1 + k = idx + (k + 1) := by omega
    rw [e3]
    rfl

theorem load_le_lt (mem : Nat → Nat) (w p : Nat) : load_le mem p w < 256 ^ w := by
  induction w generalizing p with
  | zero => simp [load_le]
  | succ w ih =>
    have h1 := ih (p + 1)
    have h2 : mem p % 256 < 256 := Nat.mod_lt _ (by decide)
    rw [load_le, Nat.pow_succ]
    omega

theorem memcpy_scratch_upper (w x v : Nat) (hw : w = 2 ∨ w = 4) (hx : x < 256 ^ w) :
    (memcpy_scratch w x v % 2 ^ 32) / 256 ^ w = (v % 2 ^ 32) / 256 ^ w := by
  unfold memcpy_scratch
  rcases hw with rfl | rfl
  · norm_num at hx ⊢
    omega
  · norm_num at hx ⊢

theorem memcpy_scratch_congr (w x v v2 : Nat)
    (h : (v2 % 2 ^ 32) / 256 ^ w = (v % 2 ^ 32) / 256 ^ w) :
    memcpy_scratch w x v2 = memcpy_scratch w x v := by
  unfold memcpy_scratch
  rw [h]

/-- At Word width the scratch word is overwritten whole. -/
theorem memcpy_scratch_word (x v : Nat) : memcpy_scratch 4 x v = x := by
  unfold memcpy_scratch
  norm_num

/-- At HalfWord width the upper half of the scratch word stays. -/
theorem memcpy_scratch_half (x v : Nat) :
    memcpy_scratch 2 x v = 65536 * ((v % 2 ^ 32) / 65536) + x := by
  unfold memcpy_scratch
  norm_num
  omega

/-- The push loop through the scratch word in closed form: `n` writes, each the
group copied into the low bytes of the scratch word, whose upper bytes are
those it held on entry. -/
theorem push_misaligned_eq (w spi_num buff : Nat) (hw : w = 2 ∨ w = 4) (n off v : Nat)
    (s : MasterState) (h : off + w * n ≤ 2 ^ 32) :
    (push_misaligned w spi_num buff n (off % 2 ^ 32) v s).1 = (off + w * n) % 2 ^ 32 ∧
    ((push_misaligned w spi_num buff n (off % 2 ^ 32) v s).2.1 % 2 ^ 32) / 256 ^ w
      = (v % 2 ^ 32) / 256 ^ w ∧
    (push_misaligned w spi_num buff n (off % 2 ^ 32) v s).2.2
      = append_log ((List.range n).map fun k =>
          MasterEvent.dr_write spi_num
            (memcpy_scratch w (load_le s.mem (buff + (off + w * k)) w) v)) s := by
  induction n generalizing off v s with
  | zero =>
    simp only [push_misaligned, List.range_zero, List.map_nil, append_log_nil, Nat.mul_zero,
      Nat.add_zero, and_self]
  | succ n ih =>
    have hw1 : 1 ≤ w := by omega
    have hmul : w * (n + 1) = w * n + w := by ring
    have e : off % 2 ^ 32 = off := Nat.mod_eq_of_lt (by omega)
    have up := memcpy_scratch_upper w (load_le s.mem (buff + off) w) v hw (load_le_lt _ _ _)
    obtain ⟨i1, i2, i3⟩ := ih (off + w) (memcpy_scratch w (load_le s.mem (buff + off) w) v)
      (write_dr spi_num (memcpy_scratch w (load_le s.mem (buff + off) w) v) s) (by omega)
    rw [push_misaligned, e]
    unfold u32_add
    refine ⟨?_, ?_, ?_⟩
    · rw [i1]
      congr 1
      omega
    · rw [i2, up]
    · rw [i3, write_dr_eq, append_log_append, range_succ_map_shift]
      congr 1
      simp only [Nat.mul_zero, Nat.add_zero, List.cons_append, List.nil_append, List.cons.injEq,
        true_and]
      apply List.map_congr_left
      intro k _
      have e3 : off + w + w * k = off + w * (k + 1) := by ring
      rw [e3, memcpy_scratch_congr _ _ _ _ up]
      rfl

theorem bytes_cases (fw : spi_transfer_width_t) :
    fw.bytes = 1 ∨ fw.bytes = 2 ∨ fw.bytes = 4 := by
  cases fw <;> simp [spi_transfer_width_t.bytes]

theorem chunk_arith (w tx_len f : Nat) (hw : w = 1 ∨ w = 2 ∨ w = 4) (hlen : tx_len % w = 0)
    (hf : f ≤ tx_len) :
    (tx_len - f / w * w) % w = 0 ∧ f / w + (tx_len - f / w * w) / w = tx_len / w ∧
      f / w * w / w = f / w := by
  rcases hw with rfl | rfl | rfl <;> omega

/-- One iteration of the send loop on the wide-pointer path. -/
theorem send_chunk_aligned (fw : spi_transfer_width_t) (spi_num buff f idx v : Nat)
    (s : MasterState) (h : idx + f / fw.bytes ≤ 2 ^ 32) :
    send_chunk fw false spi_num buff f (idx % 2 ^ 32) v s
      = (f / fw.bytes * fw.bytes, (idx + f / fw.bytes) % 2 ^ 32, v,
         append_log ((List.range (f / fw.bytes)).map fun k =>
           MasterEvent.dr_write spi_num
             (load_le s.mem (buff + fw.bytes * (idx + k)) fw.bytes)) s) := by
  cases fw
  · simp only [spi_transfer_width_t.bytes] at h ⊢
    simp only [send_chunk, Nat.div_one, Nat.mul_one] at h ⊢
    rw [push_aligned_eq 1 spi_num buff f idx s h]
  · simp only [spi_transfer_width_t.bytes] at h ⊢
    have e : f / 2 * 2 / 2 = f / 2 := by omega
    simp only [send_chunk, e, Bool.false_eq_true, if_false]
    rw [push_aligned_eq 2 spi_num buff (f / 2) idx s h]
  · simp only [spi_transfer_width_t.bytes] at h ⊢
    have e : f / 4 * 4 / 4 = f / 4 := by omega
    simp only [send_chunk, e, Bool.false_eq_true, if_false]
    rw [push_aligned_eq 4 spi_num buff (f / 4) idx s h]

theorem min_le_len (a tx_len : Nat) : (if a < tx_len then a else tx_len) ≤ tx_len := by
  split_ifs <;> omega

/-- The send loop on the wide-pointer path in closed form: when the readings
let it finish, it has written the `tx_len / w` consecutive groups of the
buffer, whatever the readings were. -/
theorem send_loop_aligned (fw : spi_transfer_width_t) (spi_num buff : Nat) (txflr : List Nat)
    (tx_len idx v : Nat) (s : MasterState) (hlen : tx_len % fw.bytes = 0)
    (hidx : idx + tx_len / fw.bytes ≤ 2 ^ 32) :
    send_loop fw false spi_num buff txflr tx_len (idx % 2 ^ 32) v s
      = (send_rest fw.bytes txflr tx_len).map fun rest =>
          (rest, append_log ((List.range (tx_len / fw.bytes)).map fun k =>
            MasterEvent.dr_write spi_num
              (load_le s.mem (buff + fw.bytes * (idx + k)) fw.bytes)) s) := by
  induction txflr generalizing tx_len idx s with
  | nil =>
    by_cases h0 : tx_len = 0
    · subst h0
      simp [send_loop, send_rest, append_log_nil]
    · simp [send_loop, send_rest, h0]
  | cons r rest ih =>
    by_cases h0 : tx_len = 0
    · subst h0
      simp [send_loop, send_rest, append_log_nil]
    · have hf := min_le_len (fifo_free r) tx_len
      obtain ⟨a1, a2, -⟩ := chunk_arith fw.bytes tx_len _ (bytes_cases fw) hlen hf
      have b1 : idx + (if fifo_free r < tx_len then fifo_free r else tx_len) / fw.bytes
          ≤ 2 ^ 32 := le_trans (Nat.add_le_add_left (Nat.div_le_div_right hf) idx) hidx
      rw [send_loop, if_neg h0, send_rest, if_neg h0]
      simp only []
      rw [send_chunk_aligned fw spi_num buff _ idx v s b1]
      simp only []
      rw [ih _ _ _ a1 (by rw [Nat.add_assoc, a2]; exact hidx)]
      congr 1
      funext rest2
      rw [append_log_append, ← a2, range_add_map]
      simp only [Nat.add_assoc]
      rfl

/-- One iteration of the send loop on the path through the scratch word. -/
theorem send_chunk_misaligned (fw : spi_transfer_width_t) (hfw : fw ≠ .SPI_TRANS_CHAR)
    (spi_num buff f idx v : Nat) (s : MasterState)
    (h : fw.bytes * idx + fw.bytes * (f / fw.bytes) ≤ 2 ^ 32) :
    (send_chunk fw true spi_num buff f ((fw.bytes * idx) % 2 ^ 32) v s).1
      = f / fw.bytes * fw.bytes ∧
    (send_chunk fw true spi_num buff f ((fw.bytes * idx) % 2 ^ 32) v s).2.1
      = (fw.bytes * (idx + f / fw.bytes)) % 2 ^ 32 ∧
    ((send_chunk fw true spi_num buff f ((fw.bytes * idx) % 2 ^ 32) v s).2.2.1 % 2 ^ 32)
        / 256 ^ fw.bytes = (v % 2 ^ 32) / 256 ^ fw.bytes ∧
    (send_chunk fw true spi_num buff f ((fw.bytes * idx) % 2 ^ 32) v s).2.2.2
      = append_log ((List.range (f / fw.bytes)).map fun k =>
          MasterEvent.dr_write spi_num
            (memcpy_scratch fw.bytes (load_le s.mem (buff + fw.bytes * (idx + k)) fw.bytes) v))
          s := by
  cases fw
  · exact absurd rfl hfw
  · simp only [spi_transfer_width_t.bytes] at h ⊢
    have e : f / 2 * 2 / 2 = f / 2 := by omega
    obtain ⟨i1, i2, i3⟩ :=
      push_misaligned_eq 2 spi_num buff (Or.inl rfl) (f / 2) (2 * idx) v s h
    simp only [send_chunk, e, if_true]
    refine ⟨trivial, ?_, i2, ?_⟩
    · rw [i1, Nat.mul_add]
    · rw [i3]
      simp only [Nat.mul_add, Nat.add_assoc]
  · simp only [spi_transfer_width_t.bytes] at h ⊢
    have e : f / 4 * 4 / 4 = f / 4 := by omega
    obtain ⟨i1, i2, i3⟩ :=
      push_misaligned_eq 4 spi_num buff (Or.inr rfl) (f / 4) (4 * idx) v s h
    simp only [send_chunk, e, if_true]
    refine ⟨trivial, ?_, i2, ?_⟩
    · rw [i1, Nat.mul_add]
    · rw [i3]
      simp only [Nat.mul_add, Nat.add_assoc]

/-- The send loop on the path through the scratch word in closed form: when the
readings let it finish, it has written one value per group of the buffer, the
group in the low bytes and the upper bytes of the entry value `v` of the
scratch word above them. -/
theorem send_loop_misaligned (fw : spi_transfer_width_t) (hfw : fw ≠ .SPI_TRANS_CHAR)
    (spi_num buff : Nat) (txflr : List Nat) (tx_len idx v : Nat) (s : MasterState)
    (hlen : tx_len % fw.bytes = 0) (hidx : fw.bytes * idx + tx_len ≤ 2 ^ 32) :
    send_loop fw true spi_num buff txflr tx_len ((fw.bytes * idx) % 2 ^ 32) v s
      = (send_rest fw.bytes txflr tx_len).map fun rest =>
          (rest, append_log ((List.range (tx_len / fw.bytes)).map fun k =>
            MasterEvent.dr_write spi_num
              (memcpy_scratch fw.bytes
                (load_le s.mem (buff + fw.bytes * (idx + k)) fw.bytes) v)) s) := by
  induction txflr generalizing tx_len idx v s with
  | nil =>
    by_cases h0 : tx_len = 0
    · subst h0
      simp [send_loop, send_rest, append_log_nil]
    · simp [send_loop, send_rest, h0]
  | cons r rest ih =>
    by_cases h0 : tx_len = 0
    · subst h0
      simp [send_loop, send_rest, append_log_nil]
    · have hf := min_le_len (fifo_free r) tx_len
      obtain ⟨a1, a2, -⟩ := chunk_arith fw.bytes tx_len _ (bytes_cases fw) hlen hf
      have hle : fw.bytes * ((if fifo_free r < tx_len then fifo_free r else tx_len) / fw.bytes)
          ≤ tx_len := le_trans (Nat.mul_div_le _ _) hf
      obtain ⟨c1, c2, c3, c4⟩ := send_chunk_misaligned fw hfw spi_num buff
        (if fifo_free r < tx_len then fifo_free r else tx_len) idx v s (by omega)
      rw [send_loop, if_neg h0, send_rest, if_neg h0]
      simp only []
      rw [c1, c2, c4, ih _ _ _ _ a1 (by
        rw [Nat.mul_add, Nat.mul_comm fw.bytes (_ / fw.bytes)]
        have := Nat.div_mul_le_self (if fifo_free r < tx_len then fifo_free r else tx_len)
          fw.bytes
        omega)]
      congr 1
      funext rest2
      rw [append_log_append, ← a2, range_add_map]
      simp only [Nat.add_assoc, memcpy_scratch_congr _ _ _ _ c3]
      rfl

theorem dr_writes_append (spi_num : Nat) (l1 l2 : List MasterEvent) :
    dr_writes spi_num (l1 ++ l2) = dr_writes spi_num l1 ++ dr_writes spi_num l2 := by
  simp [dr_writes, List.filterMap_append]

theorem dr_writes_reg (spi_num n : Nat) (r : SpiReg) (v : Nat) :
    dr_writes spi_num [.reg_write n r v] = [] := rfl

theorem dr_writes_map (spi_num : Nat) (vals : List Nat) :
    dr_writes spi_num (vals.map (MasterEvent.dr_write spi_num)) = vals := by
  induction vals with
  | nil => rfl
  | cons a l ih =>
    have h : dr_writes spi_num (MasterEvent.dr_write spi_num a :: l.map (.dr_write spi_num))
        = a :: dr_writes spi_num (l.map (.dr_write spi_num)) := by
      simp [dr_writes]
    rw [List.map_cons, h, ih]

/-- The frame width read back after `spi_set_tmod` is the one read before. -/
theorem frame_width_after_set_tmod (spi_num tmod : Nat) (s : MasterState) :
    master_frame_width spi_num
        (write_reg spi_num .ctrlr0 (spi_set_tmod spi_num tmod (s.regs spi_num .ctrlr0)) s)
      = master_frame_width spi_num s := by
  unfold master_frame_width
  simp only [write_reg_regs, and_self, if_true]
  rw [set_tmod_field]

/-- The statements of `spi_send_data_normal` up to the send loop, on a master
bus. -/
theorem send_normal_unfold (c : SpiHeader) (spi_num chip_select tx_buff tx_len v : Nat)
    (txflr sr : List Nat) (s : MasterState) (hbus : c.master_bus spi_num) :
    spi_send_data_normal c spi_num chip_select tx_buff tx_len v txflr sr s
      = match send_loop (master_frame_width spi_num s)
            (decide (tx_buff % (master_frame_width spi_num s).bytes ≠ 0)) spi_num tx_buff txflr
            tx_len 0 v
            (s |> write_reg spi_num .ctrlr0
                    (spi_set_tmod spi_num c.SPI_TMOD_TRANS (s.regs spi_num .ctrlr0))
               |> write_reg spi_num .ssienr 0x01
               |> write_reg spi_num .ser ((1 <<< chip_select) % 2 ^ 32)) with
        | none =>
          .stalled
            (s |> write_reg spi_num .ctrlr0
                    (spi_set_tmod spi_num c.SPI_TMOD_TRANS (s.regs spi_num .ctrlr0))
               |> write_reg spi_num .ssienr 0x01
               |> write_reg spi_num .ser ((1 <<< chip_select) % 2 ^ 32))
        | some (_, t) =>
          if wait_idle sr then
            .returned (t |> write_reg spi_num .ser 0x00 |> write_reg spi_num .ssienr 0x00)
          else .stalled t := by
  have h1 : spi_num < c.SPI_DEVICE_MAX ∧ spi_num ≠ 2 := hbus
  unfold spi_send_data_normal master_set_tmod
  rw [if_neg (not_not.mpr h1), if_neg (not_not.mpr h1.1)]
  simp only []
  rw [if_neg h1.2, frame_width_after_set_tmod]

theorem fifo_free_ge (r : Nat) (h : r ≤ 28) : 4 ≤ fifo_free r := by
  unfold fifo_free
  have e : r % 2 ^ 32 = r := Nat.mod_eq_of_lt (by omega)
  rw [e, if_pos (by omega)]
  omega

/-- With at least four free FIFO entries at every reading, one reading per
remaining byte is enough for the send loop to finish. -/
theorem send_rest_some (w : Nat) (hw : w = 1 ∨ w = 2 ∨ w = 4) (txflr : List Nat) (tx_len : Nat)
    (hr : ∀ r ∈ txflr, r ≤ 28) (hlen : tx_len % w = 0) (hn : tx_len ≤ txflr.length) :
    ∃ rest, send_rest w txflr tx_len = some rest := by
  induction txflr generalizing tx_len with
  | nil =>
    have h0 : tx_len = 0 := by simpa using hn
    exact ⟨[], by simp [send_rest, h0]⟩
  | cons r rest ih =>
    by_cases h0 : tx_len = 0
    · exact ⟨r :: rest, by simp [send_rest, h0]⟩
    · have hfree := fifo_free_ge r (hr r (List.mem_cons_self _ _))
      have hf := min_le_len (fifo_free r) tx_len
      obtain ⟨a1, -, -⟩ := chunk_arith w tx_len _ hw hlen hf
      have hlen2 : List.length (r :: rest) = rest.length + 1 := rfl
      have hprog : tx_len - (if fifo_free r < tx_len then fifo_free r else tx_len) / w * w
          ≤ rest.length := by
        rw [hlen2] at hn
        rcases hw with rfl | rfl | rfl <;> split_ifs <;> omega
      rw [send_rest, if_neg h0]
      exact ih _ (fun x hx => hr x (List.mem_cons_of_mem _ hx)) a1 hprog

theorem send_loop_aligned_zero (fw : spi_transfer_width_t) (spi_num buff : Nat)
    (txflr : List Nat) (tx_len v : Nat) (s : MasterState) (hlen : tx_len % fw.bytes = 0)
    (hidx : tx_len / fw.bytes ≤ 2 ^ 32) :
    send_loop fw false spi_num buff txflr tx_len 0 v s
      = (send_rest fw.bytes txflr tx_len).map fun rest =>
          (rest, append_log
            ((buffer_frames fw.bytes s.mem buff (tx_len / fw.bytes)).map
              (MasterEvent.dr_write spi_num)) s) := by
  have h := send_loop_aligned fw spi_num buff txflr tx_len 0 v s hlen (by omega)
  simp only [Nat.zero_mod, Nat.zero_add] at h
  rw [h]
  simp only [buffer_frames, List.map_map]
  rfl

/-- C13. On a master bus, for an aligned buffer whose length is a multiple of
the frame width `w` and holds at most `2 ^ 32` frames (the range of the 32-bit
element index), and for every sequence of FIFO-level readings: when
`spi_send_data_normal` returns it has written to the data register exactly the
`tx_len / w` consecutive `w`-byte little-endian groups of the buffer, in order,
and memory is as before. It does return when every reading of the transmit
level leaves at least four free entries, there is one reading per byte, and a
reading of the status register shows the transmitter empty and idle. -/
theorem send_normal_frames (c : SpiHeader) (spi_num chip_select tx_buff tx_len v : Nat)
    (txflr sr : List Nat) (s : MasterState) (hbus : c.master_bus spi_num)
    (halign : tx_buff % (master_frame_width spi_num s).bytes = 0)
    (hlen : tx_len % (master_frame_width spi_num s).bytes = 0)
    (hidx : tx_len / (master_frame_width spi_num s).bytes ≤ 2 ^ 32) :
    (∀ t, spi_send_data_normal c spi_num chip_select tx_buff tx_len v txflr sr s = .returned t →
      dr_writes spi_num t.log
        = dr_writes spi_num s.log ++
            buffer_frames (master_frame_width spi_num s).bytes s.mem tx_buff
              (tx_len / (master_frame_width spi_num s).bytes) ∧
      t.mem = s.mem) ∧
    ((∀ r ∈ txflr, r ≤ 28) → tx_len ≤ txflr.length → wait_idle sr = true →
      ∃ t, spi_send_data_normal c spi_num chip_select tx_buff tx_len v txflr sr s
        = .returned t) := by
  have hmis : decide (tx_buff % (master_frame_width spi_num s).bytes ≠ 0) = false := by
    simp [halign]
  have hun := send_normal_unfold c spi_num chip_select tx_buff tx_len v txflr sr s hbus
  rw [hmis, send_loop_aligned_zero _ _ _ _ _ _ _ hlen hidx] at hun
  refine ⟨fun t ht => ?_, fun hr hn hw => ?_⟩
  · rw [hun] at ht
    cases hrest : send_rest (master_frame_width spi_num s).bytes txflr tx_len with
    | none =>
      rw [hrest] at ht
      cases ht
    | some rest =>
      rw [hrest] at ht
      simp only [Option.map_some'] at ht
      by_cases hw : wait_idle sr = true
      · rw [if_pos hw] at ht
        cases ht
        refine ⟨?_, rfl⟩
        simp only [write_reg_log, append_log_log, dr_writes_append, dr_writes_reg, dr_writes_map,
          List.append_nil]
        rfl
      · rw [if_neg hw] at ht
        cases ht
  · obtain ⟨rest, hrest⟩ := send_rest_some _ (bytes_cases _) txflr tx_len hr hlen hn
    rw [hun, hrest]
    simp only [Option.map_some']
    rw [if_pos hw]
    exact ⟨_, rfl⟩

/-- Witness for C13: 40 half-word frames (80 bytes) from the aligned address
1000 on bus 0, sent in four refills of the FIFO. -/
theorem send_normal_frames_witness :
    spi_h.master_bus 0 ∧
    1000 % (master_frame_width 0 (master_configured 0 16)).bytes = 0 ∧
    80 % (master_frame_width 0 (master_configured 0 16)).bytes = 0 ∧
    80 / (master_frame_width 0 (master_configured 0 16)).bytes ≤ 2 ^ 32 ∧
    (∀ t, spi_send_data_normal spi_h 0 1 1000 80 0 [0, 20, 0, 0] [0, 4] (master_configured 0 16)
        = .returned t →
      dr_writes 0 t.log
        = dr_writes 0 (master_configured 0 16).log ++
            buffer_frames (master_frame_width 0 (master_configured 0 16)).bytes
              (master_configured 0 16).mem 1000
              (80 / (master_frame_width 0 (master_configured 0 16)).bytes) ∧
      t.mem = (master_configured 0 16).mem) ∧
    ((∀ r ∈ [0, 20, 0, 0], r ≤ 28) → 80 ≤ [0, 20, 0, 0].length → wait_idle [0, 4] = true →
      ∃ t, spi_send_data_normal spi_h 0 1 1000 80 0 [0, 20, 0, 0] [0, 4] (master_configured 0 16)
        = .returned t) :=
  ⟨by decide, by decide, by decide, by decide,
    send_normal_frames spi_h 0 1 1000 80 0 [0, 20, 0, 0] [0, 4] (master_configured 0 16)
      (by decide) (by decide) (by decide) (by decide)⟩

/-- The run of the witness for C13 evaluated: the routine returns, and the
values written are the 40 half words of the buffer. -/
theorem send_normal_run :
    (spi_send_data_normal spi_h 0 1 1000 80 0 [0, 20, 0, 0] [0, 4]
        (master_configured 0 16)).state?.map (fun t => dr_writes 0 t.log)
      = some (buffer_frames 2 master_reset.mem 1000 40) := by
  decide

/-! ## The path through the scratch word -/

theorem load_le_congr (m1 m2 : Nat → Nat) (w p1 p2 : Nat)
    (h : ∀ k, k < w → m1 (p1 + k) % 256 = m2 (p2 + k) % 256) :
    load_le m1 p1 w = load_le m2 p2 w := by
  induction w generalizing p1 p2 with
  | zero => rfl
  | succ w ih =>
    have h0 := h 0 (by omega)
    have h1 : load_le m1 (p1 + 1) w = load_le m2 (p2 + 1) w := by
      apply ih
      intro k hk
      have := h (k + 1) (by omega)
      rw [Nat.add_assoc, Nat.add_assoc, Nat.add_comm 1 k]
      exact this
    simp only [Nat.add_zero] at h0
    rw [load_le, load_le, h0, h1]

theorem buffer_frames_congr (w : Nat) (m1 m2 : Nat → Nat) (b1 b2 n : Nat)
    (h : ∀ k, k < w * n → m1 (b1 + k) % 256 = m2 (b2 + k) % 256) :
    buffer_frames w m1 b1 n = buffer_frames w m2 b2 n := by
  unfold buffer_frames
  apply List.map_congr_left
  intro k hk
  have hk2 : k < n := List.mem_range.mp hk
  apply load_le_congr
  intro j hj
  have hlt : w * k + j < w * n := by
    have : w * (k + 1) ≤ w * n := Nat.mul_le_mul_left w hk2
    rw [Nat.mul_add, Nat.mul_one] at this
    omega
  have := h (w * k + j) hlt
  rw [Nat.add_assoc, Nat.add_assoc]
  exact this

theorem buffer_frames_lt (w : Nat) (m : Nat → Nat) (b n x : Nat)
    (hx : x ∈ buffer_frames w m b n) : x < 256 ^ w := by
  unfold buffer_frames at hx
  obtain ⟨k, -, rfl⟩ := List.mem_map.mp hx
  exact load_le_lt _ _ _

theorem memcpy_scratch_eq (w x v : Nat) :
    memcpy_scratch w x v = 256 ^ w * ((v % 2 ^ 32) / 256 ^ w) + x := by
  unfold memcpy_scratch
  rw [Nat.mul_comm]

theorem send_loop_misaligned_zero (fw : spi_transfer_width_t) (hfw : fw ≠ .SPI_TRANS_CHAR)
    (spi_num buff : Nat) (txflr : List Nat) (tx_len v : Nat) (s : MasterState)
    (hlen : tx_len % fw.bytes = 0) (hidx : tx_len ≤ 2 ^ 32) :
    send_loop fw true spi_num buff txflr tx_len 0 v s
      = (send_rest fw.bytes txflr tx_len).map fun rest =>
          (rest, append_log
            (((buffer_frames fw.bytes s.mem buff (tx_len / fw.bytes)).map fun x =>
                256 ^ fw.bytes * ((v % 2 ^ 32) / 256 ^ fw.bytes) + x).map
              (MasterEvent.dr_write spi_num)) s) := by
  have h := send_loop_misaligned fw hfw spi_num buff txflr tx_len 0 v s hlen (by omega)
  simp only [Nat.mul_zero, Nat.zero_mod, Nat.zero_add] at h
  rw [h]
  simp only [buffer_frames, List.map_map, memcpy_scratch_eq]
  rfl

/-- What `spi_send_data_normal` does on a master bus once its send loop is
known in closed form: it returns exactly when the loop finishes and the status
wait ends, and has then written the values `vals` to the data register. -/
theorem send_normal_closed (c : SpiHeader) (spi_num chip_select tx_buff tx_len v : Nat)
    (txflr sr : List Nat) (s : MasterState) (hbus : c.master_bus spi_num) (vals : List Nat)
    (hloop : ∀ s1 : MasterState, s1.mem = s.mem →
      send_loop (master_frame_width spi_num s)
          (decide (tx_buff % (master_frame_width spi_num s).bytes ≠ 0)) spi_num tx_buff txflr
          tx_len 0 v s1
        = (send_rest (master_frame_width spi_num s).bytes txflr tx_len).map fun rest =>
            (rest, append_log (vals.map (MasterEvent.dr_write spi_num)) s1)) :
    ((∃ t, spi_send_data_normal c spi_num chip_select tx_buff tx_len v txflr sr s = .returned t)
      ↔ ((∃ rest, send_rest (master_frame_width spi_num s).bytes txflr tx_len = some rest) ∧
          wait_idle sr = true)) ∧
    ∀ t, spi_send_data_normal c spi_num chip_select tx_buff tx_len v txflr sr s = .returned t →
      dr_writes spi_num t.log = dr_writes spi_num s.log ++ vals ∧ t.mem = s.mem := by
  have hun := send_normal_unfold c spi_num chip_select tx_buff tx_len v txflr sr s hbus
  rw [hloop (write_reg spi_num .ser ((1 <<< chip_select) % 2 ^ 32)
    (write_reg spi_num .ssienr 1
      (write_reg spi_num .ctrlr0 (spi_set_tmod spi_num c.SPI_TMOD_TRANS (s.regs spi_num .ctrlr0))
        s))) rfl] at hun
  rw [hun]
  cases hrest : send_rest (master_frame_width spi_num s).bytes txflr tx_len with
  | none =>
    simp only [Option.map_none']
    refine ⟨⟨fun h => ?_, fun h => ?_⟩, fun t ht => ?_⟩
    · obtain ⟨t, ht⟩ := h
      cases ht
    · obtain ⟨⟨rest, hr⟩, -⟩ := h
      cases hr
    · cases ht
  | some rest =>
    simp only [Option.map_some']
    by_cases hw : wait_idle sr = true
    · rw [if_pos hw]
      refine ⟨⟨fun _ => ⟨⟨rest, rfl⟩, hw⟩, fun _ => ⟨_, rfl⟩⟩, fun t ht => ?_⟩
      cases ht
      refine ⟨?_, rfl⟩
      simp only [write_reg_log, append_log_log, dr_writes_append, dr_writes_reg, dr_writes_map,
        List.append_nil]
    · rw [if_neg hw]
      refine ⟨⟨fun h => ?_, fun h => absurd h.2 hw⟩, fun t ht => ?_⟩
      · obtain ⟨t, ht⟩ := h
        cases ht
      · cases ht

theorem map_mod_scratch (w u : Nat) (F : List Nat) :
    (F.map fun x => 256 ^ w * u + x).map (fun x => x % 256 ^ w) = F.map (fun x => x % 256 ^ w) := by
  rw [List.map_map]
  apply List.map_congr_left
  intro x _
  simp [Nat.mul_add_mod]

/-- C20 (as amended). On a master bus, let the same `tx_len` bytes (a multiple
of the frame width `w`, at most `2 ^ 32`) lie in a misaligned buffer and in an
aligned one. For every sequence of readings the misaligned run returns exactly
when the aligned run does. The aligned run writes the groups `F` of the buffer;
the misaligned run writes, for each group `x`, the value
`256 ^ w * (scratch / 256 ^ w) + x`, the upper bytes of the entry value of the
scratch word above the group: the two sequences agree in the low `8 w` bits of
every value, and they are equal at Word width and whenever the upper half of
the scratch word is zero on entry. The misaligned run does return under the
readings under which the aligned one does. -/
theorem send_normal_misaligned (c : SpiHeader)
    (spi_num chip_select tx_buff tx_buff2 tx_len v v2 : Nat) (txflr sr : List Nat)
    (s : MasterState) (mem2 : Nat → Nat) (hbus : c.master_bus spi_num)
    (hmis : tx_buff % (master_frame_width spi_num s).bytes ≠ 0)
    (halign : tx_buff2 % (master_frame_width spi_num s).bytes = 0)
    (hlen : tx_len % (master_frame_width spi_num s).bytes = 0) (hidx : tx_len ≤ 2 ^ 32)
    (hbytes : ∀ k, k < tx_len → mem2 (tx_buff2 + k) % 256 = s.mem (tx_buff + k) % 256) :
    ((∃ t1, spi_send_data_normal c spi_num chip_select tx_buff tx_len v txflr sr s
        = .returned t1) ↔
      (∃ t2, spi_send_data_normal c spi_num chip_select tx_buff2 tx_len v2 txflr sr
        (master_set_mem mem2 s) = .returned t2)) ∧
    (∀ t1 t2,
      spi_send_data_normal c spi_num chip_select tx_buff tx_len v txflr sr s = .returned t1 →
      spi_send_data_normal c spi_num chip_select tx_buff2 tx_len v2 txflr sr
        (master_set_mem mem2 s) = .returned t2 →
      dr_writes spi_num t2.log
        = dr_writes spi_num s.log ++
            buffer_frames (master_frame_width spi_num s).bytes s.mem tx_buff
              (tx_len / (master_frame_width spi_num s).bytes) ∧
      dr_writes spi_num t1.log
        = dr_writes spi_num s.log ++
            (buffer_frames (master_frame_width spi_num s).bytes s.mem tx_buff
              (tx_len / (master_frame_width spi_num s).bytes)).map (fun x =>
                256 ^ (master_frame_width spi_num s).bytes *
                  ((v % 2 ^ 32) / 256 ^ (master_frame_width spi_num s).bytes) + x) ∧
      (dr_writes spi_num t1.log).map (fun x => x % 256 ^ (master_frame_width spi_num s).bytes)
        = (dr_writes spi_num t2.log).map
            (fun x => x % 256 ^ (master_frame_width spi_num s).bytes) ∧
      ((master_frame_width spi_num s = .SPI_TRANS_INT ∨ v % 2 ^ 32 < 65536) →
        dr_writes spi_num t1.log = dr_writes spi_num t2.log)) ∧
    ((∀ r ∈ txflr, r ≤ 28) → tx_len ≤ txflr.length → wait_idle sr = true →
      ∃ t1, spi_send_data_normal c spi_num chip_select tx_buff tx_len v txflr sr s
        = .returned t1) := by
  have hfw : master_frame_width spi_num s ≠ .SPI_TRANS_CHAR := by
    intro h
    rw [h] at hmis
    exact hmis (Nat.mod_one _)
  have hd1 : decide (tx_buff % (master_frame_width spi_num s).bytes ≠ 0) = true := by
    simp [hmis]
  have hd2 : decide (tx_buff2 % (master_frame_width spi_num s).bytes ≠ 0) = false := by
    simp [halign]
  have hmul : (master_frame_width spi_num s).bytes * (tx_len / (master_frame_width spi_num s).bytes)
      = tx_len := Nat.mul_div_cancel' (Nat.dvd_of_mod_eq_zero hlen)
  have hdiv : tx_len / (master_frame_width spi_num s).bytes ≤ 2 ^ 32 :=
    le_trans (Nat.div_le_self _ _) hidx
  obtain ⟨r1, f1⟩ := send_normal_closed c spi_num chip_select tx_buff tx_len v txflr sr s hbus
    ((buffer_frames (master_frame_width spi_num s).bytes s.mem tx_buff
        (tx_len / (master_frame_width spi_num s).bytes)).map fun x =>
      256 ^ (master_frame_width spi_num s).bytes *
        ((v % 2 ^ 32) / 256 ^ (master_frame_width spi_num s).bytes) + x)
    (fun s1 h1 => by
      rw [hd1, send_loop_misaligned_zero _ hfw _ _ _ _ _ _ hlen hidx, h1])
  obtain ⟨r2, f2⟩ := send_normal_closed c spi_num chip_select tx_buff2 tx_len v2 txflr sr
    (master_set_mem mem2 s) hbus
    (buffer_frames (master_frame_width spi_num s).bytes s.mem tx_buff
        (tx_len / (master_frame_width spi_num s).bytes))
    (fun s1 h1 => by
      have hw : master_frame_width spi_num (master_set_mem mem2 s) = master_frame_width spi_num s :=
        rfl
      have hm : s1.mem = mem2 := h1
      rw [hw, hd2, send_loop_aligned_zero _ _ _ _ _ _ _ hlen hdiv, hm,
        buffer_frames_congr _ mem2 s.mem tx_buff2 tx_buff _ (by rw [hmul]; exact hbytes)])
  have hw2 : master_frame_width spi_num (master_set_mem mem2 s) = master_frame_width spi_num s :=
    rfl
  rw [hw2] at r2
  refine ⟨r1.trans r2.symm, fun t1 t2 h1 h2 => ?_, fun hr hn hw => ?_⟩
  · have g1 := (f1 t1 h1).1
    have g2 : dr_writes spi_num t2.log = dr_writes spi_num s.log ++ _ := (f2 t2 h2).1
    refine ⟨g2, g1, ?_, fun h => ?_⟩
    · rw [g1, g2, List.map_append, List.map_append, map_mod_scratch]
    · have hz : (v % 2 ^ 32) / 256 ^ (master_frame_width spi_num s).bytes = 0 := by
        have hv : v % 2 ^ 32 < 2 ^ 32 := Nat.mod_lt _ (by norm_num)
        cases hcase : master_frame_width spi_num s with
        | SPI_TRANS_CHAR => exact absurd hcase hfw
        | SPI_TRANS_SHORT =>
          rcases h with h | h
          · rw [hcase] at h
            cases h
          · simp only [spi_transfer_width_t.bytes]
            norm_num
            omega
        | SPI_TRANS_INT =>
          simp only [spi_transfer_width_t.bytes]
          norm_num
      rw [g1, g2, hz]
      simp
  · obtain ⟨rest, hrest⟩ := send_rest_some _ (bytes_cases _) txflr tx_len hr hlen hn
    exact r1.mpr ⟨⟨rest, hrest⟩, hw⟩

/-- Counterexample for C20 as stated: at HalfWord width, with the scratch word
holding 0xFFFF0000 on entry, the run on the misaligned buffer at 1001 writes
values with the upper half set, the run on the same four bytes in an aligned
buffer at 1000 writes the two half words. -/
theorem send_normal_misaligned_counterexample :
    master_frame_width 0 (master_configured 0 16) = .SPI_TRANS_SHORT ∧
    (∀ k, k < 4 → (fun a => master_reset.mem (a + 1)) (1000 + k) % 256 = (master_configured 0
        16).mem (1001 + k) % 256) ∧
    (spi_send_data_normal spi_h 0 1 1001 4 0xFFFF0000 [0] [4] (master_configured 0 16)).state?.map
        (fun t => dr_writes 0 t.log) = some [4294965752, 4294902010] ∧
    (spi_send_data_normal spi_h 0 1 1000 4 0 [0] [4]
        (master_set_mem (fun a => master_reset.mem (a + 1)) (master_configured 0 16))).state?.map
        (fun t => dr_writes 0 t.log) = some [63992, 250] := by
  decide

/-- Witness for C20: the two runs of the counterexample. -/
theorem send_normal_misaligned_witness :
    spi_h.master_bus 0 ∧ 1001 % (master_frame_width 0 (master_configured 0 16)).bytes ≠ 0 ∧
    1000 % (master_frame_width 0 (master_configured 0 16)).bytes = 0 ∧
    4 % (master_frame_width 0 (master_configured 0 16)).bytes = 0 ∧ 4 ≤ 2 ^ 32 ∧
    (∀ k, k < 4 → (fun a => master_reset.mem (a + 1)) (1000 + k) % 256 = (master_configured 0
        16).mem (1001 + k) % 256) ∧
    ((∃ t1, spi_send_data_normal spi_h 0 1 1001 4 0xFFFF0000 [0] [4] (master_configured 0 16) =
        .returned t1) ↔
      (∃ t2, spi_send_data_normal spi_h 0 1 1000 4 0 [0] [4]
        (master_set_mem (fun a => master_reset.mem (a + 1)) (master_configured 0 16)) = .returned
            t2)) ∧
    (∀ t1 t2,
      spi_send_data_normal spi_h 0 1 1001 4 0xFFFF0000 [0] [4] (master_configured 0 16) =
          .returned t1 →
      spi_send_data_normal spi_h 0 1 1000 4 0 [0] [4]
        (master_set_mem (fun a => master_reset.mem (a + 1)) (master_configured 0 16)) = .returned
            t2 →
      dr_writes 0 t2.log
        = dr_writes 0 (master_configured 0 16).log ++
            buffer_frames (master_frame_width 0 (master_configured 0 16)).bytes (master_configured
                0 16).mem 1001
              (4 / (master_frame_width 0 (master_configured 0 16)).bytes) ∧
      dr_writes 0 t1.log
        = dr_writes 0 (master_configured 0 16).log ++
            (buffer_frames (master_frame_width 0 (master_configured 0 16)).bytes
                (master_configured 0 16).mem 1001
              (4 / (master_frame_width 0 (master_configured 0 16)).bytes)).map (fun x =>
                256 ^ (master_frame_width 0 (master_configured 0 16)).bytes *
                  ((0xFFFF0000 % 2 ^ 32) / 256 ^ (master_frame_width 0 (master_configured 0
                      16)).bytes) + x) ∧
      (dr_writes 0 t1.log).map (fun x => x % 256 ^ (master_frame_width 0 (master_configured 0
          16)).bytes)
        = (dr_writes 0 t2.log).map (fun x => x % 256 ^ (master_frame_width 0 (master_configured 0
            16)).bytes) ∧
      ((master_frame_width 0 (master_configured 0 16) = .SPI_TRANS_INT ∨ 0xFFFF0000 % 2 ^ 32 <
          65536) →
        dr_writes 0 t1.log = dr_writes 0 t2.log)) ∧
    ((∀ r ∈ [0], r ≤ 28) → 4 ≤ [0].length → wait_idle [4] = true →
      ∃ t1, spi_send_data_normal spi_h 0 1 1001 4 0xFFFF0000 [0] [4] (master_configured 0 16) =
          .returned t1) :=
  ⟨by decide, by decide, by decide, by decide, by decide, by decide,
    send_normal_misaligned spi_h 0 1 1001 1000 4 0xFFFF0000 0 [0] [4] (master_configured 0 16)
      (fun a => master_reset.mem (a + 1)) (by decide) (by decide) (by decide) (by decide) (by
          decide)
      (by decide)⟩

/-! ## The command-prefixed send -/

theorem push_aligned_writes (w spi_num buff n i : Nat) (s : MasterState) :
    ∃ vals : List Nat, (push_aligned w spi_num buff n i s).2
      = append_log (vals.map (MasterEvent.dr_write spi_num)) s := by
  induction n generalizing i s with
  | zero => exact ⟨[], by simp [push_aligned, append_log_nil]⟩
  | succ n ih =>
    obtain ⟨vals, h⟩ := ih (u32_add i 1) (write_dr spi_num (load_le s.mem (buff + w * i) w) s)
    refine ⟨load_le s.mem (buff + w * i) w :: vals, ?_⟩
    rw [push_aligned, h, write_dr_eq, append_log_append]
    rfl

theorem push_misaligned_writes (w spi_num buff n i v : Nat) (s : MasterState) :
    ∃ vals : List Nat, (push_misaligned w spi_num buff n i v s).2.2
      = append_log (vals.map (MasterEvent.dr_write spi_num)) s := by
  induction n generalizing i v s with
  | zero => exact ⟨[], by simp [push_misaligned, append_log_nil]⟩
  | succ n ih =>
    obtain ⟨vals, h⟩ := ih (u32_add i w) (memcpy_scratch w (load_le s.mem (buff + i) w) v)
      (write_dr spi_num (memcpy_scratch w (load_le s.mem (buff + i) w) v) s)
    refine ⟨memcpy_scratch w (load_le s.mem (buff + i) w) v :: vals, ?_⟩
    rw [push_misaligned, h, write_dr_eq, append_log_append]
    rfl

theorem send_chunk_writes (fw : spi_transfer_width_t) (misalign : Bool)
    (spi_num buff f i v : Nat) (s : MasterState) :
    ∃ vals : List Nat, (send_chunk fw misalign spi_num buff f i v s).2.2.2
      = append_log (vals.map (MasterEvent.dr_write spi_num)) s := by
  cases fw <;> cases misalign <;> simp only [send_chunk, if_true, Bool.false_eq_true, if_false]
  all_goals first
    | exact push_aligned_writes _ _ _ _ _ _
    | exact push_misaligned_writes _ _ _ _ _ _ _

/-- Whatever the alignment and the length, the send loop only appends writes to
the data register. -/
theorem send_loop_writes (fw : spi_transfer_width_t) (misalign : Bool) (spi_num buff : Nat)
    (txflr : List Nat) (tx_len i v : Nat) (s : MasterState) (rest : List Nat) (t : MasterState)
    (h : send_loop fw misalign spi_num buff txflr tx_len i v s = some (rest, t)) :
    ∃ vals : List Nat, t = append_log (vals.map (MasterEvent.dr_write spi_num)) s := by
  induction txflr generalizing tx_len i v s with
  | nil =>
    by_cases h0 : tx_len = 0
    · rw [send_loop, if_pos h0] at h
      cases h
      exact ⟨[], by simp [append_log_nil]⟩
    · rw [send_loop, if_neg h0] at h
      cases h
  | cons r rs ih =>
    by_cases h0 : tx_len = 0
    · rw [send_loop, if_pos h0] at h
      cases h
      exact ⟨[], by simp [append_log_nil]⟩
    · rw [send_loop, if_neg h0] at h
      simp only [] at h
      obtain ⟨v1, h1⟩ := send_chunk_writes fw misalign spi_num buff
        (if fifo_free r < tx_len then fifo_free r else tx_len) i v s
      obtain ⟨v2, h2⟩ := ih _ _ _ _ h
      refine ⟨v1 ++ v2, ?_⟩
      rw [h2, h1, append_log_append, List.map_append]

/-- The log of a returning `spi_send_data_normal`, whatever the alignment and
the length: the mode write, controller enable, chip select, writes to the data
register, chip-select release, controller disable. -/
theorem send_normal_log (c : SpiHeader) (spi_num chip_select tx_buff tx_len v : Nat)
    (txflr sr : List Nat) (s t : MasterState) (hbus : c.master_bus spi_num)
    (h : spi_send_data_normal c spi_num chip_select tx_buff tx_len v txflr sr s = .returned t) :
    ∃ (x : Nat) (vals : List Nat), t.log = s.log ++
      ([.reg_write spi_num .ctrlr0 x,
        .reg_write spi_num .ssienr 0x01,
        .reg_write spi_num .ser ((1 <<< chip_select) % 2 ^ 32)] ++
        vals.map (MasterEvent.dr_write spi_num)) ++
      [.reg_write spi_num .ser 0x00, .reg_write spi_num .ssienr 0x00] := by
  rw [send_normal_unfold c spi_num chip_select tx_buff tx_len v txflr sr s hbus] at h
  cases hl : send_loop (master_frame_width spi_num s)
      (decide (tx_buff % (master_frame_width spi_num s).bytes ≠ 0)) spi_num tx_buff txflr tx_len 0
      v (write_reg spi_num .ser ((1 <<< chip_select) % 2 ^ 32)
        (write_reg spi_num .ssienr 1
          (write_reg spi_num .ctrlr0
            (spi_set_tmod spi_num c.SPI_TMOD_TRANS (s.regs spi_num .ctrlr0)) s))) with
  | none =>
    rw [hl] at h
    cases h
  | some p =>
    obtain ⟨rest, t1⟩ := p
    rw [hl] at h
    simp only [] at h
    by_cases hw : wait_idle sr = true
    · rw [if_pos hw] at h
      cases h
      obtain ⟨vals, hv⟩ := send_loop_writes _ _ _ _ _ _ _ _ _ _ _ hl
      refine ⟨spi_set_tmod spi_num c.SPI_TMOD_TRANS (s.regs spi_num .ctrlr0), vals, ?_⟩
      rw [hv]
      simp [write_reg_log, append_log_log]
    · rw [if_neg hw] at h
      cases h

theorem push_words_eq (spi_num n p : Nat) (s : MasterState) :
    push_words spi_num n p s
      = (p + 4 * n,
         append_log ((List.range n).map fun k =>
           MasterEvent.dr_write spi_num (load_le s.mem (p + 4 * k) 4)) s) := by
  induction n generalizing p s with
  | zero =>
    simp only [push_words, List.range_zero, List.map_nil, append_log_nil, Nat.mul_zero,
      Nat.add_zero]
  | succ n ih =>
    rw [push_words, ih, write_dr_eq, append_log_append, range_succ_map_shift]
    have e : p + 4 + 4 * n = p + 4 * (n + 1) := by omega
    rw [e]
    congr 2
    simp only [Nat.mul_zero, Nat.add_zero, List.cons_append, List.nil_append, List.cons.injEq,
      true_and]
    apply List.map_congr_left
    intro k _
    have e3 : p + 4 + 4 * k = p + 4 * (k + 1) := by omega
    rw [e3]
    rfl

/-- The command loop of `spi_send_data_multiple` in closed form: when the
readings let it finish, it has written the `v_cmd_len / 4` words at
`cmd_buff`. -/
theorem send_cmd_loop_eq (spi_num : Nat) (txflr : List Nat) (v_cmd_len p : Nat)
    (s : MasterState) (hlen : v_cmd_len % 4 = 0) :
    send_cmd_loop spi_num txflr v_cmd_len p s
      = (send_rest 4 txflr v_cmd_len).map fun rest =>
          (rest, append_log ((List.range (v_cmd_len / 4)).map fun k =>
            MasterEvent.dr_write spi_num (load_le s.mem (p + 4 * k) 4)) s) := by
  induction txflr generalizing v_cmd_len p s with
  | nil =>
    by_cases h0 : v_cmd_len = 0
    · subst h0
      simp [send_cmd_loop, send_rest, append_log_nil]
    · simp [send_cmd_loop, send_rest, h0]
  | cons r rest ih =>
    by_cases h0 : v_cmd_len = 0
    · subst h0
      simp [send_cmd_loop, send_rest, append_log_nil]
    · have hf := min_le_len (fifo_free r) v_cmd_len
      obtain ⟨a1, a2, a3⟩ := chunk_arith 4 v_cmd_len _ (Or.inr (Or.inr rfl)) hlen hf
      rw [send_cmd_loop, if_neg h0, send_rest, if_neg h0]
      simp only []
      rw [a3, push_words_eq]
      simp only []
      rw [ih _ _ _ a1]
      congr 1
      funext rest2
      rw [append_log_append, ← a2, range_add_map]
      simp only [Nat.mul_add, Nat.add_assoc]
      rfl

/-- The statements of `spi_send_data_multiple` on a master bus: the prologue,
the command words, then `spi_send_data_normal` with the readings left over. -/
theorem send_multiple_unfold (c : SpiHeader)
    (spi_num chip_select cmd_buff cmd_len tx_buff tx_len v : Nat) (txflr sr : List Nat)
    (s : MasterState) (hbus : c.master_bus spi_num) (hcmd : cmd_len < 2 ^ 62) :
    spi_send_data_multiple c spi_num chip_select cmd_buff cmd_len tx_buff tx_len v txflr sr s
      = match send_rest 4 txflr (4 * cmd_len) with
        | none =>
          .stalled
            (s |> write_reg spi_num .ctrlr0
                    (spi_set_tmod spi_num c.SPI_TMOD_TRANS (s.regs spi_num .ctrlr0))
               |> write_reg spi_num .ssienr 0x01
               |> write_reg spi_num .ser ((1 <<< chip_select) % 2 ^ 32))
        | some rest =>
          spi_send_data_normal c spi_num chip_select tx_buff tx_len v rest sr
            (append_log
              ((buffer_frames 4 s.mem cmd_buff cmd_len).map (MasterEvent.dr_write spi_num))
              (s |> write_reg spi_num .ctrlr0
                      (spi_set_tmod spi_num c.SPI_TMOD_TRANS (s.regs spi_num .ctrlr0))
                 |> write_reg spi_num .ssienr 0x01
                 |> write_reg spi_num .ser ((1 <<< chip_select) % 2 ^ 32))) := by
  have h1 : spi_num < c.SPI_DEVICE_MAX ∧ spi_num ≠ 2 := hbus
  have e : (cmd_len * 4) % 2 ^ 64 = 4 * cmd_len := by omega
  have e4 : 4 * cmd_len / 4 = cmd_len := by omega
  unfold spi_send_data_multiple master_set_tmod
  rw [if_neg (not_not.mpr h1), if_neg (not_not.mpr h1.1)]
  simp only []
  rw [e, send_cmd_loop_eq _ _ _ _ _ (by omega), e4]
  cases send_rest 4 txflr (4 * cmd_len) with
  | none => rfl
  | some rest =>
    simp only [Option.map_some', buffer_frames, List.map_map]
    rfl

theorem send_rest_some_rest (w : Nat) (hw : w = 1 ∨ w = 2 ∨ w = 4) (txflr : List Nat)
    (tx_len : Nat) (hr : ∀ r ∈ txflr, r ≤ 28) (hlen : tx_len % w = 0)
    (hn : tx_len ≤ txflr.length) :
    ∃ rest, send_rest w txflr tx_len = some rest ∧ (∀ r ∈ rest, r ≤ 28) ∧
      txflr.length - tx_len ≤ rest.length := by
  induction txflr generalizing tx_len with
  | nil =>
    have h0 : tx_len = 0 := by simpa using hn
    exact ⟨[], by simp [send_rest, h0], by simp, by simp⟩
  | cons r rest ih =>
    by_cases h0 : tx_len = 0
    · exact ⟨r :: rest, by simp [send_rest, h0], hr, by omega⟩
    · have hfree := fifo_free_ge r (hr r (List.mem_cons_self _ _))
      have hf := min_le_len (fifo_free r) tx_len
      obtain ⟨a1, -, -⟩ := chunk_arith w tx_len _ hw hlen hf
      have hlen2 : List.length (r :: rest) = rest.length + 1 := rfl
      have hprog : tx_len - (if fifo_free r < tx_len then fifo_free r else tx_len) / w * w
          ≤ tx_len - 1 := by
        rcases hw with rfl | rfl | rfl <;> split_ifs <;> omega
      rw [hlen2] at hn
      obtain ⟨rest2, e, g1, g2⟩ :=
        ih _ (fun x hx => hr x (List.mem_cons_of_mem _ hx)) a1 (by omega)
      refine ⟨rest2, ?_, g1, ?_⟩
      · rw [send_rest, if_neg h0]
        exact e
      · rw [hlen2]
        omega

theorem chip_select_ne_zero (chip_select : Nat) (h : chip_select < 32) :
    (1 <<< chip_select) % 2 ^ 32 ≠ 0 := by
  have hlt : 2 ^ chip_select < 2 ^ 32 := Nat.pow_lt_pow_right (by decide) h
  have hpos : 0 < 2 ^ chip_select := Nat.pos_pow_of_pos _ (by decide)
  rw [Nat.shiftLeft_eq, Nat.one_mul, Nat.mod_eq_of_lt hlt]
  omega

/-- The frame width read back after the prologue of a send routine and after
writes to the data register is the one read on entry. -/
theorem frame_width_after_prologue (spi_num tmod a b : Nat) (es : List MasterEvent)
    (s : MasterState) :
    master_frame_width spi_num
        (append_log es
          (s |> write_reg spi_num .ctrlr0 (spi_set_tmod spi_num tmod (s.regs spi_num .ctrlr0))
             |> write_reg spi_num .ssienr a
             |> write_reg spi_num .ser b))
      = master_frame_width spi_num s := by
  rw [← frame_width_after_set_tmod spi_num tmod s]
  unfold master_frame_width
  simp [write_reg_regs, append_log_regs]

theorem ser_zero_not_mem (spi_num x cs : Nat) (hcs : cs ≠ 0) (vals : List Nat) :
    MasterEvent.reg_write spi_num .ser 0x00 ∉
      ([.reg_write spi_num .ctrlr0 x, .reg_write spi_num .ssienr 0x01,
        .reg_write spi_num .ser cs] ++ vals.map (MasterEvent.dr_write spi_num)) := by
  intro h
  rcases List.mem_append.mp h with h | h
  · simp at h
    exact hcs h.symm
  · obtain ⟨a, -, ha⟩ := List.mem_map.mp h
    cases ha

/-- C15. On a master bus, with a chip-select line below 32 and fewer than
`2 ^ 62` command words, for every sequence of readings: when
`spi_send_data_multiple` returns in `t`, then `t` is the state in which
`spi_send_data_normal` returns for the data buffer, started with the readings
left over in a state whose data-register history is that of entry followed by
the `cmd_len` command words in order; the values written after the command
words are those written by that run, and between entry and the final release no
write of 0 to the chip-select register occurs. For an aligned data buffer of a
whole number of frames the values written are the command words followed by the
frames of the buffer, and the routine does return when every reading leaves
four free entries and there is a reading per byte to push. -/
theorem send_multiple_frames (c : SpiHeader)
    (spi_num chip_select cmd_buff cmd_len tx_buff tx_len v : Nat) (txflr sr : List Nat)
    (s : MasterState) (hbus : c.master_bus spi_num) (hcs : chip_select < 32)
    (hcmd : cmd_len < 2 ^ 62) :
    (∀ t, spi_send_data_multiple c spi_num chip_select cmd_buff cmd_len tx_buff tx_len v txflr sr
        s = .returned t →
      ∃ (txflr2 : List Nat) (s_mid : MasterState) (data : List Nat) (mid : List MasterEvent),
        spi_send_data_normal c spi_num chip_select tx_buff tx_len v txflr2 sr s_mid
          = .returned t ∧
        s_mid.mem = s.mem ∧
        master_frame_width spi_num s_mid = master_frame_width spi_num s ∧
        dr_writes spi_num s_mid.log
          = dr_writes spi_num s.log ++ buffer_frames 4 s.mem cmd_buff cmd_len ∧
        dr_writes spi_num t.log = dr_writes spi_num s_mid.log ++ data ∧
        t.log = s.log ++ mid ++ [.reg_write spi_num .ser 0x00, .reg_write spi_num .ssienr 0x00] ∧
        MasterEvent.reg_write spi_num .ser 0x00 ∉ mid) ∧
    (tx_buff % (master_frame_width spi_num s).bytes = 0 →
      tx_len % (master_frame_width spi_num s).bytes = 0 →
      tx_len / (master_frame_width spi_num s).bytes ≤ 2 ^ 32 →
      (∀ t, spi_send_data_multiple c spi_num chip_select cmd_buff cmd_len tx_buff tx_len v txflr
          sr s = .returned t →
        dr_writes spi_num t.log
          = dr_writes spi_num s.log ++ buffer_frames 4 s.mem cmd_buff cmd_len ++
              buffer_frames (master_frame_width spi_num s).bytes s.mem tx_buff
                (tx_len / (master_frame_width spi_num s).bytes)) ∧
      ((∀ r ∈ txflr, r ≤ 28) → 4 * cmd_len + tx_len ≤ txflr.length → wait_idle sr = true →
        ∃ t, spi_send_data_multiple c spi_num chip_select cmd_buff cmd_len tx_buff tx_len v
          txflr sr s = .returned t)) := by
  have hcs0 := chip_select_ne_zero chip_select hcs
  obtain ⟨smid, hsmid⟩ : ∃ smid, smid
      = append_log ((buffer_frames 4 s.mem cmd_buff cmd_len).map (MasterEvent.dr_write spi_num))
          (s |> write_reg spi_num .ctrlr0
                  (spi_set_tmod spi_num c.SPI_TMOD_TRANS (s.regs spi_num .ctrlr0))
             |> write_reg spi_num .ssienr 0x01
             |> write_reg spi_num .ser ((1 <<< chip_select) % 2 ^ 32)) := ⟨_, rfl⟩
  have hun : spi_send_data_multiple c spi_num chip_select cmd_buff cmd_len tx_buff tx_len v txflr
      sr s = match send_rest 4 txflr (4 * cmd_len) with
        | none =>
          .stalled
            (s |> write_reg spi_num .ctrlr0
                    (spi_set_tmod spi_num c.SPI_TMOD_TRANS (s.regs spi_num .ctrlr0))
               |> write_reg spi_num .ssienr 0x01
               |> write_reg spi_num .ser ((1 <<< chip_select) % 2 ^ 32))
        | some rest => spi_send_data_normal c spi_num chip_select tx_buff tx_len v rest sr smid :=
            by
    rw [hsmid]
    exact send_multiple_unfold c spi_num chip_select cmd_buff cmd_len tx_buff tx_len v txflr sr s
      hbus hcmd
  have hwid : master_frame_width spi_num smid = master_frame_width spi_num s := by
    rw [hsmid]
    exact frame_width_after_prologue spi_num c.SPI_TMOD_TRANS 0x01 ((1 <<< chip_select) % 2 ^ 32)
      ((buffer_frames 4 s.mem cmd_buff cmd_len).map (MasterEvent.dr_write spi_num)) s
  have hmem : smid.mem = s.mem := by
    rw [hsmid]
    rfl
  have hmidlog : smid.log = s.log ++
      ([.reg_write spi_num .ctrlr0
          (spi_set_tmod spi_num c.SPI_TMOD_TRANS (s.regs spi_num .ctrlr0)),
        .reg_write spi_num .ssienr 0x01,
        .reg_write spi_num .ser ((1 <<< chip_select) % 2 ^ 32)] ++
        (buffer_frames 4 s.mem cmd_buff cmd_len).map (MasterEvent.dr_write spi_num)) := by
    rw [hsmid]
    simp only [write_reg_log, append_log_log, List.append_assoc, List.cons_append,
      List.nil_append]
  have hdr : dr_writes spi_num smid.log
      = dr_writes spi_num s.log ++ buffer_frames 4 s.mem cmd_buff cmd_len := by
    rw [hmidlog]
    simp only [dr_writes_append, dr_writes_map]
    simp [dr_writes]
  refine ⟨fun t ht => ?_, fun halign hlen hidx => ?_⟩
  · rw [hun] at ht
    cases hrest : send_rest 4 txflr (4 * cmd_len) with
    | none =>
      rw [hrest] at ht
      cases ht
    | some rest =>
      rw [hrest] at ht
      simp only [] at ht
      obtain ⟨x, vals, hlog⟩ := send_normal_log c spi_num chip_select tx_buff tx_len v rest sr
        smid t hbus ht
      refine ⟨rest, smid, vals,
        ([.reg_write spi_num .ctrlr0
            (spi_set_tmod spi_num c.SPI_TMOD_TRANS (s.regs spi_num .ctrlr0)),
          .reg_write spi_num .ssienr 0x01,
          .reg_write spi_num .ser ((1 <<< chip_select) % 2 ^ 32)] ++
          (buffer_frames 4 s.mem cmd_buff cmd_len).map (MasterEvent.dr_write spi_num)) ++
        ([.reg_write spi_num .ctrlr0 x, .reg_write spi_num .ssienr 0x01,
          .reg_write spi_num .ser ((1 <<< chip_select) % 2 ^ 32)] ++
          vals.map (MasterEvent.dr_write spi_num)),
        ht, hmem, hwid, hdr, ?_, ?_, ?_⟩
      · rw [hlog]
        simp only [dr_writes_append, dr_writes_map, List.append_assoc]
        simp [dr_writes]
      · rw [hlog, hmidlog]
        simp only [List.append_assoc]
      · intro h
        rcases List.mem_append.mp h with h | h
        · exact ser_zero_not_mem _ _ _ hcs0 _ h
        · exact ser_zero_not_mem _ _ _ hcs0 _ h
  · have hd : decide (tx_buff % (master_frame_width spi_num smid).bytes ≠ 0) = false := by
      rw [hwid]
      simp [halign]
    refine ⟨fun t ht => ?_, fun hr hn hw => ?_⟩
    · rw [hun] at ht
      cases hrest : send_rest 4 txflr (4 * cmd_len) with
      | none =>
        rw [hrest] at ht
        cases ht
      | some rest =>
        rw [hrest] at ht
        simp only [] at ht
        obtain ⟨-, f⟩ := send_normal_closed c spi_num chip_select tx_buff tx_len v rest sr smid
          hbus
          (buffer_frames (master_frame_width spi_num s).bytes s.mem tx_buff
            (tx_len / (master_frame_width spi_num s).bytes))
          (fun s1 h1 => by
            rw [hd, hwid, send_loop_aligned_zero _ _ _ _ _ _ _ hlen hidx, h1, hmem])
        rw [(f t ht).1, hdr]
    · obtain ⟨rest, hrest, g1, g2⟩ := send_rest_some_rest 4 (Or.inr (Or.inr rfl)) txflr
        (4 * cmd_len) hr (by omega) (by omega)
      obtain ⟨rest2, hrest2⟩ := send_rest_some _ (bytes_cases (master_frame_width spi_num s))
        rest tx_len g1 hlen (by omega)
      obtain ⟨r, -⟩ := send_normal_closed c spi_num chip_select tx_buff tx_len v rest sr smid
        hbus
        (buffer_frames (master_frame_width spi_num s).bytes s.mem tx_buff
          (tx_len / (master_frame_width spi_num s).bytes))
        (fun s1 h1 => by
          rw [hd, hwid, send_loop_aligned_zero _ _ _ _ _ _ _ hlen hidx, h1, hmem])
      rw [hun, hrest]
      simp only []
      rw [hwid] at r
      exact r.mpr ⟨⟨rest2, hrest2⟩, hw⟩

/-- Witness for C15: two command words and three data bytes on bus 0 at 8-bit
frames. -/
theorem send_multiple_frames_witness :
    spi_h.master_bus 0 ∧ 1 < 32 ∧ 2 < 2 ^ 62 ∧
    (∀ t, spi_send_data_multiple spi_h 0 1 1000 2 2000 3 0 [0, 0] [4]
        (master_configured 0 8) = .returned t →
      ∃ (txflr2 : List Nat) (s_mid : MasterState) (data : List Nat) (mid : List MasterEvent),
        spi_send_data_normal spi_h 0 1 2000 3 0 txflr2 [4] s_mid
          = .returned t ∧
        s_mid.mem = (master_configured 0 8).mem ∧
        master_frame_width 0 s_mid = master_frame_width 0 (master_configured 0 8) ∧
        dr_writes 0 s_mid.log
          = dr_writes 0 (master_configured 0 8).log ++ buffer_frames 4 (master_configured 0 8).mem
              1000 2 ∧
        dr_writes 0 t.log = dr_writes 0 s_mid.log ++ data ∧
        t.log = (master_configured 0 8).log ++ mid ++ [.reg_write 0 .ser 0x00, .reg_write 0
            .ssienr 0x00] ∧
        MasterEvent.reg_write 0 .ser 0x00 ∉ mid) ∧
    (2000 % (master_frame_width 0 (master_configured 0 8)).bytes = 0 →
      3 % (master_frame_width 0 (master_configured 0 8)).bytes = 0 →
      3 / (master_frame_width 0 (master_configured 0 8)).bytes ≤ 2 ^ 32 →
      (∀ t, spi_send_data_multiple spi_h 0 1 1000 2 2000 3 0 [0, 0]
          [4] (master_configured 0 8) = .returned t →
        dr_writes 0 t.log
          = dr_writes 0 (master_configured 0 8).log ++ buffer_frames 4 (master_configured 0 8).mem
              1000 2 ++
              buffer_frames (master_frame_width 0 (master_configured 0 8)).bytes
                  (master_configured 0 8).mem 2000
                (3 / (master_frame_width 0 (master_configured 0 8)).bytes)) ∧
      ((∀ r ∈ [0, 0], r ≤ 28) → 4 * 2 + 3 ≤ [0, 0].length → wait_idle [4] = true →
        ∃ t, spi_send_data_multiple spi_h 0 1 1000 2 2000 3 0
          [0, 0] [4] (master_configured 0 8) = .returned t)) :=
  ⟨by decide, by decide, by decide,
    send_multiple_frames spi_h 0 1 1000 2 2000 3 0 [0, 0] [4] (master_configured 0 8)
      (by decide) (by decide) (by decide)⟩

/-- The run of the witness for C15 evaluated: the routine returns, having
written the two command words and then the three bytes of the buffer. -/
theorem send_multiple_run :
    (spi_send_data_multiple spi_h 0 1 1000 2 2000 3 0 [0, 0] [4]
        (master_configured 0 8)).state?.map (fun t => dr_writes 0 t.log)
      = some (buffer_frames 4 master_reset.mem 1000 2 ++ buffer_frames 1 master_reset.mem 2000 3)
          := by
  decide

/-! ## The receive routine -/

theorem store_frames_add (w p : Nat) (rx mem : Nat → Nat) (m n : Nat) :
    store_frames w p rx mem (m + n)
      = store_frames w (p + w * m) (fun k => rx (m + k)) (store_frames w p rx mem m) n := by
  induction n with
  | zero => rfl
  | succ n ih =>
    have e : m + (n + 1) = (m + n) + 1 := by omega
    rw [e, store_frames, ih, store_frames, Nat.mul_add, Nat.add_assoc]

theorem store_frames_front (w p : Nat) (rx mem : Nat → Nat) (n : Nat) :
    store_frames w p rx mem (n + 1)
      = store_frames w (p + w) (fun k => rx (1 + k)) (store_le w p (rx 0) mem) n := by
  have h := store_frames_add w p rx mem 1 n
  have e : 1 + n = n + 1 := by omega
  rw [e] at h
  rw [h]
  simp [store_frames]

theorem master_set_mem_twice (m1 m2 : Nat → Nat) (s : MasterState) :
    master_set_mem m2 (master_set_mem m1 s) = master_set_mem m2 s := rfl

theorem master_set_mem_self (s : MasterState) : master_set_mem s.mem s = s := by
  cases s
  rfl

/-- The drain push loop in closed form: `n` reads of the data register stored
in consecutive elements. -/
theorem pull_frames_eq (w rx_buff : Nat) (dr : Nat → Nat) (n idx pos : Nat) (s : MasterState)
    (h : idx + n ≤ 2 ^ 32) :
    pull_frames w rx_buff dr n (idx % 2 ^ 32) pos s
      = ((idx + n) % 2 ^ 32, pos + n,
         master_set_mem
           (store_frames w (rx_buff + w * idx) (fun k => dr (pos + k)) s.mem n) s) := by
  induction n generalizing idx pos s with
  | zero =>
    simp only [pull_frames, store_frames, master_set_mem_self, Nat.add_zero]
  | succ n ih =>
    have e : idx % 2 ^ 32 = idx := mod_u32_of_succ_le idx n h
    rw [pull_frames, e]
    unfold u32_add
    rw [ih (idx + 1) (pos + 1) _ (by omega), master_set_mem_twice, store_frames_front]
    have e1 : idx + 1 + n = idx + (n + 1) := by omega
    have e2 : pos + 1 + n = pos + (n + 1) := by omega
    have e3 : rx_buff + w * (idx + 1) = rx_buff + w * idx + w := by
      rw [Nat.mul_add, Nat.mul_one, Nat.add_assoc]
    rw [e1, e2, e3]
    simp only [master_set_mem_mem, Nat.add_zero, Nat.add_assoc]
    rfl

/-- The drain loop in closed form. -/
theorem drain_loop_eq (w rx_buff : Nat) (dr : Nat → Nat) (rxflr : List Nat)
    (n idx pos : Nat) (s : MasterState) (h : idx + n ≤ 2 ^ 32) :
    drain_loop w rx_buff dr rxflr n (idx % 2 ^ 32) pos s
      = if drain_done rxflr n then
          some (master_set_mem
            (store_frames w (rx_buff + w * idx) (fun k => dr (pos + k)) s.mem n) s)
        else none := by
  induction rxflr generalizing n idx pos s with
  | nil =>
    by_cases h0 : n = 0
    · subst h0
      simp [drain_loop, drain_done, store_frames, master_set_mem_self]
    · simp [drain_loop, drain_done, h0]
  | cons r rest ih =>
    by_cases h0 : n = 0
    · subst h0
      simp [drain_loop, drain_done, store_frames, master_set_mem_self]
    · have hf := min_le_len (r % 2 ^ 32) n
      rw [drain_loop, if_neg h0, drain_done, if_neg h0]
      simp only []
      rw [pull_frames_eq w rx_buff dr _ idx pos s (by omega)]
      simp only []
      rw [ih _ _ _ _ (by omega)]
      have e : (if r % 2 ^ 32 < n then r % 2 ^ 32 else n)
          + (n - (if r % 2 ^ 32 < n then r % 2 ^ 32 else n)) = n := by omega
      congr 2
      rw [master_set_mem_twice]
      congr 1
      conv_rhs => rw [← e, store_frames_add]
      simp only [master_set_mem_mem, Nat.mul_add, Nat.add_assoc]
      rfl

theorem drain_done_of_progress (rxflr : List Nat) (n : Nat)
    (hr : ∀ r ∈ rxflr, 1 ≤ r ∧ r ≤ 32) (hn : n ≤ rxflr.length) : drain_done rxflr n = true := by
  induction rxflr generalizing n with
  | nil =>
    have h0 : n = 0 := by simpa using hn
    simp [drain_done, h0]
  | cons r rest ih =>
    by_cases h0 : n = 0
    · simp [drain_done, h0]
    · have hr1 := hr r (List.mem_cons_self _ _)
      have e : r % 2 ^ 32 = r := Nat.mod_eq_of_lt (by omega)
      have hlen2 : List.length (r :: rest) = rest.length + 1 := rfl
      rw [hlen2] at hn
      rw [drain_done, if_neg h0, e]
      apply ih _ (fun x hx => hr x (List.mem_cons_of_mem _ hx))
      split_ifs <;> omega

theorem dr_writes_map_fun (spi_num : Nat) (f : Nat → Nat) (l : List Nat) :
    dr_writes spi_num (l.map fun k => MasterEvent.dr_write spi_num (f k)) = l.map f := by
  rw [← dr_writes_map spi_num (l.map f), List.map_map]
  rfl

/-- The command loop of `spi_receive_data_standard`: when it ends, memory is as
before, the data register has received the `n` command frames in order, and
only the chip-select register has been written; it ends when the skeleton of
the loop does. -/
theorem recv_cmd_loop_spec (w spi_num chip_select buff : Nat) (txflr : List Nat)
    (n idx : Nat) (s : MasterState) (h : idx + n ≤ 2 ^ 32) :
    (∀ t, recv_cmd_loop w spi_num chip_select buff txflr n (idx % 2 ^ 32) s = some t →
      t.mem = s.mem ∧
      dr_writes spi_num t.log
        = dr_writes spi_num s.log ++
            (List.range n).map (fun k => load_le s.mem (buff + w * (idx + k)) w) ∧
      ∀ r, r ≠ SpiReg.ser → t.regs spi_num r = s.regs spi_num r) ∧
    ((∃ rest, send_rest 1 txflr n = some rest) →
      ∃ t, recv_cmd_loop w spi_num chip_select buff txflr n (idx % 2 ^ 32) s = some t) := by
  induction txflr generalizing n idx s with
  | nil =>
    by_cases h0 : n = 0
    · subst h0
      refine ⟨fun t ht => ?_, fun _ => ⟨s, by simp [recv_cmd_loop]⟩⟩
      simp only [recv_cmd_loop, if_true, Option.some.injEq] at ht
      subst ht
      simp
    · refine ⟨fun t ht => ?_, fun hs => ?_⟩
      · simp [recv_cmd_loop, h0] at ht
      · obtain ⟨rest, hr⟩ := hs
        simp [send_rest, h0] at hr
  | cons r rest ih =>
    by_cases h0 : n = 0
    · subst h0
      refine ⟨fun t ht => ?_, fun _ => ⟨s, by simp [recv_cmd_loop]⟩⟩
      simp only [recv_cmd_loop, if_true, Option.some.injEq] at ht
      subst ht
      simp
    · have hf := min_le_len (fifo_free r) n
      have e : (if fifo_free r < n then fifo_free r else n)
          + (n - (if fifo_free r < n then fifo_free r else n)) = n := by omega
      have hstep : recv_cmd_loop w spi_num chip_select buff (r :: rest) n (idx % 2 ^ 32) s
          = recv_cmd_loop w spi_num chip_select buff rest
              (n - (if fifo_free r < n then fifo_free r else n))
              ((idx + (if fifo_free r < n then fifo_free r else n)) % 2 ^ 32)
              (write_reg spi_num .ser ((1 <<< chip_select) % 2 ^ 32)
                (append_log ((List.range (if fifo_free r < n then fifo_free r else n)).map
                  fun k => MasterEvent.dr_write spi_num
                    (load_le s.mem (buff + w * (idx + k)) w)) s)) := by
        rw [recv_cmd_loop, if_neg h0]
        simp only []
        rw [push_aligned_eq w spi_num buff _ idx s (by omega)]
      obtain ⟨i1, i2⟩ := ih (n - (if fifo_free r < n then fifo_free r else n))
        (idx + (if fifo_free r < n then fifo_free r else n))
        (write_reg spi_num .ser ((1 <<< chip_select) % 2 ^ 32)
          (append_log ((List.range (if fifo_free r < n then fifo_free r else n)).map
            fun k => MasterEvent.dr_write spi_num (load_le s.mem (buff + w * (idx + k)) w)) s))
        (by omega)
      rw [hstep]
      refine ⟨fun t ht => ?_, fun hs => ?_⟩
      · obtain ⟨g1, g2, g3⟩ := i1 t ht
        refine ⟨g1, ?_, fun q hq => ?_⟩
        · rw [g2]
          conv_rhs => rw [← e, range_add_map]
          simp only [write_reg_log, append_log_log, dr_writes_append, dr_writes_reg,
            dr_writes_map_fun, List.append_nil, List.append_assoc, Nat.add_assoc]
          rfl
        · rw [g3 q hq]
          simp [write_reg_regs, append_log_regs, hq]
      · apply i2
        obtain ⟨rest2, hr⟩ := hs
        rw [send_rest, if_neg h0] at hr
        simp only [Nat.div_one, Nat.mul_one] at hr
        exact ⟨rest2, hr⟩

/-- The statements of `spi_receive_data_standard` on a master bus: prologue,
command loop, filler word, drain loop, epilogue. -/
theorem recv_standard_unfold (c : SpiHeader)
    (spi_num chip_select cmd_buff cmd_len rx_buff rx_len : Nat) (txflr rxflr : List Nat)
    (dr : Nat → Nat) (s : MasterState) (hbus : c.master_bus spi_num) :
    spi_receive_data_standard c spi_num chip_select cmd_buff cmd_len rx_buff rx_len txflr rxflr
        dr s
      = match recv_cmd_loop (master_frame_width spi_num s).bytes spi_num chip_select cmd_buff
            txflr (cmd_len / (master_frame_width spi_num s).bytes) 0
            (s |> write_reg spi_num .ctrlr0
                    (spi_set_tmod spi_num
                      (if cmd_len = 0 then c.SPI_TMOD_RECV else c.SPI_TMOD_EEROM)
                      (s.regs spi_num .ctrlr0))
               |> write_reg spi_num .ctrlr1
                    (u32_dec ((rx_len / (master_frame_width spi_num s).bytes) % 2 ^ 32))
               |> write_reg spi_num .ssienr 0x01) with
        | none =>
          .stalled
            (s |> write_reg spi_num .ctrlr0
                    (spi_set_tmod spi_num
                      (if cmd_len = 0 then c.SPI_TMOD_RECV else c.SPI_TMOD_EEROM)
                      (s.regs spi_num .ctrlr0))
               |> write_reg spi_num .ctrlr1
                    (u32_dec ((rx_len / (master_frame_width spi_num s).bytes) % 2 ^ 32))
               |> write_reg spi_num .ssienr 0x01)
        | some s1 =>
          match drain_loop (master_frame_width spi_num s).bytes rx_buff dr rxflr
              ((rx_len / (master_frame_width spi_num s).bytes) % 2 ^ 32) 0 0
              (if cmd_len = 0 then
                s1 |> write_dr spi_num 0xffffffff
                   |> write_reg spi_num .ser ((1 <<< chip_select) % 2 ^ 32)
               else s1) with
          | none =>
            .stalled
              (if cmd_len = 0 then
                s1 |> write_dr spi_num 0xffffffff
                   |> write_reg spi_num .ser ((1 <<< chip_select) % 2 ^ 32)
               else s1)
          | some s2 =>
            .returned (s2 |> write_reg spi_num .ser 0x00 |> write_reg spi_num .ssienr 0x00) := by
  have h1 : spi_num < c.SPI_DEVICE_MAX ∧ spi_num ≠ 2 := hbus
  unfold spi_receive_data_standard master_set_tmod
  rw [if_neg (not_not.mpr h1), if_neg (not_not.mpr h1.1)]
  simp only []
  rw [if_neg h1.2, frame_width_after_set_tmod]

theorem u32_dec_of_pos (n : Nat) (h1 : 1 ≤ n) (h2 : n < 2 ^ 32) : u32_dec (n % 2 ^ 32) = n - 1 := by
  unfold u32_dec
  have e : n % 2 ^ 32 = n := Nat.mod_eq_of_lt h2
  rw [e, e, if_neg (by omega)]

/-- C14. On a master bus, with frame width `w`, `rx_len ≥ w`, fewer than
`2 ^ 32` frames to receive and at most `2 ^ 32` command frames (the range of
the 32-bit counters of the source), for every sequence of readings: when
`spi_receive_data_standard` returns, `ctrlr1` holds `rx_len / w - 1`, the
output buffer holds the first `rx_len / w` values read from the data register,
in order, `w` little-endian bytes each, every other byte of memory is as
before, and the values written to the data register are the single word
0xFFFFFFFF when `cmd_len` is 0 and the `cmd_len / w` command frames in order
otherwise. It does return when every reading of the transmit level leaves four
free entries, every reading of the receive level is between 1 and 32, and
there is a reading per frame. -/
theorem receive_standard_frames (c : SpiHeader)
    (spi_num chip_select cmd_buff cmd_len rx_buff rx_len : Nat) (txflr rxflr : List Nat)
    (dr : Nat → Nat) (s : MasterState) (hbus : c.master_bus spi_num)
    (hrx : (master_frame_width spi_num s).bytes ≤ rx_len)
    (hrxb : rx_len / (master_frame_width spi_num s).bytes < 2 ^ 32)
    (hcmdb : cmd_len / (master_frame_width spi_num s).bytes ≤ 2 ^ 32) :
    (∀ t, spi_receive_data_standard c spi_num chip_select cmd_buff cmd_len rx_buff rx_len txflr
        rxflr dr s = .returned t →
      t.regs spi_num .ctrlr1 = rx_len / (master_frame_width spi_num s).bytes - 1 ∧
      (∀ a, t.mem a
        = if rx_buff ≤ a ∧
              a < rx_buff + (master_frame_width spi_num s).bytes *
                (rx_len / (master_frame_width spi_num s).bytes) then
            (dr ((a - rx_buff) / (master_frame_width spi_num s).bytes)
              / 256 ^ ((a - rx_buff) % (master_frame_width spi_num s).bytes)) % 256
          else s.mem a) ∧
      dr_writes spi_num t.log
        = dr_writes spi_num s.log ++
            (if cmd_len = 0 then [0xffffffff]
             else buffer_frames (master_frame_width spi_num s).bytes s.mem cmd_buff
               (cmd_len / (master_frame_width spi_num s).bytes))) ∧
    ((∀ r ∈ txflr, r ≤ 28) → cmd_len / (master_frame_width spi_num s).bytes ≤ txflr.length →
      (∀ r ∈ rxflr, 1 ≤ r ∧ r ≤ 32) →
      rx_len / (master_frame_width spi_num s).bytes ≤ rxflr.length →
      ∃ t, spi_receive_data_standard c spi_num chip_select cmd_buff cmd_len rx_buff rx_len txflr
        rxflr dr s = .returned t) := by
  have hwpos : 0 < (master_frame_width spi_num s).bytes := by
    rcases bytes_cases (master_frame_width spi_num s) with h | h | h <;> omega
  have hn1 : 1 ≤ rx_len / (master_frame_width spi_num s).bytes :=
    (Nat.one_le_div_iff hwpos).mpr hrx
  have hctrl := u32_dec_of_pos _ hn1 hrxb
  have hmod : (rx_len / (master_frame_width spi_num s).bytes) % 2 ^ 32
      = rx_len / (master_frame_width spi_num s).bytes := Nat.mod_eq_of_lt hrxb
  have hun := recv_standard_unfold c spi_num chip_select cmd_buff cmd_len rx_buff rx_len txflr
    rxflr dr s hbus
  rw [hctrl, hmod] at hun
  obtain ⟨pre, hpre⟩ : ∃ pre, pre
      = (s |> write_reg spi_num .ctrlr0
                (spi_set_tmod spi_num
                  (if cmd_len = 0 then c.SPI_TMOD_RECV else c.SPI_TMOD_EEROM)
                  (s.regs spi_num .ctrlr0))
           |> write_reg spi_num .ctrlr1 (rx_len / (master_frame_width spi_num s).bytes - 1)
           |> write_reg spi_num .ssienr 0x01) := ⟨_, rfl⟩
  rw [← hpre] at hun
  have hpre_mem : pre.mem = s.mem := by rw [hpre]; rfl
  have hpre_dr : dr_writes spi_num pre.log = dr_writes spi_num s.log := by
    rw [hpre]
    simp only [write_reg_log, dr_writes_append, dr_writes_reg, List.append_nil]
  have hpre_ctrl : pre.regs spi_num .ctrlr1 = rx_len / (master_frame_width spi_num s).bytes - 1 :=
      by
    rw [hpre]
    simp [write_reg_regs]
  obtain ⟨c1, c2⟩ := recv_cmd_loop_spec (master_frame_width spi_num s).bytes spi_num chip_select
    cmd_buff txflr (cmd_len / (master_frame_width spi_num s).bytes) 0 pre (by omega)
  simp only [Nat.zero_mod, Nat.zero_add] at c1 c2
  have hdrain : ∀ s1 : MasterState,
      drain_loop (master_frame_width spi_num s).bytes rx_buff dr rxflr
          (rx_len / (master_frame_width spi_num s).bytes) 0 0 s1
        = if drain_done rxflr (rx_len / (master_frame_width spi_num s).bytes) then
            some (master_set_mem
              (store_frames (master_frame_width spi_num s).bytes rx_buff dr s1.mem
                (rx_len / (master_frame_width spi_num s).bytes)) s1)
          else none := by
    intro s1
    have h := drain_loop_eq (master_frame_width spi_num s).bytes rx_buff dr rxflr
      (rx_len / (master_frame_width spi_num s).bytes) 0 0 s1 (by omega)
    simp only [Nat.zero_mod, Nat.mul_zero, Nat.add_zero, Nat.zero_add] at h
    exact h
  refine ⟨fun t ht => ?_, fun hr hn hr2 hn2 => ?_⟩
  · rw [hun] at ht
    cases hc : recv_cmd_loop (master_frame_width spi_num s).bytes spi_num chip_select cmd_buff
        txflr (cmd_len / (master_frame_width spi_num s).bytes) 0 pre with
    | none =>
      rw [hc] at ht
      cases ht
    | some s1 =>
      obtain ⟨g1, g2, g3⟩ := c1 s1 hc
      rw [hc] at ht
      simp only [] at ht
      rw [hdrain] at ht
      by_cases hdd : drain_done rxflr (rx_len / (master_frame_width spi_num s).bytes) = true
      · rw [if_pos hdd] at ht
        simp only [] at ht
        cases ht
        by_cases h0 : cmd_len = 0
        · simp only [h0, if_true]
          refine ⟨?_, fun a => ?_, ?_⟩
          · simp only [write_reg_regs, master_set_mem_regs, write_dr_regs]
            simp [g3 .ctrlr1 (by decide), hpre_ctrl]
          · simp only [write_reg_mem, master_set_mem_mem]
            rw [store_frames_apply _ _ _ _ hwpos]
            simp only [write_reg_mem, write_dr_mem]
            rw [show s1.mem a = s.mem a from by rw [g1, hpre_mem]]
          · simp only [write_reg_log, master_set_mem_log, write_dr_log, dr_writes_append,
              dr_writes_reg, List.append_nil]
            rw [g2, hpre_dr, h0]
            simp [dr_writes]
        · simp only [h0, if_false]
          refine ⟨?_, fun a => ?_, ?_⟩
          · simp only [write_reg_regs, master_set_mem_regs]
            simp [g3 .ctrlr1 (by decide), hpre_ctrl]
          · simp only [write_reg_mem, master_set_mem_mem]
            rw [store_frames_apply _ _ _ _ hwpos]
            rw [show s1.mem a = s.mem a from by rw [g1, hpre_mem]]
          · simp only [write_reg_log, master_set_mem_log, dr_writes_append, dr_writes_reg,
              List.append_nil]
            rw [g2, hpre_dr, hpre_mem]
            rfl
      · rw [if_neg hdd] at ht
        simp only [] at ht
        cases ht
  · obtain ⟨rest, hrest⟩ := send_rest_some 1 (Or.inl rfl) txflr
      (cmd_len / (master_frame_width spi_num s).bytes) hr (Nat.mod_one _) hn
    obtain ⟨s1, hs1⟩ := c2 ⟨rest, hrest⟩
    have hdd := drain_done_of_progress rxflr _ hr2 hn2
    rw [hun, hs1]
    simp only []
    rw [hdrain, if_pos hdd]
    exact ⟨_, rfl⟩

/-- Witness for C14: a four-byte command and three half-word frames on bus 0
at 16-bit frames. -/
theorem receive_standard_frames_witness :
    spi_h.master_bus 0 ∧ (master_frame_width 0 (master_configured 0 16)).bytes ≤ 6 ∧
    6 / (master_frame_width 0 (master_configured 0 16)).bytes < 2 ^ 32 ∧
    4 / (master_frame_width 0 (master_configured 0 16)).bytes ≤ 2 ^ 32 ∧
    (∀ t, spi_receive_data_standard spi_h 0 1 1000 4 2000 6 [0]
        [2, 1, 1] (fun k => 4352 + k) (master_configured 0 16) = .returned t →
      t.regs 0 .ctrlr1 = 6 / (master_frame_width 0 (master_configured 0 16)).bytes - 1 ∧
      (∀ a, t.mem a
        = if 2000 ≤ a ∧
              a < 2000 + (master_frame_width 0 (master_configured 0 16)).bytes *
                (6 / (master_frame_width 0 (master_configured 0 16)).bytes) then
            ((fun k => 4352 + k) ((a - 2000) / (master_frame_width 0 (master_configured 0
                16)).bytes)
              / 256 ^ ((a - 2000) % (master_frame_width 0 (master_configured 0 16)).bytes)) % 256
          else (master_configured 0 16).mem a) ∧
      dr_writes 0 t.log
        = dr_writes 0 (master_configured 0 16).log ++
            (if 4 = 0 then [0xffffffff]
             else buffer_frames (master_frame_width 0 (master_configured 0 16)).bytes
                 (master_configured 0 16).mem 1000
               (4 / (master_frame_width 0 (master_configured 0 16)).bytes))) ∧
    ((∀ r ∈ [0], r ≤ 28) → 4 / (master_frame_width 0 (master_configured 0 16)).bytes ≤ [0].length →
      (∀ r ∈ [2, 1, 1], 1 ≤ r ∧ r ≤ 32) →
      6 / (master_frame_width 0 (master_configured 0 16)).bytes ≤ [2, 1, 1].length →
      ∃ t, spi_receive_data_standard spi_h 0 1 1000 4 2000 6 [0]
        [2, 1, 1] (fun k => 4352 + k) (master_configured 0 16) = .returned t) :=
  ⟨by decide, by decide, by decide, by decide,
    receive_standard_frames spi_h 0 1 1000 4 2000 6 [0] [2, 1, 1] (fun k => 4352 + k)
      (master_configured 0 16) (by decide) (by decide) (by decide) (by decide)⟩

/-- The run of the witness for C14 evaluated, and the run without command
bytes: the routine returns, `ctrlr1` holds 2, the buffer holds the three frames
read and the byte after it is as before; the data register has received the two
command half words, respectively the filler word. -/
theorem receive_standard_run :
    (spi_receive_data_standard spi_h 0 1 1000 4 2000 6 [0] [2, 1, 1] (fun k => 4352 + k)
        (master_configured 0 16)).state?.map
      (fun t => (t.regs 0 .ctrlr1, (List.range 7).map (fun a => t.mem (2000 + a)),
        dr_writes 0 t.log))
      = some (2, [0, 17, 1, 17, 2, 17, master_reset.mem 2006],
          buffer_frames 2 master_reset.mem 1000 2) ∧
    (spi_receive_data_standard spi_h 0 1 1000 0 2000 6 [0] [2, 1, 1] (fun k => 4352 + k)
        (master_configured 0 16)).state?.map
      (fun t => (t.regs 0 .ctrlr1, (List.range 7).map (fun a => t.mem (2000 + a)),
        dr_writes 0 t.log))
      = some (2, [0, 17, 1, 17, 2, 17, master_reset.mem 2006], [4294967295]) := by
  decide

/-! ## Runs of the slave state machine -/

/-- Every path of `spi_slave_transfer_mode` ends in `spi_slave_idle_mode`. -/
theorem transfer_mode_idle (c : SpiHeader) (s : SlaveState) :
    (spi_slave_transfer_mode c s).status = .IDLE ∧
    (spi_slave_transfer_mode c s).ready_pin = s.ready_pin ∧
    (spi_slave_transfer_mode c s).pin_level s.ready_pin = .GPIO_PV_HIGH ∧
    (spi_slave_transfer_mode c s).data_bit_length = s.data_bit_length := by
  cases h : transfer_check c (expected_frames s) (set_err 0 s) with
  | none =>
    rw [transfer_mode_unchecked c s h]
    simp
  | some s1 =>
    rw [transfer_mode_checked c s s1 h]
    have h1 := transfer_check_ready_pin c _ _ _ h
    have h2 := transfer_commit_ready_pin c (slave_frame_width s) (expected_frames s) s1
    have h3 : s1.ready_pin = s.ready_pin := h1
    have h4 := transfer_check_data_bit_length c _ _ _ h
    have h5 := transfer_commit_data_bit_length c (slave_frame_width s) (expected_frames s) s1
    have h6 : s1.data_bit_length = s.data_bit_length := h4
    simp [h2, h3, h5, h6]

theorem dispatch_data_bit_length (c : SpiHeader) (s : SlaveState) :
    (command_dispatch c s).data_bit_length = s.data_bit_length := by
  unfold command_dispatch
  split_ifs <;> simp

/-- The dispatch ends in Transfer with the ready pin low or in Idle with the
ready pin high. -/
theorem dispatch_outcome (c : SpiHeader) (s : SlaveState) :
    ((command_dispatch c s).status = .TRANSFER ∧
      (command_dispatch c s).pin_level s.ready_pin = .GPIO_PV_LOW) ∨
    ((command_dispatch c s).status = .IDLE ∧
      (command_dispatch c s).pin_level s.ready_pin = .GPIO_PV_HIGH) := by
  unfold command_dispatch
  split_ifs <;> simp

/-- The three ends of `spi_slave_command_mode`. -/
theorem command_mode_cases (c : SpiHeader) (s : SlaveState) :
    ∃ cmd addr len,
      spi_slave_command_mode c s
          = spi_slave_idle_mode (dr_pop (cmd_reads (slave_frame_width s)) s) ∨
      spi_slave_command_mode c s
          = spi_slave_idle_mode
              (set_command cmd addr len (dr_pop (cmd_reads (slave_frame_width s)) s)) ∨
      spi_slave_command_mode c s
          = command_dispatch c
              (set_command cmd addr len (dr_pop (cmd_reads (slave_frame_width s)) s)) := by
  unfold spi_slave_command_mode slave_frame_width
  simp only []
  split_ifs
  · exact ⟨0, 0, 0, Or.inl rfl⟩
  · exact ⟨_, _, _, Or.inr (Or.inl rfl)⟩
  · exact ⟨_, _, _, Or.inr (Or.inr rfl)⟩
  · exact ⟨_, _, _, Or.inr (Or.inl rfl)⟩
  · exact ⟨_, _, _, Or.inr (Or.inr rfl)⟩

/-- The command handler keeps the ready pin number and the data bit length and
ends in Transfer with the ready pin low or in Idle with the ready pin high. -/
theorem command_mode_outcome (c : SpiHeader) (s : SlaveState) :
    (spi_slave_command_mode c s).ready_pin = s.ready_pin ∧
    (spi_slave_command_mode c s).data_bit_length = s.data_bit_length ∧
    (((spi_slave_command_mode c s).status = .TRANSFER ∧
        (spi_slave_command_mode c s).pin_level s.ready_pin = .GPIO_PV_LOW) ∨
      ((spi_slave_command_mode c s).status = .IDLE ∧
        (spi_slave_command_mode c s).pin_level s.ready_pin = .GPIO_PV_HIGH)) := by
  obtain ⟨cmd, addr, len, h | h | h⟩ := command_mode_cases c s
  · rw [h]
    simp
  · rw [h]
    simp
  · rw [h, dispatch_ready_pin, dispatch_data_bit_length]
    refine ⟨rfl, rfl, ?_⟩
    exact dispatch_outcome c
      (set_command cmd addr len (dr_pop (cmd_reads (slave_frame_width s)) s))

/-- What `spi_slave_irq` changes: the interrupt mask, and the status from Idle
to Command. -/
theorem slave_irq_eq (s : SlaveState) :
    spi_slave_irq s
      = if s.status = .IDLE then set_status .COMMAND (set_imr 0x00 s) else set_imr 0x00 s := by
  rfl

/-- The pin-edge handler keeps the ready pin number and the data bit length,
and ends in Transfer with the ready pin low or in Idle with the ready pin high;
it ends in Idle unless it was called in Command. -/
theorem cs_irq_outcome (c : SpiHeader) (s : SlaveState) :
    (spi_slave_cs_irq c s).ready_pin = s.ready_pin ∧
    (spi_slave_cs_irq c s).data_bit_length = s.data_bit_length ∧
    (((spi_slave_cs_irq c s).status = .TRANSFER ∧
        (spi_slave_cs_irq c s).pin_level s.ready_pin = .GPIO_PV_LOW) ∨
      ((spi_slave_cs_irq c s).status = .IDLE ∧
        (spi_slave_cs_irq c s).pin_level s.ready_pin = .GPIO_PV_HIGH)) ∧
    (s.status ≠ .COMMAND → (spi_slave_cs_irq c s).status = .IDLE) := by
  unfold spi_slave_cs_irq
  cases hst : s.status with
  | IDLE =>
    simp
  | COMMAND =>
    simp only [if_neg (show ¬ (spi_slave_status_e.COMMAND = .IDLE) by decide), if_true]
    obtain ⟨h1, h2, h3⟩ := command_mode_outcome c s
    exact ⟨h1, h2, h3, fun h => absurd rfl h⟩
  | TRANSFER =>
    simp only [if_neg (show ¬ (spi_slave_status_e.TRANSFER = .IDLE) by decide),
      if_neg (show ¬ (spi_slave_status_e.TRANSFER = .COMMAND) by decide), if_true]
    obtain ⟨h1, h2, h3, h4⟩ := transfer_mode_idle c s
    exact ⟨h2, h4, Or.inr ⟨h1, h3⟩, fun _ => h1⟩

theorem slave_config_start (int_pin ready_pin dmac_channel data_bit_length data len : Nat)
    (callback : Bool) (s0 : SlaveState) :
    (spi_slave_config int_pin ready_pin dmac_channel data_bit_length data len callback s0).status
      = .IDLE ∧
    (spi_slave_config int_pin ready_pin dmac_channel data_bit_length data len callback
        s0).pin_level
      (spi_slave_config int_pin ready_pin dmac_channel data_bit_length data len callback
        s0).ready_pin = .GPIO_PV_HIGH ∧
    (spi_slave_config int_pin ready_pin dmac_channel data_bit_length data len callback
        s0).data_bit_length = data_bit_length := by
  simp [spi_slave_config]

theorem slave_irq_fields (s : SlaveState) :
    (spi_slave_irq s).status = (if s.status = .IDLE then .COMMAND else s.status) ∧
    (spi_slave_irq s).command = s.command ∧
    (spi_slave_irq s).mem = s.mem ∧
    (spi_slave_irq s).config_ptr = s.config_ptr ∧
    (spi_slave_irq s).config_len = s.config_len ∧
    (spi_slave_irq s).ready_pin = s.ready_pin ∧
    (spi_slave_irq s).pin_level = s.pin_level ∧
    (spi_slave_irq s).log = s.log ∧
    (spi_slave_irq s).data_bit_length = s.data_bit_length := by
  rw [slave_irq_eq]
  split_ifs with h
  · exact ⟨rfl, rfl, rfl, rfl, rfl, rfl, rfl, rfl, rfl⟩
  · exact ⟨rfl, rfl, rfl, rfl, rfl, rfl, rfl, rfl, rfl⟩

/-- One event keeps the ready pin number and the data bit length, and keeps the
pin in step with the status: low in Transfer, high otherwise. -/
theorem slave_step_invariant (c : SpiHeader) (e : SlaveStep) (s : SlaveState)
    (h1 : s.status = .TRANSFER → s.pin_level s.ready_pin = .GPIO_PV_LOW)
    (h2 : s.status ≠ .TRANSFER → s.pin_level s.ready_pin = .GPIO_PV_HIGH) :
    ((slave_step c e s).status = .TRANSFER →
      (slave_step c e s).pin_level (slave_step c e s).ready_pin = .GPIO_PV_LOW) ∧
    ((slave_step c e s).status ≠ .TRANSFER →
      (slave_step c e s).pin_level (slave_step c e s).ready_pin = .GPIO_PV_HIGH) ∧
    (slave_step c e s).data_bit_length = s.data_bit_length := by
  cases e with
  | irq =>
    obtain ⟨g1, -, -, -, -, g2, g3, -, g4⟩ := slave_irq_fields s
    simp only [slave_step]
    rw [g1, g2, g3]
    by_cases hs : s.status = .IDLE
    · rw [if_pos hs]
      have hn : s.status ≠ .TRANSFER := by rw [hs]; decide
      exact ⟨fun h => absurd h (by decide), fun _ => h2 hn, g4⟩
    · rw [if_neg hs]
      exact ⟨h1, h2, g4⟩
  | cs_irq =>
    obtain ⟨g1, g2, g3, -⟩ := cs_irq_outcome c s
    simp only [slave_step]
    rw [g1]
    rcases g3 with ⟨a, b⟩ | ⟨a, b⟩
    · exact ⟨fun _ => b, fun h => absurd a h, g2⟩
    · refine ⟨fun h => ?_, fun _ => b, g2⟩
      rw [a] at h
      cases h
  | environment rx rxflr txflr dmac_intstatus mem =>
    exact ⟨h1, h2, rfl⟩

theorem slave_run_invariant (c : SpiHeader) (steps : List SlaveStep) (s : SlaveState)
    (h1 : s.status = .TRANSFER → s.pin_level s.ready_pin = .GPIO_PV_LOW)
    (h2 : s.status ≠ .TRANSFER → s.pin_level s.ready_pin = .GPIO_PV_HIGH) :
    ((slave_run c steps s).status = .TRANSFER →
      (slave_run c steps s).pin_level (slave_run c steps s).ready_pin = .GPIO_PV_LOW) ∧
    ((slave_run c steps s).status ≠ .TRANSFER →
      (slave_run c steps s).pin_level (slave_run c steps s).ready_pin = .GPIO_PV_HIGH) ∧
    (slave_run c steps s).data_bit_length = s.data_bit_length := by
  induction steps generalizing s with
  | nil => exact ⟨h1, h2, rfl⟩
  | cons e es ih =>
    obtain ⟨g1, g2, g3⟩ := slave_step_invariant c e s h1 h2
    obtain ⟨k1, k2, k3⟩ := ih (slave_step c e s) g1 g2
    rw [slave_run]
    exact ⟨k1, k2, k3.trans g3⟩

/-- C21. In every state reached from `spi_slave_config` with a data bit length
of at least 8 through a finite sequence of SPI interrupts, pin edges and
changes of the FIFO contents, register readings and memory, the ready pin is
low exactly when the status is Transfer, it is high whenever the status is
Idle, and the data bit length is still the configured one. -/
theorem ready_pin_tracks_status (c : SpiHeader)
    (int_pin ready_pin dmac_channel data_bit_length data len : Nat) (callback : Bool)
    (s0 : SlaveState) (steps : List SlaveStep) (hdbl : 8 ≤ data_bit_length) :
    ((slave_run c steps
        (spi_slave_config int_pin ready_pin dmac_channel data_bit_length data len callback
          s0)).pin_level
      (slave_run c steps
        (spi_slave_config int_pin ready_pin dmac_channel data_bit_length data len callback
          s0)).ready_pin = .GPIO_PV_LOW ↔
      (slave_run c steps
        (spi_slave_config int_pin ready_pin dmac_channel data_bit_length data len callback
          s0)).status = .TRANSFER) ∧
    ((slave_run c steps
        (spi_slave_config int_pin ready_pin dmac_channel data_bit_length data len callback
          s0)).status = .IDLE →
      (slave_run c steps
        (spi_slave_config int_pin ready_pin dmac_channel data_bit_length data len callback
          s0)).pin_level
      (slave_run c steps
        (spi_slave_config int_pin ready_pin dmac_channel data_bit_length data len callback
          s0)).ready_pin = .GPIO_PV_HIGH) ∧
    8 ≤ (slave_run c steps
        (spi_slave_config int_pin ready_pin dmac_channel data_bit_length data len callback
          s0)).data_bit_length := by
  obtain ⟨a1, a2, a3⟩ :=
    slave_config_start int_pin ready_pin dmac_channel data_bit_length data len callback s0
  obtain ⟨k1, k2, k3⟩ := slave_run_invariant c steps
    (spi_slave_config int_pin ready_pin dmac_channel data_bit_length data len callback s0)
    (fun h => by rw [a1] at h; cases h) (fun _ => a2)
  refine ⟨⟨fun h => ?_, k1⟩, fun h => k2 (by rw [h]; decide), ?_⟩
  · by_contra hn
    rw [k2 hn] at h
    cases h
  · rw [k3, a3]
    exact hdbl

/-- Witness for C21: the sample run after a configuration with 8-bit frames. -/
theorem ready_pin_tracks_status_witness :
    8 ≤ 8 ∧
    ((slave_run spi_h sample_run
        (spi_slave_config 7 9 3 8 1000 64 true
          power_on)).pin_level
      (slave_run spi_h sample_run
        (spi_slave_config 7 9 3 8 1000 64 true
          power_on)).ready_pin = .GPIO_PV_LOW ↔
      (slave_run spi_h sample_run
        (spi_slave_config 7 9 3 8 1000 64 true
          power_on)).status = .TRANSFER) ∧
    ((slave_run spi_h sample_run
        (spi_slave_config 7 9 3 8 1000 64 true
          power_on)).status = .IDLE →
      (slave_run spi_h sample_run
        (spi_slave_config 7 9 3 8 1000 64 true
          power_on)).pin_level
      (slave_run spi_h sample_run
        (spi_slave_config 7 9 3 8 1000 64 true
          power_on)).ready_pin = .GPIO_PV_HIGH) ∧
    8 ≤ (slave_run spi_h sample_run
        (spi_slave_config 7 9 3 8 1000 64 true
          power_on)).data_bit_length :=
  ⟨by decide, ready_pin_tracks_status spi_h 7 9 3 8 1000 64 true power_on sample_run (by decide)⟩

/-- The sample run evaluated, with status and level of the ready pin after each
prefix: Idle and high after the configuration, Command and high after the SPI
interrupt, Transfer and low after the header is decoded, still so after a
further SPI interrupt, Idle and high after the next pin edge. -/
theorem sample_run_trace :
    ((slave_run spi_h [] (spi_slave_config 7 9 3 8 1000 64 true power_on)).status,
      (slave_run spi_h [] (spi_slave_config 7 9 3 8 1000 64 true power_on)).pin_level 9)
        = (.IDLE, .GPIO_PV_HIGH) ∧
    ((slave_run spi_h [.irq] (spi_slave_config 7 9 3 8 1000 64 true power_on)).status,
      (slave_run spi_h [.irq] (spi_slave_config 7 9 3 8 1000 64 true power_on)).pin_level 9)
        = (.COMMAND, .GPIO_PV_HIGH) ∧
    ((slave_run spi_h sample_run (spi_slave_config 7 9 3 8 1000 64 true power_on)).status,
      (slave_run spi_h sample_run (spi_slave_config 7 9 3 8 1000 64 true power_on)).pin_level 9)
        = (.TRANSFER, .GPIO_PV_LOW) ∧
    ((slave_run spi_h (sample_run ++ [.irq])
        (spi_slave_config 7 9 3 8 1000 64 true power_on)).status,
      (slave_run spi_h (sample_run ++ [.irq])
        (spi_slave_config 7 9 3 8 1000 64 true power_on)).pin_level 9)
        = (.TRANSFER, .GPIO_PV_LOW) ∧
    ((slave_run spi_h (sample_run ++ [.irq, .cs_irq])
        (spi_slave_config 7 9 3 8 1000 64 true power_on)).status,
      (slave_run spi_h (sample_run ++ [.irq, .cs_irq])
        (spi_slave_config 7 9 3 8 1000 64 true power_on)).pin_level 9)
        = (.IDLE, .GPIO_PV_HIGH) := by
  decide

/-- The status after one event: the SPI interrupt moves Idle to Command and
nothing else, a pin edge in Idle or Transfer ends in Idle, a pin edge in Command
ends in Idle or Transfer, a change of the environment changes nothing. -/
theorem slave_step_status (c : SpiHeader) (e : SlaveStep) (s : SlaveState) :
    (s.status = .IDLE → (slave_step c e s).status ≠ .TRANSFER) ∧
    (s.status = .TRANSFER → (slave_step c e s).status ≠ .COMMAND) := by
  cases e with
  | irq =>
    simp only [slave_step]
    rw [(slave_irq_fields s).1]
    refine ⟨fun h => ?_, fun h => ?_⟩
    · rw [if_pos h]
      decide
    · rw [if_neg (by rw [h]; decide), h]
      decide
  | cs_irq =>
    obtain ⟨-, -, -, g⟩ := cs_irq_outcome c s
    simp only [slave_step]
    refine ⟨fun h => ?_, fun h => ?_⟩
    · rw [g (by rw [h]; decide)]
      decide
    · rw [g (by rw [h]; decide)]
      decide
  | environment rx rxflr txflr dmac_intstatus mem =>
    refine ⟨fun h => ?_, fun h => ?_⟩
    · have e : (slave_step c (.environment rx rxflr txflr dmac_intstatus mem) s).status
          = s.status := rfl
      rw [e, h]
      decide
    · have e : (slave_step c (.environment rx rxflr txflr dmac_intstatus mem) s).status
          = s.status := rfl
      rw [e, h]
      decide

/-- C22. `spi_slave_irq` changes the status only from Idle to Command and leaves
Command and Transfer as they are; it changes neither the command descriptor,
memory (so the configuration buffer), the configuration pointer and length, the
ready pin number, any pin level nor the log. In every state reached from
`spi_slave_config` through a finite sequence of events, the next event does not
take the status from Idle to Transfer nor from Transfer to Command, and a pin
edge taken in Idle leaves the status Idle. -/
theorem slave_irq_transitions (c : SpiHeader) :
    (∀ s : SlaveState,
      (s.status = .IDLE → (spi_slave_irq s).status = .COMMAND) ∧
      (s.status = .COMMAND → (spi_slave_irq s).status = .COMMAND) ∧
      (s.status = .TRANSFER → (spi_slave_irq s).status = .TRANSFER) ∧
      (spi_slave_irq s).command = s.command ∧
      (spi_slave_irq s).mem = s.mem ∧
      (spi_slave_irq s).config_ptr = s.config_ptr ∧
      (spi_slave_irq s).config_len = s.config_len ∧
      (spi_slave_irq s).ready_pin = s.ready_pin ∧
      (spi_slave_irq s).pin_level = s.pin_level ∧
      (spi_slave_irq s).log = s.log) ∧
    (∀ (int_pin ready_pin dmac_channel data_bit_length data len : Nat) (callback : Bool)
        (s0 : SlaveState) (steps : List SlaveStep) (e : SlaveStep),
      ((slave_run c steps
          (spi_slave_config int_pin ready_pin dmac_channel data_bit_length data len callback
            s0)).status = .IDLE →
        (slave_step c e (slave_run c steps
          (spi_slave_config int_pin ready_pin dmac_channel data_bit_length data len callback
            s0))).status ≠ .TRANSFER) ∧
      ((slave_run c steps
          (spi_slave_config int_pin ready_pin dmac_channel data_bit_length data len callback
            s0)).status = .TRANSFER →
        (slave_step c e (slave_run c steps
          (spi_slave_config int_pin ready_pin dmac_channel data_bit_length data len callback
            s0))).status ≠ .COMMAND) ∧
      ((slave_run c steps
          (spi_slave_config int_pin ready_pin dmac_channel data_bit_length data len callback
            s0)).status = .IDLE →
        (spi_slave_cs_irq c (slave_run c steps
          (spi_slave_config int_pin ready_pin dmac_channel data_bit_length data len callback
            s0))).status = .IDLE)) := by
  refine ⟨fun s => ?_, fun int_pin ready_pin dmac_channel data_bit_length data len callback s0
    steps e => ?_⟩
  · obtain ⟨g1, g2, g3, g4, g5, g6, g7, g8, -⟩ := slave_irq_fields s
    refine ⟨fun h => ?_, fun h => ?_, fun h => ?_, g2, g3, g4, g5, g6, g7, g8⟩
    · rw [g1, if_pos h]
    · rw [g1, if_neg (by rw [h]; decide), h]
    · rw [g1, if_neg (by rw [h]; decide), h]
  · obtain ⟨a, b⟩ := slave_step_status c e (slave_run c steps
      (spi_slave_config int_pin ready_pin dmac_channel data_bit_length data len callback s0))
    refine ⟨a, b, fun h => ?_⟩
    exact (cs_irq_outcome c _).2.2.2 (by rw [h]; decide)

/-- The transitions of C22 on the sample run: the SPI interrupt taken in Idle
gives Command, taken in Transfer it gives Transfer, and a pin edge taken in Idle
gives Idle. -/
theorem slave_irq_transitions_run :
    (spi_slave_irq (spi_slave_config 7 9 3 8 1000 64 true power_on)).status = .COMMAND ∧
    (slave_run spi_h sample_run (spi_slave_config 7 9 3 8 1000 64 true power_on)).status
      = .TRANSFER ∧
    (spi_slave_irq
      (slave_run spi_h sample_run (spi_slave_config 7 9 3 8 1000 64 true power_on))).status
      = .TRANSFER ∧
    (spi_slave_cs_irq spi_h (spi_slave_config 7 9 3 8 1000 64 true power_on)).status
      = .IDLE := by
  decide

/-! ## Termination of the send loop -/

/-- The number of bytes one iteration of the send loop takes off the remaining
count: the clamped FIFO space rounded down to a multiple of the frame width,
on both paths. -/
theorem send_chunk_consumed (fw : spi_transfer_width_t) (misalign : Bool)
    (spi_num buff f i v : Nat) (s : MasterState) :
    (send_chunk fw misalign spi_num buff f i v s).1 = f / fw.bytes * fw.bytes := by
  cases fw <;> cases misalign <;>
    simp [send_chunk, spi_transfer_width_t.bytes]

/-- The control flow of the send loop does not depend on the path, the index,
the scratch word or the state: the readings left over are those of its
skeleton. -/
theorem send_loop_rest (fw : spi_transfer_width_t) (misalign : Bool) (spi_num buff : Nat)
    (txflr : List Nat) (tx_len i v : Nat) (s : MasterState) :
    (send_loop fw misalign spi_num buff txflr tx_len i v s).map Prod.fst
      = send_rest fw.bytes txflr tx_len := by
  induction txflr generalizing tx_len i v s with
  | nil =>
    by_cases h0 : tx_len = 0
    · simp [send_loop, send_rest, h0]
    · simp [send_loop, send_rest, h0]
  | cons r rest ih =>
    by_cases h0 : tx_len = 0
    · simp [send_loop, send_rest, h0]
    · rw [send_loop, if_neg h0, send_rest, if_neg h0]
      simp only []
      rw [ih, send_chunk_consumed]

theorem send_rest_none (w : Nat) (hw : w = 1 ∨ w = 2 ∨ w = 4) (txflr : List Nat) (tx_len : Nat)
    (h : tx_len % w ≠ 0) : send_rest w txflr tx_len = none := by
  induction txflr generalizing tx_len with
  | nil =>
    have h0 : tx_len ≠ 0 := by
      intro h0
      rw [h0] at h
      exact h (Nat.zero_mod _)
    simp [send_rest, h0]
  | cons r rest ih =>
    have h0 : tx_len ≠ 0 := by
      intro h0
      rw [h0] at h
      exact h (Nat.zero_mod _)
    have hf := min_le_len (fifo_free r) tx_len
    rw [send_rest, if_neg h0]
    apply ih
    rcases hw with rfl | rfl | rfl <;> omega

theorem fifo_free_ge_width (w r : Nat) (hw : w = 1 ∨ w = 2 ∨ w = 4) (h : r ≤ 32 - w) :
    w ≤ fifo_free r := by
  unfold fifo_free
  have e : r % 2 ^ 32 = r := Nat.mod_eq_of_lt (by omega)
  rw [e, if_pos (by omega)]
  omega

theorem send_rest_within (w : Nat) (hw : w = 1 ∨ w = 2 ∨ w = 4) (txflr : List Nat)
    (tx_len : Nat) (hlen : tx_len % w = 0) (hr : ∀ r ∈ txflr, r ≤ 32 - w)
    (hn : tx_len / w ≤ txflr.length) :
    ∃ rest, send_rest w txflr tx_len = some rest ∧ txflr.length ≤ rest.length + tx_len / w := by
  induction txflr generalizing tx_len with
  | nil =>
    have h0 : tx_len = 0 := by
      have hz : tx_len / w = 0 := by simpa using hn
      rcases hw with rfl | rfl | rfl <;> omega
    exact ⟨[], by simp [send_rest, h0], by simp⟩
  | cons r rest ih =>
    by_cases h0 : tx_len = 0
    · exact ⟨r :: rest, by simp [send_rest, h0], Nat.le_add_right _ _⟩
    · have hfree := fifo_free_ge_width w r hw (hr r (List.mem_cons_self _ _))
      have hf := min_le_len (fifo_free r) tx_len
      obtain ⟨a1, a2, -⟩ := chunk_arith w tx_len _ hw hlen hf
      have hlen2 : List.length (r :: rest) = rest.length + 1 := rfl
      have hstep : 1 ≤ (if fifo_free r < tx_len then fifo_free r else tx_len) / w := by
        rcases hw with rfl | rfl | rfl <;> split_ifs <;> omega
      rw [hlen2] at hn
      obtain ⟨rest2, e, g⟩ := ih _ a1 (fun x hx => hr x (List.mem_cons_of_mem _ hx)) (by omega)
      refine ⟨rest2, ?_, ?_⟩
      · rw [send_rest, if_neg h0]
        exact e
      · rw [hlen2]
        omega

/-- C23. In the send loop of `spi_send_data_normal`, on either path, the
remaining byte count modulo the frame width is the same after an iteration as
before it, whatever the reading of the transmit level. Hence, when `tx_len` is
not a multiple of the frame width, the loop is still running when the readings
are used up, for every sequence of readings, and the routine never returns;
when `tx_len` is a multiple of the frame width `w` and every reading leaves at
least `w` free entries, the loop ends having used at most `tx_len / w`
readings. -/
theorem send_loop_termination (c : SpiHeader) (fw : spi_transfer_width_t) (misalign : Bool)
    (spi_num tx_buff tx_len i v : Nat) (s : MasterState) :
    (∀ r : Nat,
      (tx_len - (send_chunk fw misalign spi_num tx_buff
          (if fifo_free r < tx_len then fifo_free r else tx_len) i v s).1) % fw.bytes
        = tx_len % fw.bytes) ∧
    (tx_len % fw.bytes ≠ 0 → ∀ txflr : List Nat,
      send_loop fw misalign spi_num tx_buff txflr tx_len i v s = none) ∧
    (tx_len % fw.bytes = 0 → ∀ txflr : List Nat, (∀ r ∈ txflr, r ≤ 32 - fw.bytes) →
      tx_len / fw.bytes ≤ txflr.length →
      ∃ rest t, send_loop fw misalign spi_num tx_buff txflr tx_len i v s = some (rest, t) ∧
        txflr.length ≤ rest.length + tx_len / fw.bytes) ∧
    (c.master_bus spi_num → tx_len % (master_frame_width spi_num s).bytes ≠ 0 →
      ∀ (chip_select : Nat) (txflr sr : List Nat),
        ∃ t, spi_send_data_normal c spi_num chip_select tx_buff tx_len v txflr sr s
          = .stalled t) := by
  have hnone : ∀ (fw : spi_transfer_width_t) (misalign : Bool) (i v : Nat) (s : MasterState)
      (txflr : List Nat), tx_len % fw.bytes ≠ 0 →
      send_loop fw misalign spi_num tx_buff txflr tx_len i v s = none := by
    intro fw misalign i v s txflr h
    have hr := send_loop_rest fw misalign spi_num tx_buff txflr tx_len i v s
    rw [send_rest_none _ (bytes_cases fw) txflr tx_len h] at hr
    cases hl : send_loop fw misalign spi_num tx_buff txflr tx_len i v s with
    | none => rfl
    | some p =>
      rw [hl] at hr
      cases hr
  refine ⟨fun r => ?_, fun h txflr => hnone fw misalign i v s txflr h,
    fun hlen txflr hr hn => ?_,
    fun hbus hlen chip_select txflr sr => ?_⟩
  · have hf := min_le_len (fifo_free r) tx_len
    rw [send_chunk_consumed]
    cases fw <;> simp only [spi_transfer_width_t.bytes] <;> omega
  · obtain ⟨rest, e, g⟩ := send_rest_within _ (bytes_cases fw) txflr tx_len hlen hr hn
    have hr2 := send_loop_rest fw misalign spi_num tx_buff txflr tx_len i v s
    rw [e] at hr2
    cases hl : send_loop fw misalign spi_num tx_buff txflr tx_len i v s with
    | none =>
      rw [hl] at hr2
      cases hr2
    | some p =>
      obtain ⟨rest2, t⟩ := p
      rw [hl] at hr2
      simp only [Option.map_some', Option.some.injEq] at hr2
      subst hr2
      exact ⟨rest2, t, rfl, g⟩
  · rw [send_normal_unfold c spi_num chip_select tx_buff tx_len v txflr sr s hbus,
      hnone _ _ _ _ _ _ hlen]
    exact ⟨_, rfl⟩

/-- Two runs for C23 at HalfWord width on bus 0: with three bytes to send the
routine is still in its send loop after eight readings of an empty FIFO; with
four bytes it returns after one. -/
theorem send_loop_termination_run :
    (match spi_send_data_normal spi_h 0 1 1000 3 0 [0, 0, 0, 0, 0, 0, 0, 0] [4]
        (master_configured 0 16) with
      | .stalled _ => true
      | _ => false) = true ∧
    (match spi_send_data_normal spi_h 0 1 1000 4 0 [0] [4] (master_configured 0 16) with
      | .returned _ => true
      | _ => false) = true := by
  decide

/-! ## The receive threshold of the slave -/

theorem dispatch_rx (c : SpiHeader) (s : SlaveState) : (command_dispatch c s).rx = s.rx := by
  funext i
  unfold command_dispatch
  split_ifs <;> simp

/-- The command handler takes the frames of the header, and no other, from the
data register. -/
theorem command_mode_rx (c : SpiHeader) (s : SlaveState) :
    (spi_slave_command_mode c s).rx = fun i => s.rx (i + cmd_reads (slave_frame_width s)) := by
  obtain ⟨cmd, addr, len, h | h | h⟩ := command_mode_cases c s
  · rw [h, idle_mode_rx]
    rfl
  · rw [h, idle_mode_rx]
    rfl
  · rw [h, dispatch_rx]
    rfl

theorem idle_mode_rxftlr (s : SlaveState) :
    (spi_slave_idle_mode s).rxftlr = u32_dec (u32_div 0x08 ((s.data_bit_length / 8) % 2 ^ 32)) := by
  simp [spi_slave_idle_mode]

theorem slave_config_rxftlr (int_pin ready_pin dmac_channel data_bit_length data len : Nat)
    (callback : Bool) (s0 : SlaveState) :
    (spi_slave_config int_pin ready_pin dmac_channel data_bit_length data len callback s0).rxftlr
      = u32_dec (u32_div 0x08 ((data_bit_length / 8) % 2 ^ 32)) := by
  simp [spi_slave_config]

theorem byte_multiple_cases (b : Nat) (h8 : b % 8 = 0) (hlo : 8 ≤ b) (hhi : b ≤ 32) :
    b = 8 ∨ b = 16 ∨ b = 24 ∨ b = 32 := by
  omega

/-- The threshold computation at the four bit lengths that are multiples of 8:
the divisor is not 0, the quotient is at least 1, and the result plus one is the
number of reads of the header switch. -/
theorem rx_threshold_value (b : Nat) (h8 : b % 8 = 0) (hlo : 8 ≤ b) (hhi : b ≤ 32) :
    (b / 8) % 2 ^ 32 ≠ 0 ∧ 1 ≤ 8 / (b / 8) ∧
    u32_dec (u32_div 0x08 ((b / 8) % 2 ^ 32)) = 8 / (b / 8) - 1 ∧
    u32_dec (u32_div 0x08 ((b / 8) % 2 ^ 32)) + 1 = cmd_reads (spi_get_frame_size (size_dec b)) := by
  rcases byte_multiple_cases b h8 hlo hhi with rfl | rfl | rfl | rfl <;> decide

/-- C24. For a slave data bit length that is a multiple of 8 from 8 to 32, the
divisor `data_bit_length / 8` of the threshold computation is not 0 and the
quotient `8 / (data_bit_length / 8)` is at least 1, so that neither the division
nor the subtraction leaves the range of the type: `spi_slave_config` programs
`rxftlr = 8 / (data_bit_length / 8) - 1`, and so does `spi_slave_idle_mode` in
every state with that bit length; `rxftlr + 1` is the number of frames that
`spi_slave_command_mode` takes from the data register for the header. -/
theorem slave_rx_threshold (c : SpiHeader)
    (int_pin ready_pin dmac_channel data_bit_length data len : Nat) (callback : Bool)
    (s0 : SlaveState) (h8 : data_bit_length % 8 = 0) (hlo : 8 ≤ data_bit_length)
    (hhi : data_bit_length ≤ 32) :
    (data_bit_length / 8) % 2 ^ 32 ≠ 0 ∧ 1 ≤ 8 / (data_bit_length / 8) ∧
    (spi_slave_config int_pin ready_pin dmac_channel data_bit_length data len callback s0).rxftlr
      = 8 / (data_bit_length / 8) - 1 ∧
    (spi_slave_config int_pin ready_pin dmac_channel data_bit_length data len callback
      s0).data_bit_length = data_bit_length ∧
    (∀ s : SlaveState, s.data_bit_length = data_bit_length →
      (spi_slave_idle_mode s).rxftlr = 8 / (data_bit_length / 8) - 1 ∧
      cmd_reads (slave_frame_width s) = (spi_slave_idle_mode s).rxftlr + 1 ∧
      (spi_slave_command_mode c s).rx
        = fun i => s.rx (i + ((spi_slave_idle_mode s).rxftlr + 1))) := by
  obtain ⟨a1, a2, a3, a4⟩ := rx_threshold_value data_bit_length h8 hlo hhi
  refine ⟨a1, a2, ?_, ?_, fun s hs => ?_⟩
  · rw [slave_config_rxftlr, a3]
  · exact (slave_config_start int_pin ready_pin dmac_channel data_bit_length data len callback
      s0).2.2
  · have e : (spi_slave_idle_mode s).rxftlr + 1 = cmd_reads (slave_frame_width s) := by
      rw [idle_mode_rxftlr, hs, a4]
      unfold slave_frame_width
      rw [hs]
    refine ⟨?_, e.symm, ?_⟩
    · rw [idle_mode_rxftlr, hs, a3]
    · rw [command_mode_rx, e]

/-- Witness for C24: 24 data bits, where `8 / 3 - 1 = 1` and the header is read
as two words. -/
theorem slave_rx_threshold_witness :
    24 % 8 = 0 ∧ 8 ≤ 24 ∧ 24 ≤ 32 ∧
    (24 / 8) % 2 ^ 32 ≠ 0 ∧ 1 ≤ 8 / (24 / 8) ∧
    (spi_slave_config 7 9 3 24 1000 64 true power_on).rxftlr = 8 / (24 / 8) - 1 ∧
    (spi_slave_config 7 9 3 24 1000 64 true power_on).data_bit_length = 24 ∧
    (∀ s : SlaveState, s.data_bit_length = 24 →
      (spi_slave_idle_mode s).rxftlr = 8 / (24 / 8) - 1 ∧
      cmd_reads (slave_frame_width s) = (spi_slave_idle_mode s).rxftlr + 1 ∧
      (spi_slave_command_mode spi_h s).rx
        = fun i => s.rx (i + ((spi_slave_idle_mode s).rxftlr + 1))) :=
  ⟨by decide, by decide, by decide,
    slave_rx_threshold spi_h 7 9 3 24 1000 64 true power_on (by decide) (by decide)
      (by decide)⟩

/-- The thresholds of C24 evaluated at the four bit lengths, with the number of
header reads: 7 and 8, 3 and 4, 1 and 2, 1 and 2. -/
theorem slave_rx_threshold_run :
    ((spi_slave_config 7 9 3 8 1000 64 true power_on).rxftlr,
      cmd_reads (slave_frame_width (spi_slave_config 7 9 3 8 1000 64 true power_on))) = (7, 8) ∧
    ((spi_slave_config 7 9 3 16 1000 64 true power_on).rxftlr,
      cmd_reads (slave_frame_width (spi_slave_config 7 9 3 16 1000 64 true power_on))) = (3, 4) ∧
    ((spi_slave_config 7 9 3 24 1000 64 true power_on).rxftlr,
      cmd_reads (slave_frame_width (spi_slave_config 7 9 3 24 1000 64 true power_on))) = (1, 2) ∧
    ((spi_slave_config 7 9 3 32 1000 64 true power_on).rxftlr,
      cmd_reads (slave_frame_width (spi_slave_config 7 9 3 32 1000 64 true power_on))) = (1, 2) := by
  decide

end Spi
